import Mathlib

/-!
# StereoStream: UDP frame transport and control-plane dispatcher

A shallow embedding of `main_visionpro.cpp` (SimpleJson, UdpImageSender,
VideoRecorder, ControlServer, VisionProApp) and theorems about it.

Conventions of the embedding
* a `std::string` is the list of its characters (`Str`);
* a `std::map<string, string>` is an association list kept sorted by key;
* `int` values are `Int`, `size_t`/`uint16_t`/`uint32_t` values are `Nat`, with
  the reduction modulo `2^w` written out wherever the source converts or wraps;
* an operation whose C++ behaviour is undefined (signed overflow, a copy outside
  its buffer, `front()` of an empty string) or that does not return yields `none`;
* what the operating system, the camera and the codec decide is an explicit
  parameter (`Env`).
-/

namespace StereoStream

/-- Text of a `std::string`. -/
abbrev Str := List Char

/-! ## Configuration -/

/-- Mirror of `struct StreamConfig`, with the defaults of the source. -/
structure StreamConfig where
  target_ip : Str := []
  target_port : Int := 9003
  width : Int := 640
  height : Int := 480
  max_payload : Int := 1400
  jpeg_quality : Int := 50
  fps : Int := 30
  streaming_enabled : Bool := false
deriving DecidableEq

/-- Mirror of `struct RecordConfig`. -/
structure RecordConfig where
  save_path : Str := ['.']
  filename : Str := "recording".data
  recording_enabled : Bool := false
  fps : Int := 30
deriving DecidableEq

/-- Mirror of `enum class AppState`. -/
inductive AppState where
  | IDLE
  | STREAMING
  | RECORDING
  | STREAMING_RECORDING
  | STOPPED
deriving DecidableEq

/-- Mirror of `stateToString`. -/
def stateToString : AppState → Str
  | .IDLE => "idle".data
  | .STREAMING => "streaming".data
  | .RECORDING => "recording".data
  | .STREAMING_RECORDING => "streaming_recording".data
  | .STOPPED => "stopped".data

/-! ## UDP image sender -/

/-- The part of a `cv::Mat` the program looks at: its shape and its bytes. -/
structure Mat where
  rows : Int
  cols : Int
  channels : Int
  data : List Nat
deriving DecidableEq

/-- Fields of `class UdpImageSender` (the mutex, the condition variable and the
thread handle have no value of their own and are left out). -/
structure UdpImageSender where
  config_ : StreamConfig
  sock_fd_ : Int
  frame_id_ : Nat
  connected_ : Bool
  stop_flag_ : Bool
  frame_queue_ : List Mat
deriving DecidableEq

/-- The constructor `UdpImageSender()`: `sock_fd_(-1), frame_id_(0),
connected_(false), stop_flag_(true)`, default configuration, empty queue. -/
def UdpImageSender.new : UdpImageSender :=
  { config_ := {}, sock_fd_ := -1, frame_id_ := 0, connected_ := false,
    stop_flag_ := true, frame_queue_ := [] }

/-- Conversion of an `int` to `size_t` (64 bit). -/
def toSizeT (x : Int) : Nat := (x % 18446744073709551616).toNat

/-- Whether a mathematical result is representable as a 32-bit `int`. -/
def inInt (x : Int) : Bool := decide (-2147483648 ≤ x) && decide (x < 2147483648)

/-- The four bytes in memory of `htonl x`: `x` big-endian. -/
def htonl (x : Nat) : List Nat :=
  [x / 16777216 % 256, x / 65536 % 256, x / 256 % 256, x % 256]

/-- The two bytes in memory of `htons x`: `x` big-endian. -/
def htons (x : Nat) : List Nat := [x / 256 % 256, x % 256]

/-- Body of the `for` loop of `sendPackets` at index `idx`: the datagram handed
to `send`, or `none` when the iteration is undefined (`idx * max_payload`
overflows `int`, or a `memcpy` leaves the frame or the packet buffer).
`cap` is the size of `packet_buf`. -/
def sendPacketsBody (fid : Nat) (max_payload : Int) (cap : Nat) (total_packets : Nat)
    (data : List Nat) (idx : Nat) : Option (List Nat) :=
  let prod : Int := (idx : Int) * max_payload
  if inInt prod then
    let start := toSizeT prod
    let total_len := data.length
    let e := min ((start + toSizeT max_payload) % 18446744073709551616) total_len
    let chunk_size := (e + 18446744073709551616 - start) % 18446744073709551616
    if start + chunk_size ≤ total_len ∧ 8 + chunk_size ≤ cap then
      some (htonl fid ++ htons idx ++ htons total_packets ++ (data.drop start).take chunk_size)
    else none
  else none

/-- The `for (uint16_t idx = ...; idx < total_packets; idx++)` loop with `n`
iterations left: the datagrams sent, in order. -/
def sendPacketsLoop (body : Nat → Option (List Nat)) : Nat → Nat → Option (List (List Nat))
  | 0, _ => some []
  | n + 1, idx =>
    match body idx with
    | none => none
    | some d =>
      match sendPacketsLoop body n (idx + 1) with
      | none => none
      | some ds => some (d :: ds)

/-- Mirror of `UdpImageSender::sendPackets`: the sender after the call and the
datagrams handed to `send`, in order; `none` when the call is undefined
(division by zero, `8 + max_payload` not an `int` or negative as a vector
size, or an undefined loop iteration). -/
def sendPackets (s : UdpImageSender) (data : List Nat) :
    Option (UdpImageSender × List (List Nat)) :=
  let fid := s.frame_id_ % 4294967296
  let s1 := { s with frame_id_ := (s.frame_id_ + 1) % 4294967296 }
  let total_len := data.length
  let mp := toSizeT s.config_.max_payload
  if mp = 0 then none
  else
    let total_packets :=
      (((total_len + mp) % 18446744073709551616 + 18446744073709551616 - 1)
        % 18446744073709551616 / mp) % 65536
    let capInt : Int := 8 + s.config_.max_payload
    if inInt capInt && decide (0 ≤ capInt) then
      match sendPacketsLoop
          (sendPacketsBody fid s.config_.max_payload capInt.toNat total_packets data)
          total_packets 0 with
      | none => none
      | some ds => some (s1, ds)
    else none

/-- Successive calls of `sendPackets` on one sender, one per encoded frame:
the final sender and the datagrams of each call. -/
def sendPacketsAll : UdpImageSender → List (List Nat) →
    Option (UdpImageSender × List (List (List Nat)))
  | s, [] => some (s, [])
  | s, f :: fs =>
    match sendPackets s f with
    | none => none
    | some (s1, ds) =>
      match sendPacketsAll s1 fs with
      | none => none
      | some (s2, dss) => some (s2, ds :: dss)

/-- The rounded-up quotient `ceil(L / P)` of the specification. -/
def ceilDiv (L P : Nat) : Nat := (L + P - 1) / P

/-! ### What the specification says of a fragment -/

/-- The `k` bytes of `x` in network byte order (most significant first). -/
def bigEndian : Nat → Nat → List Nat
  | 0, _ => []
  | k + 1, x => bigEndian k (x / 256) ++ [x % 256]

/-- The fragment the specification describes: frame id (4 bytes), fragment
index (2 bytes), total (2 bytes), all big-endian, then the bytes
`[index * P, min ((index + 1) * P) L)` of the frame. -/
def fragment (frame_id total P : Nat) (data : List Nat) (index : Nat) : List Nat :=
  bigEndian 4 frame_id ++ bigEndian 2 index ++ bigEndian 2 total ++
    (data.drop (index * P)).take (min ((index + 1) * P) data.length - index * P)

/-- The fragment index a receiver reads at bytes 4 and 5 of a datagram. -/
def fragmentIndex (d : List Nat) : Nat := d.getD 4 0 * 256 + d.getD 5 0

/-- The payload of a datagram: the bytes after the 8-byte header. -/
def payload (d : List Nat) : List Nat := d.drop 8

/-- Mirror of `UdpImageSender::isRunning`. -/
def UdpImageSender.isRunning (s : UdpImageSender) : Bool := !s.stop_flag_ && s.connected_

/-- Mirror of `UdpImageSender::open`; `sock_ret` and `connect_ret` are what `socket`
and `connect` return. The sender after the call and the returned flag. -/
def UdpImageSender.open (s : UdpImageSender) (config : StreamConfig)
    (sock_ret connect_ret : Int) : UdpImageSender × Bool :=
  let s1 := { s with config_ := config, sock_fd_ := sock_ret }
  if sock_ret < 0 then (s1, false)
  else if connect_ret < 0 then ({ s1 with sock_fd_ := -1 }, false)
  else ({ s1 with connected_ := true, stop_flag_ := false }, true)

/-- Mirror of `UdpImageSender::close` (the worker has been joined when it returns). -/
def UdpImageSender.close (s : UdpImageSender) : UdpImageSender :=
  { s with stop_flag_ := true,
           sock_fd_ := if 0 ≤ s.sock_fd_ then -1 else s.sock_fd_,
           connected_ := false }

/-- The loop `while (!frame_queue_.empty()) frame_queue_.pop();`. -/
def popAll : List Mat → List Mat
  | [] => []
  | _ :: q => popAll q

/-- Mirror of `UdpImageSender::sendImage` (`img.clone()` is a copy of `img`). -/
def UdpImageSender.sendImage (s : UdpImageSender) (img : Mat) : UdpImageSender :=
  if s.stop_flag_ || !s.connected_ then s
  else { s with frame_queue_ := popAll s.frame_queue_ ++ [img] }

/-- The locked section of one turn of `workerLoop` once the wait is over: the sender
afterwards and the frame taken from the queue, `none` when the turn takes no frame
(stop requested, or the queue is empty). -/
def UdpImageSender.workerDequeue (s : UdpImageSender) : UdpImageSender × Option Mat :=
  if s.stop_flag_ then (s, none)
  else
    match s.frame_queue_ with
    | [] => (s, none)
    | img :: rest => ({ s with frame_queue_ := rest }, some img)

/-- The operations that touch a sender's queue or its open/closed status. -/
inductive SenderOp where
  | sendImage (img : Mat)
  | workerDequeue
  | open (config : StreamConfig) (sock_ret connect_ret : Int)
  | close

/-- Effect of one operation on the sender. -/
def SenderOp.apply (s : UdpImageSender) : SenderOp → UdpImageSender
  | .sendImage img => s.sendImage img
  | .workerDequeue => s.workerDequeue.1
  | .open config sock_ret connect_ret => (s.open config sock_ret connect_ret).1
  | .close => s.close

/-- An open sender (socket 3, default configuration) whose queue is `q`. -/
def openSender (q : List Mat) : UdpImageSender :=
  { UdpImageSender.new with
    sock_fd_ := 3, connected_ := true, stop_flag_ := false, frame_queue_ := q }

/-! ## SimpleJson -/

/-- A `std::map<string, string>`: its entries in increasing key order. -/
abbrev JsonMap := List (Str × Str)

/-- Order `operator<` of `std::string`: lexicographic on the character codes. -/
def strLt : Str → Str → Bool
  | [], [] => false
  | [], _ :: _ => true
  | _ :: _, [] => false
  | a :: as, b :: bs =>
    if a.toNat < b.toNat then true
    else if b.toNat < a.toNat then false
    else strLt as bs

/-- Assignment `m[k] = v` on a map: the entry is replaced, or inserted at its place
in key order. -/
def mapSet : JsonMap → Str → Str → JsonMap
  | [], k, v => [(k, v)]
  | (k0, v0) :: rest, k, v =>
    if k = k0 then (k, v) :: rest
    else if strLt k k0 then (k, v) :: (k0, v0) :: rest
    else (k0, v0) :: mapSet rest k v

/-- Lookup `m.find(k)`: the value, `none` for `end()`. -/
def mapFind : JsonMap → Str → Option Str
  | [], _ => none
  | (k0, v0) :: rest, k => if k = k0 then some v0 else mapFind rest k

/-- First index `i ≥ start` of a character of `cs` that satisfies `p`, where `cs`
is the text from index `start` on. -/
def findFrom (p : Char → Bool) : Str → Nat → Option Nat
  | [], _ => none
  | c :: cs, i => if p c then some i else findFrom p cs (i + 1)

/-- Mirror of `s.find(c, pos)`; `none` is `string::npos`. -/
def find (s : Str) (c : Char) (pos : Nat) : Option Nat :=
  findFrom (fun x => x == c) (s.drop pos) pos

/-- Mirror of `s.find_first_of(chars, pos)`; `none` is `string::npos`. -/
def find_first_of (s : Str) (chars : Str) (pos : Nat) : Option Nat :=
  findFrom (fun x => chars.contains x) (s.drop pos) pos

/-- Mirror of `s.substr(pos, n)` for `pos ≤ s.size()`. -/
def substr (s : Str) (pos n : Nat) : Str := (s.drop pos).take n

/-- The value `string::npos` of a 64-bit `size_t`. -/
def npos : Nat := 18446744073709551615

/-- Mirror of `class SimpleJson`: its member `data`. -/
structure SimpleJson where
  data : JsonMap
deriving DecidableEq

/-- The four `erase(remove(...))` passes of `parse`: blanks, line feeds, carriage
returns and tabs are dropped. -/
def removeWhitespace (s : Str) : Str :=
  (((s.filter (fun c => c != ' ')).filter (fun c => c != '\n')).filter
    (fun c => c != '\r')).filter (fun c => c != '\t')

/-- The two statements of `parse` that drop a leading `{` and a trailing `}`;
`none` when `front()` or `back()` is applied to an empty string. -/
def stripBraces (s : Str) : Option Str :=
  match s.head? with
  | none => none
  | some c =>
    let s1 := if c = '{' then substr s 1 npos else s
    match s1.getLast? with
    | none => none
    | some c2 => some (if c2 = '}' then substr s1 0 (s1.length - 1) else s1)

/-- One turn of the `while` loop of `parse` started at `pos` (with `pos < s.length()`):
`none` when the turn leaves the loop by `break`, otherwise the value of `pos` at the
end of the turn and the map after `result.data[key] = value`. -/
def parseIter (s : Str) (pos : Nat) (data : JsonMap) : Option (Nat × JsonMap) :=
  match find s '"' pos with
  | none => none
  | some key_start =>
    match find s '"' (key_start + 1) with
    | none => none
    | some key_end =>
      let key := substr s (key_start + 1) (key_end - key_start - 1)
      match find s ':' key_end with
      | none => none
      | some colon =>
        let val_start := colon + 1
        let vp : Str × Nat :=
          if s.getD val_start '\x00' = '"' then
            match find s '"' (val_start + 1) with
            | some val_end =>
              (substr s (val_start + 1) (val_end - val_start - 1), val_end + 1)
            | none =>
              (substr s (val_start + 1) (npos - val_start - 1),
                (npos + 1) % 18446744073709551616)
          else
            let val_end := (find_first_of s [',', '}'] val_start).getD s.length
            (substr s val_start (val_end - val_start), val_end)
        let pos1 := vp.2
        let pos2 := if pos1 < s.length ∧ s.getD pos1 '\x00' = ',' then pos1 + 1 else pos1
        some (pos2, mapSet data key vp.1)

/-- The `while (pos < s.length())` loop of `parse`, run for at most `fuel` turns:
the map when the loop is left, `none` when it is still running after `fuel` turns. -/
def parseLoop (s : Str) : Nat → Nat → JsonMap → Option JsonMap
  | 0, _, _ => none
  | fuel + 1, pos, data =>
    if pos < s.length then
      match parseIter s pos data with
      | none => some data
      | some (pos1, data1) => parseLoop s fuel pos1 data1
    else some data

/-- Mirror of `SimpleJson::parse`. The loop is given `s.length() + 1` turns, which is
one more than a run that leaves the loop can take; `none` when the call does not
return a value (the loop does not end, or `front()`/`back()` meets an empty string). -/
def SimpleJson.parse (json_str : Str) : Option SimpleJson :=
  match stripBraces (removeWhitespace json_str) with
  | none => none
  | some s =>
    match parseLoop s (s.length + 1) 0 [] with
    | none => none
    | some data => some ⟨data⟩

/-- Mirror of `SimpleJson::get`. -/
def SimpleJson.get (j : SimpleJson) (key : Str) (default_val : Str := []) : Str :=
  match mapFind j.data key with
  | some v => v
  | none => default_val

/-- Mirror of `isspace` in the "C" locale. -/
def isspace (c : Char) : Bool :=
  c = ' ' || c = '\t' || c = '\n' || c = '\x0b' || c = '\x0c' || c = '\r'

/-- Mirror of `isdigit`. -/
def isdigit (c : Char) : Bool := decide ('0'.toNat ≤ c.toNat) && decide (c.toNat ≤ '9'.toNat)

/-- Value of a run of decimal digits, most significant first, after `acc`. -/
def digitsValue : Str → Nat → Nat
  | [], acc => acc
  | c :: cs, acc => digitsValue cs (acc * 10 + (c.toNat - '0'.toNat))

/-- Mirror of `std::stoi(str)`: leading white space, an optional sign and the
longest run of decimal digits; `none` when it throws (`invalid_argument` for no
digit, `out_of_range` for a value that is not an `int`). -/
def stoi (str : Str) : Option Int :=
  let s1 := str.dropWhile isspace
  let neg := s1.head? = some '-'
  let s2 := if s1.head? = some '-' ∨ s1.head? = some '+' then s1.drop 1 else s1
  let ds := s2.takeWhile isdigit
  if ds = [] then none
  else
    let v : Int := if neg then -(digitsValue ds 0 : Int) else (digitsValue ds 0 : Int)
    if inInt v then some v else none

/-- Mirror of `SimpleJson::getInt`. -/
def SimpleJson.getInt (j : SimpleJson) (key : Str) (default_val : Int := 0) : Int :=
  match mapFind j.data key with
  | some v =>
    match stoi v with
    | some n => n
    | none => default_val
  | none => default_val

/-- Mirror of `SimpleJson::getBool`. -/
def SimpleJson.getBool (j : SimpleJson) (key : Str) (default_val : Bool := false) : Bool :=
  match mapFind j.data key with
  | some v => v = "true".data || v = "1".data
  | none => default_val

/-- Mirror of `SimpleJson::hasKey`. -/
def SimpleJson.hasKey (j : SimpleJson) (key : Str) : Bool := (mapFind j.data key).isSome

/-- The text `stringify` writes for one entry. -/
def stringifyEntry (kv : Str × Str) : Str :=
  ['"'] ++ kv.1 ++ ['"', ':'] ++
    (if kv.2 = "true".data ∨ kv.2 = "false".data ∨
        (kv.2 ≠ [] ∧ (isdigit (kv.2.headD '\x00') = true ∨ kv.2.headD '\x00' = '-'))
     then kv.2
     else ['"'] ++ kv.2 ++ ['"'])

/-- Mirror of `SimpleJson::stringify`. -/
def SimpleJson.stringify (obj : JsonMap) : Str :=
  ['{'] ++ [','].intercalate (obj.map stringifyEntry) ++ ['}']

/-- Mirror of `std::to_string(int)`. -/
def to_string (n : Int) : Str := (toString n).data

/-! ## Video recorder -/

/-- Fields of `class VideoRecorder` (the `cv::VideoWriter` itself is external). -/
structure VideoRecorder where
  filepath_ : Str
  is_recording_ : Bool
deriving DecidableEq

/-- The constructor `VideoRecorder()`. -/
def VideoRecorder.new : VideoRecorder := { filepath_ := [], is_recording_ := false }

/-- The `while (true)` loop of `getUniqueFilename` started at `counter`, with `fuel`
values of `counter` left before `counter++` overflows `int`. -/
def getUniqueFilenameLoop (fs_exists : Str → Bool) (path basename ext : Str) :
    Nat → Nat → Option Str
  | 0, _ => none
  | fuel + 1, counter =>
    let full_path := path ++ ['/'] ++ basename ++ ['_'] ++ to_string counter ++ ext
    if !fs_exists full_path then some full_path
    else getUniqueFilenameLoop fs_exists path basename ext fuel (counter + 1)

/-- Mirror of `VideoRecorder::getUniqueFilename`; `fs_exists` is `fs::exists`. The
counter runs over the positive `int` values `1 .. 2147483647`; `none` when all the
candidates exist. -/
def getUniqueFilename (fs_exists : Str → Bool) (path basename ext : Str) : Option Str :=
  let full_path := path ++ ['/'] ++ basename ++ ext
  if !fs_exists full_path then some full_path
  else getUniqueFilenameLoop fs_exists path basename ext 2147483647 1

/-- Mirror of `VideoRecorder::stop`. -/
def VideoRecorder.stop (r : VideoRecorder) : VideoRecorder :=
  if r.is_recording_ then { r with is_recording_ := false } else r

/-- Mirror of `VideoRecorder::start`. `create_directories` is the outcome of
`fs::create_directories(path)`: `none` when it throws `filesystem_error` (nothing in
the program catches it, so the call does not return), otherwise the predicate
`fs::exists` as `getUniqueFilename` then sees it. `writer_opens` tells whether the
writer is open after `writer_.open(filepath_, fourcc, fps, Size(width, height), true)`. -/
def VideoRecorder.start (create_directories : Str → Option (Str → Bool))
    (writer_opens : Str → Int → Int → Int → Bool)
    (r : VideoRecorder) (path filename : Str) (width height fps : Int) :
    Option (VideoRecorder × Bool) :=
  let r1 := if r.is_recording_ then r.stop else r
  match create_directories path with
  | none => none
  | some fs_exists =>
    match getUniqueFilename fs_exists path filename ".mp4".data with
    | none => none
    | some fp =>
      let r2 := { r1 with filepath_ := fp }
      if writer_opens fp width height fps then some ({ r2 with is_recording_ := true }, true)
      else some (r2, false)

/-! ## Control server -/

/-- What a `ControlServer` did on its connections, in order. -/
inductive ControlEvent where
  | sendResponse (response : Str)
  | send (fd : Int) (text : Str)
  | close (fd : Int)
deriving DecidableEq

/-- Fields of `class ControlServer`, and the record `log` of its calls of
`sendResponse`, `send` and `close` on client connections. -/
structure ControlServer where
  server_fd_ : Int
  port_ : Int
  pending_client_fd_ : Int := -1
  running_ : Bool
  log : List ControlEvent := []
deriving DecidableEq

/-- Mirror of `ControlServer::sendResponse`. -/
def ControlServer.sendResponse (c : ControlServer) (response : Str) : ControlServer :=
  let c1 := { c with log := c.log ++ [ControlEvent.sendResponse response] }
  if 0 ≤ c1.pending_client_fd_ then
    { c1 with
      pending_client_fd_ := -1,
      log := c1.log ++ [ControlEvent.send c1.pending_client_fd_ (response ++ ['\n']),
                        ControlEvent.close c1.pending_client_fd_] }
  else c1

/-- Mirror of `ControlServer::pollCommand`; `incoming` is the connection accepted
and the text read from it when there is one and `recv` returned `n > 0`. -/
def ControlServer.pollCommand (c : ControlServer) (incoming : Option (Int × Str)) :
    ControlServer × Option Str :=
  if !c.running_ || decide (c.server_fd_ < 0) then (c, none)
  else
    match incoming with
    | none => (c, none)
    | some (client_fd, text) => ({ c with pending_client_fd_ := client_fd }, some text)

/-- Mirror of `ControlServer::stop`. -/
def ControlServer.stop (c : ControlServer) : ControlServer :=
  { c with running_ := false, server_fd_ := if 0 ≤ c.server_fd_ then -1 else c.server_fd_ }

/-- Mirror of `ControlServer::getPort`. -/
def ControlServer.getPort (c : ControlServer) : Int := c.port_

/-! ## Application -/

/-- What the world outside the program answers while one command is handled. -/
structure Env where
  /-- Value returned by `socket` in `UdpImageSender::open`. -/
  socket_ret : Int
  /-- Value returned by `connect` in `UdpImageSender::open`. -/
  connect_ret : Int
  /-- Width of `zed_.getCameraInformation().camera_configuration.resolution`. -/
  camera_width : Int
  /-- Height of the same resolution. -/
  camera_height : Int
  /-- The predicate `fs::exists` before the command is handled. -/
  fs_exists : Str → Bool
  /-- Outcome of `fs::create_directories(path)`: `none` when it throws
  `filesystem_error`, otherwise the predicate `fs::exists` once it has returned. Where
  nothing else is said the call throws on the empty path, which names no directory,
  and otherwise returns and leaves every path as it was. -/
  create_directories : Str → Option (Str → Bool) :=
    fun p => if p = [] then none else some fs_exists
  /-- Whether the video writer is open after `writer_.open`. -/
  writer_opens : Str → Int → Int → Int → Bool
  /-- The string `sendStereoParams(target_ip, target_port, payload)` returns; the
  payload is a function of the parsed command, which is passed in its place. -/
  sendStereoParams : Str → Int → JsonMap → Str

/-- Fields of `class VisionProApp` (`control_server_` is the server built by
`init`), and the record `socket_calls` of the targets of the `socket` calls made
while handling commands. -/
structure VisionProApp where
  sender_ : Option UdpImageSender
  recorder_ : Option VideoRecorder
  control_server_ : ControlServer
  stream_config_ : StreamConfig
  record_config_ : RecordConfig
  state_ : AppState
  running_ : Bool
  show_preview_ : Bool
  socket_calls : List (Str × Int) := []
deriving DecidableEq

/-- The test `sender_ && sender_->isRunning()`. -/
def VisionProApp.streaming (app : VisionProApp) : Bool :=
  match app.sender_ with
  | some s => s.isRunning
  | none => false

/-- The test `recorder_ && recorder_->isRecording()`. -/
def VisionProApp.recording (app : VisionProApp) : Bool :=
  match app.recorder_ with
  | some r => r.is_recording_
  | none => false

/-- Mirror of `VisionProApp::updateState`. -/
def VisionProApp.updateState (app : VisionProApp) : VisionProApp :=
  let streaming := app.streaming
  let recording := app.recording
  if streaming && recording then { app with state_ := AppState.STREAMING_RECORDING }
  else if streaming then { app with state_ := AppState.STREAMING }
  else if recording then { app with state_ := AppState.RECORDING }
  else { app with state_ := AppState.IDLE }

/-- Mirror of `VisionProApp::cleanup`. -/
def VisionProApp.cleanup (app : VisionProApp) : VisionProApp :=
  { app with
    state_ := AppState.STOPPED,
    sender_ := app.sender_.map UdpImageSender.close,
    recorder_ := app.recorder_.map VideoRecorder.stop,
    control_server_ := app.control_server_.stop }

/-- Whether `pat` occurs in `s`: the test `s.find(pat) != string::npos`. -/
def containsStr (pat : Str) : Str → Bool
  | [] => pat.isEmpty
  | c :: cs => pat.isPrefixOf (c :: cs) || containsStr pat cs

/-- The two assignments `response["status"] = status; response["message"] = message;`
on the empty map with which every branch but `get_status` starts. -/
def statusMessage (status message : Str) : JsonMap :=
  mapSet (mapSet [] "status".data status) "message".data message

/-- Branch `start_stream` of `handleCommand`. -/
def VisionProApp.startStream (env : Env) (app : VisionProApp) (cmd : SimpleJson) :
    VisionProApp × JsonMap :=
  let ip := cmd.get "ip".data "192.168.0.140".data
  let port := cmd.getInt "port".data 9003
  let quality := cmd.getInt "quality".data 50
  let width := cmd.getInt "width".data 640
  let height := cmd.getInt "height".data 480
  if ip = [] then (app, statusMessage "error".data "IP address required".data)
  else
    -- `if (sender_) sender_->close();` acts on the sender that is replaced below
    let cfg := { app.stream_config_ with
      target_ip := ip, target_port := port, jpeg_quality := quality,
      width := width, height := height }
    let opened := UdpImageSender.new.open cfg env.socket_ret env.connect_ret
    let app1 := { app with
      stream_config_ := cfg, sender_ := some opened.1,
      socket_calls := app.socket_calls ++ [(ip, port)] }
    if opened.2 then (app1, statusMessage "ok".data "Streaming started".data)
    else (app1, statusMessage "error".data "Failed to start streaming".data)

/-- Branch `stop_stream` of `handleCommand`. -/
def VisionProApp.stopStream (app : VisionProApp) : VisionProApp × JsonMap :=
  ({ app with sender_ := none }, statusMessage "ok".data "Streaming stopped".data)

/-- Branch `start_record` of `handleCommand`; `none` when `fs::create_directories`
throws or `getUniqueFilename` finds no free name. -/
def VisionProApp.startRecord (env : Env) (app : VisionProApp) (cmd : SimpleJson) :
    Option (VisionProApp × JsonMap) :=
  let path := cmd.get "path".data ".".data
  let filename := cmd.get "filename".data "recording".data
  let recorder := app.recorder_.getD VideoRecorder.new
  let width := env.camera_width * 2
  let height := env.camera_height
  match recorder.start env.create_directories env.writer_opens path filename width height
      app.record_config_.fps with
  | none => none
  | some (recorder1, ok) =>
    let app1 := { app with recorder_ := some recorder1 }
    if ok then
      some (app1, mapSet (statusMessage "ok".data "Recording started".data)
        "filepath".data recorder1.filepath_)
    else some (app1, statusMessage "error".data "Failed to start recording".data)

/-- Branch `stop_record` of `handleCommand`. -/
def VisionProApp.stopRecord (app : VisionProApp) : VisionProApp × JsonMap :=
  match app.recorder_ with
  | some recorder =>
    let filepath := recorder.filepath_
    ({ app with recorder_ := some recorder.stop },
      mapSet (statusMessage "ok".data "Recording stopped".data) "filepath".data filepath)
  | none => (app, statusMessage "ok".data "No active recording".data)

/-- Branch `get_status` of `handleCommand`. -/
def VisionProApp.getStatus (app : VisionProApp) : VisionProApp × JsonMap :=
  let app1 := app.updateState
  let r1 := mapSet [] "status".data "ok".data
  let r2 := mapSet r1 "state".data (stateToString app1.state_)
  let r3 := mapSet r2 "streaming".data (if app1.streaming then "true".data else "false".data)
  let r4 := mapSet r3 "recording".data (if app1.recording then "true".data else "false".data)
  let r5 :=
    match app1.recorder_ with
    | some recorder =>
      if recorder.is_recording_ then mapSet r4 "recording_file".data recorder.filepath_
      else r4
    | none => r4
  (app1, mapSet r5 "control_port".data (to_string app1.control_server_.getPort))

/-- Branch `set_stereo_params` of `handleCommand`. -/
def VisionProApp.setStereoParams (env : Env) (app : VisionProApp) (cmd : SimpleJson) :
    VisionProApp × JsonMap :=
  let target_ip := cmd.get "target_ip".data "192.1680.".data
  let target_port := cmd.getInt "target_port".data 9004
  if target_ip = [] then (app, statusMessage "error".data "target_ip required".data)
  else
    let result := env.sendStereoParams target_ip target_port cmd.data
    let app1 := { app with socket_calls := app.socket_calls ++ [(target_ip, target_port)] }
    if !containsStr "error".data result then
      (app1, mapSet (statusMessage "ok".data "Stereo params sent".data)
        "device_response".data result)
    else (app1, statusMessage "error".data result)

/-- Branch `quit` of `handleCommand`. -/
def VisionProApp.quit (app : VisionProApp) : VisionProApp × JsonMap :=
  ({ app with running_ := false }, statusMessage "ok".data "Shutting down".data)

/-- Last branch of `handleCommand`: no known action. -/
def VisionProApp.unknownAction (app : VisionProApp) (action : Str) : VisionProApp × JsonMap :=
  (app, statusMessage "error".data ("Unknown action: ".data ++ action))

/-- The `if (action == ...) ... else if ...` chain of `VisionProApp::handleCommand` on
the parsed command: the application after the branch taken and the map `response`
it has filled; `none` when the branch does not return. -/
def VisionProApp.dispatch (env : Env) (app : VisionProApp) (cmd : SimpleJson) :
    Option (VisionProApp × JsonMap) :=
  let action := cmd.get "action".data
  if action = "start_stream".data then some (app.startStream env cmd)
  else if action = "stop_stream".data then some app.stopStream
  else if action = "start_record".data then app.startRecord env cmd
  else if action = "stop_record".data then some app.stopRecord
  else if action = "get_status".data then some app.getStatus
  else if action = "set_stereo_params".data then some (app.setStereoParams env cmd)
  else if action = "quit".data then some app.quit
  else some (app.unknownAction action)

/-- The last statement of `handleCommand` on the application `app` left by the
branch: `control_server_->sendResponse(SimpleJson::stringify(response))`. -/
def VisionProApp.sendResponded (app : VisionProApp) (response : JsonMap) : VisionProApp :=
  { app with
    control_server_ := app.control_server_.sendResponse (SimpleJson.stringify response) }

/-- Mirror of `VisionProApp::handleCommand`: parse, dispatch on the action, then
`control_server_->sendResponse(SimpleJson::stringify(response))`. The application
afterwards and the map `response`; `none` when the call does not return. -/
def VisionProApp.handleCommand (env : Env) (app : VisionProApp) (cmd_str : Str) :
    Option (VisionProApp × JsonMap) :=
  match SimpleJson.parse cmd_str with
  | none => none
  | some cmd =>
    match app.dispatch env cmd with
    | none => none
    | some (app1, response) => some (app1.sendResponded response, response)

/-- What one turn of the main loop of `run` receives from outside. -/
structure LoopInput where
  env : Env
  /-- Connection accepted and text read by `pollCommand`, if any. -/
  incoming : Option (Int × Str)
  /-- Whether `zed_.grab()` succeeded. -/
  grab_ok : Bool
  /-- The side-by-side image built from the two views. -/
  stereo_image : Mat
  /-- The key returned by `cv::waitKey(1)`. -/
  key : Char

/-- One turn of the `while (running_)` loop of `VisionProApp::run` (the preview
display and the FPS counter write nothing to the application). -/
def VisionProApp.loopTurn (inp : LoopInput) (app : VisionProApp) : Option VisionProApp :=
  let polled := app.control_server_.pollCommand inp.incoming
  let app1 := { app with control_server_ := polled.1 }
  let handled : Option VisionProApp :=
    match polled.2 with
    | some cmd =>
      match app1.handleCommand inp.env cmd with
      | none => none
      | some r => some r.1
    | none => some app1
  match handled with
  | none => none
  | some app2 =>
    if !inp.grab_ok then some app2
    else
      let app3 :=
        match app2.sender_ with
        | some s =>
          if s.isRunning then { app2 with sender_ := some (s.sendImage inp.stereo_image) }
          else app2
        | none => app2
      let app4 := app3.updateState
      if app4.show_preview_ && inp.key == 'q' then some { app4 with running_ := false }
      else some app4

/-- Mirror of `VisionProApp::run` on the inputs of its successive turns: the loop
runs while `running_` holds, then `cleanup()`; `none` when the loop is still
running after the last input, or when a command does not return. -/
def VisionProApp.run : VisionProApp → List LoopInput → Option VisionProApp
  | app, [] => if app.running_ then none else some app.cleanup
  | app, inp :: rest =>
    if app.running_ then
      match app.loopTurn inp with
      | none => none
      | some app1 => VisionProApp.run app1 rest
    else some app.cleanup

/-! ## Sample values -/

/-- An outside world in which the datagram socket opens (descriptor 5), no file
exists, the video writer opens, the camera is 672 x 376 and the relay answers
nothing (so `sendStereoParams` returns `ok`). -/
def sampleEnv : Env :=
  { socket_ret := 5, connect_ret := 0, camera_width := 672, camera_height := 376,
    fs_exists := fun _ => false, writer_opens := fun _ _ _ _ => true,
    sendStereoParams := fun _ _ _ => "ok".data }

/-- The application after `init`: state of the constructor (`IDLE`, running, preview
flag as given), no sender, no recorder, control server listening on `port`. -/
def VisionProApp.initial (port : Int) (preview : Bool) : VisionProApp :=
  { sender_ := none, recorder_ := none,
    control_server_ := { server_fd_ := 3, port_ := port, running_ := true },
    stream_config_ := {}, record_config_ := {},
    state_ := AppState.IDLE, running_ := true, show_preview_ := preview }

/-- The application of `VisionProApp.initial` with the connection `fd` accepted and
waiting for its answer. -/
def VisionProApp.pending (port fd : Int) : VisionProApp :=
  { VisionProApp.initial port false with
    control_server_ := { server_fd_ := 3, port_ := port, running_ := true,
                         pending_client_fd_ := fd } }

/-- What the specification asks of every response: a `status` field whose value is
`ok` or `error`, and a `message` field. -/
def Answered (response : JsonMap) : Prop :=
  (mapFind response "status".data = some "ok".data ∨
    mapFind response "status".data = some "error".data) ∧
  ∃ msg, mapFind response "message".data = some msg

/-- A turn of the main loop that receives `{"action":"quit"}` on connection 7 and
grabs a frame. -/
def quitInput : LoopInput :=
  { env := sampleEnv, incoming := some (7, "\x7b\"action\":\"quit\"\x7d".data),
    grab_ok := true, stereo_image := ⟨480, 1280, 3, []⟩, key := 'x' }

/-- The loop of `parse` goes from position `p` to position `q` in `m` turns, none
of which leaves the loop. -/
inductive ParseSteps (s : Str) : Nat → Nat → Nat → Prop where
  | refl (p : Nat) : ParseSteps s 0 p p
  | step {m p p1 q : Nat} : p < s.length →
      (∀ d, ∃ d1, parseIter s p d = some (p1, d1)) → ParseSteps s m p1 q →
      ParseSteps s (m + 1) p q

/-- The command `{"action":"start_stream","ip":"127.0.0.1","port":9100,"quality":40,
"width":320,"height":240}` of the end-to-end scenario. -/
def startStreamText : Str :=
  ("\x7b\"action\":\"start_stream\",\"ip\":\"127.0.0.1\",\"port\":9100," ++
    "\"quality\":40,\"width\":320,\"height\":240\x7d").data

/-- The command `{"action":"get_status"}`. -/
def getStatusText : Str := "\x7b\"action\":\"get_status\"\x7d".data

/-- The command `{"action":"stop_stream"}`. -/
def stopStreamText : Str := "\x7b\"action\":\"stop_stream\"\x7d".data

/-- The map `parse` builds from `startStreamText`. -/
def startStreamCmd : SimpleJson :=
  ⟨[("action".data, "start_stream".data), ("height".data, "240".data),
    ("ip".data, "127.0.0.1".data), ("port".data, "9100".data),
    ("quality".data, "40".data), ("width".data, "320".data)]⟩

/-- The candidate names of the specification, in order: `path/filename.mp4` for
`k = 0`, then `path/filename_k.mp4` with `k` in decimal. -/
def candidateName (path filename : Str) : Nat → Str
  | 0 => path ++ "/".data ++ filename ++ ".mp4".data
  | k + 1 => path ++ "/".data ++ filename ++ "_".data ++ to_string ((k + 1 : Nat) : Int)
      ++ ".mp4".data

/-- A file system in which exactly the paths of at most 18 characters exist: with
path `v` and file name `r`, the names `v/r.mp4` and `v/r_k.mp4` for every `k` of at
most ten digits exist, and `v/r_10000000000.mp4` does not. -/
def crowdedEnv : Env :=
  { socket_ret := 5, connect_ret := 0, camera_width := 672, camera_height := 376,
    fs_exists := fun p => decide (p.length ≤ 18), writer_opens := fun _ _ _ _ => true,
    sendStereoParams := fun _ _ _ => "ok".data }

/-- The command `{"action":"start_record","path":"v","filename":"r"}`. -/
def startRecordText : Str :=
  "\x7b\"action\":\"start_record\",\"path\":\"v\",\"filename\":\"r\"\x7d".data

/-- The command `{"action":"stop_record"}`. -/
def stopRecordText : Str := "\x7b\"action\":\"stop_record\"\x7d".data

/-- A file system in which `v/r.mp4` is the only existing path. -/
def takenEnv : Env :=
  { socket_ret := 5, connect_ret := 0, camera_width := 672, camera_height := 376,
    fs_exists := fun p => decide (p = "v/r.mp4".data), writer_opens := fun _ _ _ _ => true,
    sendStereoParams := fun _ _ _ => "ok".data }

/-- The map `parse` builds from `startRecordText`. -/
def startRecordCmd : SimpleJson :=
  ⟨[("action".data, "start_record".data), ("filename".data, "r".data),
    ("path".data, "v".data)]⟩

/-- The command `{"action":"start_stream","port":9003}`, which has no `ip` field. -/
def startStreamNoIpText : Str := "\x7b\"action\":\"start_stream\",\"port\":9003\x7d".data

/-- A fresh sender whose configuration has `max_payload = 1`. -/
def unitPayloadSender : UdpImageSender :=
  { UdpImageSender.new with config_ := { max_payload := 1 } }

/-! ### JSON number literals -/

/-- Whether `x` is an optional exponent part of a JSON number: nothing, or `e`/`E`,
an optional sign and at least one digit. -/
def isJsonExp (x : Str) : Bool :=
  match x with
  | [] => true
  | e :: t =>
    if e = 'e' ∨ e = 'E' then
      let t1 := if t.head? = some '+' ∨ t.head? = some '-' then t.drop 1 else t
      !t1.isEmpty && t1.all isdigit
    else false

/-- Whether `r` is the rest of a JSON number after its integer part: an optional
fraction `.digits`, then an optional exponent. -/
def isJsonFracExp (r : Str) : Bool :=
  match r with
  | '.' :: t => !(t.takeWhile isdigit).isEmpty && isJsonExp (t.dropWhile isdigit)
  | _ => isJsonExp r

/-- Whether `s` is a JSON number literal: an optional `-`, then `0` or a digit run
not starting with `0`, then an optional fraction and exponent. -/
def isJsonNumber (s : Str) : Bool :=
  let s1 := if s.head? = some '-' then s.drop 1 else s
  match s1 with
  | [] => false
  | c :: rest =>
    if c = '0' then isJsonFracExp rest
    else if isdigit c then isJsonFracExp (rest.dropWhile isdigit)
    else false

/-- The command `{"action":"start_record","path":"2024","filename":"rec"}`. -/
def startRecordDigitsText : Str :=
  "\x7b\"action\":\"start_record\",\"path\":\"2024\",\"filename\":\"rec\"\x7d".data

/-! ### Flat JSON objects, as the specification writes them -/

/-- A value of a flat JSON object: a string (its characters, without the quotes) or
a bare token (a number, `true` or `false`). -/
inductive FlatValue where
  | str (v : Str)
  | bare (t : Str)
deriving DecidableEq

/-- The value as written in the object text: a string between double quotes, a bare
token as it is. -/
def FlatValue.text : FlatValue → Str
  | .str v => ['"'] ++ v ++ ['"']
  | .bare t => t

/-- The text the mapping is to hold for the value: the characters of a string
without its quotes, the text of a bare token. -/
def FlatValue.content : FlatValue → Str
  | .str v => v
  | .bare t => t

/-- One member `"key":value` of the object text. -/
def entryText (e : Str × FlatValue) : Str := ['"'] ++ e.1 ++ ['"', ':'] ++ e.2.text

/-- The members `"k1":v1,...,"kn":vn`, separated by commas. -/
def objectBody : List (Str × FlatValue) → Str
  | [] => []
  | [e] => entryText e
  | e :: e2 :: es => entryText e ++ ',' :: objectBody (e2 :: es)

/-- The object text `{"k1":v1,...,"kn":vn}`. -/
def objectText (es : List (Str × FlatValue)) : Str := ['{'] ++ objectBody es ++ ['}']

/-- The characters `parse` erases: blank, line feed, carriage return, tab. -/
def isBlank (c : Char) : Bool := c == ' ' || c == '\n' || c == '\r' || c == '\t'

/-- A character allowed in a key or a string value: no double quote, no backslash,
none of the characters `parse` erases. -/
def plainChar (c : Char) : Bool := c != '"' && c != '\\' && !isBlank c

/-- A value the claim allows: a string of plain characters, or a bare token that is
a number, `true` or `false`. -/
def FlatValue.wellFormed : FlatValue → Bool
  | .str v => v.all plainChar
  | .bare t => isJsonNumber t || t == "true".data || t == "false".data

/-- A member the claim allows. -/
def entryWellFormed (e : Str × FlatValue) : Bool := e.1.all plainChar && e.2.wellFormed

/-- The characters of numbers, `true` and `false`. -/
def tokenChar (c : Char) : Bool := isdigit c || "-+.eEtrufals".data.contains c

/-- A character the claim allows in a key or a string value: no double quote and no
backslash. -/
def quoteFree (c : Char) : Bool := c != '"' && c != '\\'

/-- A member as the claim describes it: the key and a string value hold no double
quote and no backslash, any other value is a number, `true` or `false`. -/
def entryAsClaimed (e : Str × FlatValue) : Bool :=
  e.1.all quoteFree &&
    match e.2 with
    | .str v => v.all quoteFree
    | .bare t => isJsonNumber t || t == "true".data || t == "false".data

/-- The members of the sample command
`{"action":"start_stream","ip":"192.168.0.140","port":9003,"quality":50}`. -/
def sampleMembers : List (Str × FlatValue) :=
  [("action".data, .str "start_stream".data), ("ip".data, .str "192.168.0.140".data),
    ("port".data, .bare "9003".data), ("quality".data, .bare "50".data)]

/-- The members of `{"path":"my videos"}`: a string value with a blank in it. -/
def spacedMembers : List (Str × FlatValue) := [("path".data, .str "my videos".data)]

/-- The command `{"action":"start_record","path":"","filename":"rec"}`: the path is the
empty string. -/
def startRecordEmptyPathText : Str :=
  "\x7b\"action\":\"start_record\",\"path\":\"\",\"filename\":\"rec\"\x7d".data

/-- An outside world with no file at all, in which `fs::create_directories("")`
throws `filesystem_error` (the empty path names no directory) and every other
directory can be created. -/
def emptyPathEnv : Env :=
  { socket_ret := 5, connect_ret := 0, camera_width := 672, camera_height := 376,
    fs_exists := fun _ => false, writer_opens := fun _ _ _ _ => true,
    sendStereoParams := fun _ _ _ => "ok".data,
    create_directories := fun p => if p = [] then none else some (fun _ => false) }

/-- The application of `VisionProApp.pending 9000 7` while its recorder writes to
`v/r.mp4`. -/
def recordingApp : VisionProApp :=
  { VisionProApp.pending 9000 7 with recorder_ := some ⟨"v/r.mp4".data, true⟩ }

/-- The response map of `get_status` on `recordingApp`. -/
def recordingStatus : JsonMap :=
  [("control_port".data, "9000".data), ("recording".data, "true".data),
    ("recording_file".data, "v/r.mp4".data), ("state".data, "recording".data),
    ("status".data, "ok".data), ("streaming".data, "false".data)]

end StereoStream

/-! # Theorems -/

namespace StereoStream

/-! ## Packetizer -/

theorem toSizeT_natCast (n : Nat) : toSizeT (n : Int) = n % 18446744073709551616 := by
  unfold toSizeT; omega

/-- The quotient `ceilDiv L P` is the least `n` with `L ≤ n * P`. -/
theorem ceilDiv_spec (L P : Nat) (hP : 1 ≤ P) :
    L ≤ ceilDiv L P * P ∧ ceilDiv L P * P < L + P := by
  unfold ceilDiv
  have h1 := Nat.div_mul_le_self (L + P - 1) P
  have h2 := Nat.lt_div_mul_add (a := L + P - 1) (b := P) (by omega)
  constructor <;> omega

theorem ceilDiv_eq_ceil (L P : Nat) (hP : 1 ≤ P) :
    ceilDiv L P = ⌈(L : ℚ) / (P : ℚ)⌉₊ := by
  have hs := ceilDiv_spec L P hP
  have hPq : (0 : ℚ) < P := by exact_mod_cast hP
  rcases Nat.eq_zero_or_pos L with hL | hL
  · subst hL
    have h0 : ceilDiv 0 P = 0 := by
      have := hs.2
      rcases Nat.eq_zero_or_pos (ceilDiv 0 P) with h | h
      · exact h
      · have : P ≤ ceilDiv 0 P * P := Nat.le_mul_of_pos_left P h
        omega
    simp [h0]
  · have hn : 1 ≤ ceilDiv L P := by
      rcases Nat.eq_zero_or_pos (ceilDiv L P) with h | h
      · have := hs.1
        rw [h] at this
        omega
      · exact h
    symm
    rw [Nat.ceil_eq_iff (by omega)]
    have h3 : ((ceilDiv L P * P : Nat) : ℚ) < ((L + P : Nat) : ℚ) := by exact_mod_cast hs.2
    have h5 : ((L : Nat) : ℚ) ≤ ((ceilDiv L P * P : Nat) : ℚ) := by exact_mod_cast hs.1
    push_cast at h3 h5
    constructor
    · rw [lt_div_iff₀ hPq, Nat.cast_sub hn]
      push_cast
      nlinarith
    · rw [div_le_iff₀ hPq]
      exact h5

theorem sendPacketsBody_eq (fid tp cap P idx : Nat) (data : List Nat)
    (hP : 1 ≤ P) (hPint : P < 2147483648) (hcap : 8 + P ≤ cap)
    (hidx : idx * P < 2147483648) (hlt : idx * P < data.length) :
    sendPacketsBody fid (P : Int) cap tp data idx =
      some (htonl fid ++ htons idx ++ htons tp ++
        (data.drop (idx * P)).take (min ((idx + 1) * P) data.length - idx * P)) := by
  have hprod : ((idx : Int) * (P : Int)) = ((idx * P : Nat) : Int) := by push_cast; rfl
  have hin : inInt ((idx * P : Nat) : Int) = true := by
    unfold inInt
    simp only [Bool.and_eq_true, decide_eq_true_eq]
    constructor <;> omega
  have hsucc : (idx + 1) * P = idx * P + P := by ring
  unfold sendPacketsBody
  simp only [hprod, hin, if_true, toSizeT_natCast]
  have h1 : idx * P % 18446744073709551616 = idx * P := Nat.mod_eq_of_lt (by omega)
  have h2 : P % 18446744073709551616 = P := Nat.mod_eq_of_lt (by omega)
  have h3 : (idx * P + P) % 18446744073709551616 = idx * P + P := Nat.mod_eq_of_lt (by omega)
  rw [h1, h2, h3, hsucc]
  have h4 : (min (idx * P + P) data.length + 18446744073709551616 - idx * P)
      % 18446744073709551616 = min (idx * P + P) data.length - idx * P := by
    have hm : idx * P ≤ min (idx * P + P) data.length := by omega
    have hm2 : min (idx * P + P) data.length - idx * P ≤ P := by omega
    omega
  rw [h4]
  have h5 : idx * P + (min (idx * P + P) data.length - idx * P) ≤ data.length
      ∧ 8 + (min (idx * P + P) data.length - idx * P) ≤ cap := by
    constructor <;> omega
  rw [if_pos h5]

theorem sendPacketsLoop_eq (body : Nat → Option (List Nat)) (f : Nat → List Nat) :
    ∀ (k idx : Nat), (∀ i, idx ≤ i → i < idx + k → body i = some (f i)) →
      sendPacketsLoop body k idx = some ((List.range' idx k).map f) := by
  intro k
  induction k with
  | zero => intro idx _; simp [sendPacketsLoop]
  | succ k ih =>
    intro idx h
    have h0 := h idx (le_refl _) (by omega)
    have hrest := ih (idx + 1) (fun i hi1 hi2 => h i (by omega) (by omega))
    simp [sendPacketsLoop, h0, hrest, List.range'_succ]

theorem htonl_eq_bigEndian (x : Nat) : htonl x = bigEndian 4 x := by
  simp only [htonl, bigEndian, List.nil_append, List.cons_append, List.singleton_append]
  have h1 : x / 256 / 256 / 256 = x / 16777216 := by omega
  have h2 : x / 256 / 256 = x / 65536 := by omega
  rw [h1, h2]

theorem htons_eq_bigEndian (x : Nat) : htons x = bigEndian 2 x := by
  simp [htons, bigEndian]

/-- What `sendPackets` does whenever none of its `int` computations overflows:
it sends `total_packets = ceil(L / P) mod 65536` datagrams, in index order. -/
theorem sendPackets_eq_general (s : UdpImageSender) (data : List Nat) (P : Nat)
    (hcfg : s.config_.max_payload = (P : Int)) (hP : 1 ≤ P) (hcap : P + 8 < 2147483648)
    (hL : data.length < 9223372036854775808)
    (hov : ∀ i, i < ceilDiv data.length P % 65536 → i * P < 2147483648) :
    sendPackets s data =
      some ({ s with frame_id_ := (s.frame_id_ + 1) % 4294967296 },
        (List.range (ceilDiv data.length P % 65536)).map
          (fragment (s.frame_id_ % 4294967296) (ceilDiv data.length P % 65536) P data)) := by
  have hs := ceilDiv_spec data.length P hP
  set n := ceilDiv data.length P with hndef
  have htot : (((data.length + P % 18446744073709551616) % 18446744073709551616
      + 18446744073709551616 - 1) % 18446744073709551616 / (P % 18446744073709551616))
      % 65536 = n % 65536 := by
    have h2 : P % 18446744073709551616 = P := Nat.mod_eq_of_lt (by omega)
    rw [h2]
    have h3 : ((data.length + P) % 18446744073709551616 + 18446744073709551616 - 1)
        % 18446744073709551616 = data.length + P - 1 := by omega
    rw [h3]
    have : (data.length + P - 1) / P = n := by rw [hndef]; rfl
    rw [this]
  have hmp : ¬ (P % 18446744073709551616 = 0) := by omega
  have hcapInt : (inInt (8 + (P : Int)) && decide ((0 : Int) ≤ 8 + (P : Int))) = true := by
    unfold inInt
    simp only [Bool.and_eq_true, decide_eq_true_eq]
    refine ⟨⟨?_, ?_⟩, ?_⟩ <;> omega
  have hcapNat : (8 + (P : Int)).toNat = 8 + P := by omega
  unfold sendPackets
  simp only [hcfg, toSizeT_natCast, hmp, if_false, htot, hcapInt, if_true, hcapNat]
  have hloop := sendPacketsLoop_eq
    (sendPacketsBody (s.frame_id_ % 4294967296) (P : Int) (8 + P) (n % 65536) data)
    (fragment (s.frame_id_ % 4294967296) (n % 65536) P data) (n % 65536) 0
    (by
      intro i _ hi
      have hin : i < n := by
        have := Nat.mod_le n 65536
        omega
      have hi1 : i + 1 ≤ n := hin
      have hmul : (i + 1) * P ≤ n * P := Nat.mul_le_mul_right P hi1
      have hsucc : (i + 1) * P = i * P + P := by ring
      rw [sendPacketsBody_eq _ _ _ _ _ _ hP (by omega) (le_refl _) (hov i (by omega))
        (by omega)]
      simp only [fragment, htonl_eq_bigEndian, htons_eq_bigEndian])
  rw [hloop, List.range_eq_range']

/-- Within the 16-bit range of the fragment count, and with `(n - 1) * P` an
`int`, `sendPackets` sends the `n = ceil(L / P)` fragments of the specification. -/
theorem sendPackets_eq (s : UdpImageSender) (data : List Nat) (P : Nat)
    (hcfg : s.config_.max_payload = (P : Int)) (hP : 1 ≤ P) (hcap : P + 8 < 2147483648)
    (hn : ceilDiv data.length P ≤ 65535)
    (hov : (ceilDiv data.length P - 1) * P < 2147483648) :
    sendPackets s data =
      some ({ s with frame_id_ := (s.frame_id_ + 1) % 4294967296 },
        (List.range (ceilDiv data.length P)).map
          (fragment (s.frame_id_ % 4294967296) (ceilDiv data.length P) P data)) := by
  have hs := ceilDiv_spec data.length P hP
  have hmod : ceilDiv data.length P % 65536 = ceilDiv data.length P :=
    Nat.mod_eq_of_lt (by omega)
  have hnP : ceilDiv data.length P * P < 4294967296 := by
    rcases Nat.eq_zero_or_pos (ceilDiv data.length P) with h | h
    · rw [h]; omega
    · have : ceilDiv data.length P * P = (ceilDiv data.length P - 1) * P + P := by
        have h1 : ceilDiv data.length P = (ceilDiv data.length P - 1) + 1 := by omega
        nth_rewrite 1 [h1]; ring
      omega
  have h := sendPackets_eq_general s data P hcfg hP hcap (by omega) (by
    intro i hi
    rw [hmod] at hi
    have hi1 : i ≤ ceilDiv data.length P - 1 := by omega
    have hmul : i * P ≤ (ceilDiv data.length P - 1) * P := Nat.mul_le_mul_right P hi1
    omega)
  rw [hmod] at h
  exact h

theorem length_bigEndian (k x : Nat) : (bigEndian k x).length = k := by
  induction k generalizing x with
  | zero => rfl
  | succ k ih => simp [bigEndian, ih]

theorem payload_fragment (fid n P : Nat) (data : List Nat) (i : Nat) :
    payload (fragment fid n P data i) =
      (data.drop (i * P)).take (min ((i + 1) * P) data.length - i * P) := by
  unfold payload fragment
  rw [List.drop_append_of_le_length (by simp [length_bigEndian])]
  simp [length_bigEndian]

theorem fragmentIndex_fragment (fid n P : Nat) (data : List Nat) (i : Nat) (hi : i < 65536) :
    fragmentIndex (fragment fid n P data i) = i := by
  simp only [fragmentIndex, fragment, bigEndian, List.nil_append, List.cons_append,
    List.getD_cons_succ, List.getD_cons_zero, List.singleton_append]
  omega

theorem take_chunk (data : List Nat) (P i : Nat) :
    (data.drop (i * P)).take (min ((i + 1) * P) data.length - i * P)
      = (data.drop (i * P)).take P := by
  have hsucc : (i + 1) * P = i * P + P := by ring
  rcases Nat.le_total ((i + 1) * P) data.length with h | h
  · rw [Nat.min_eq_left h, hsucc]
    congr 1
    omega
  · rw [Nat.min_eq_right h]
    have hlen : (data.drop (i * P)).length = data.length - i * P := List.length_drop _ _
    rw [List.take_of_length_le (by omega), List.take_of_length_le (by omega)]

theorem chunks_flatten (P : Nat) : ∀ (n : Nat) (data : List Nat), data.length ≤ n * P →
    ((List.range n).map (fun i => (data.drop (i * P)).take P)).flatten = data := by
  intro n
  induction n with
  | zero =>
    intro data h
    have : data = [] := List.eq_nil_of_length_eq_zero (by omega)
    simp [this]
  | succ n ih =>
    intro data h
    have hlen : (data.drop P).length ≤ n * P := by
      rw [List.length_drop]
      have : (n + 1) * P = n * P + P := by ring
      omega
    have hrec := ih (data.drop P) hlen
    rw [List.range_succ_eq_map, List.map_cons, List.map_map, List.flatten_cons]
    have hfun : ((fun i => (data.drop (i * P)).take P) ∘ Nat.succ)
        = fun i => ((data.drop P).drop (i * P)).take P := by
      funext i
      simp only [Function.comp, List.drop_drop, Nat.succ_eq_add_one]
      congr 2
      ring
    rw [hfun, hrec]
    simp

theorem sendPacketsLoop_none (body : Nat → Option (List Nat)) :
    ∀ (k idx j : Nat), idx ≤ j → j < idx + k → body j = none →
      sendPacketsLoop body k idx = none := by
  intro k
  induction k with
  | zero => intro idx j h1 h2; omega
  | succ k ih =>
    intro idx j h1 h2 hj
    rcases Nat.eq_or_lt_of_le h1 with h | h
    · subst h
      simp [sendPacketsLoop, hj]
    · have hrest := ih (idx + 1) j (by omega) (by omega) hj
      simp only [sendPacketsLoop, hrest]
      cases body idx <;> rfl

/-- If some index below `total_packets` has `idx * max_payload` outside `int`,
the call is undefined. -/
theorem sendPackets_none_of_overflow (s : UdpImageSender) (data : List Nat) (P j : Nat)
    (hcfg : s.config_.max_payload = (P : Int)) (hP : 1 ≤ P) (hPlt : P < 2147483648)
    (hL : data.length < 9223372036854775808)
    (hj : j < ceilDiv data.length P % 65536) (hov : 2147483648 ≤ j * P) :
    sendPackets s data = none := by
  have htot : (((data.length + P % 18446744073709551616) % 18446744073709551616
      + 18446744073709551616 - 1) % 18446744073709551616 / (P % 18446744073709551616))
      % 65536 = ceilDiv data.length P % 65536 := by
    have h2 : P % 18446744073709551616 = P := Nat.mod_eq_of_lt (by omega)
    rw [h2]
    have h3 : ((data.length + P) % 18446744073709551616 + 18446744073709551616 - 1)
        % 18446744073709551616 = data.length + P - 1 := by omega
    rw [h3]
    rfl
  have hmp : ¬ (P % 18446744073709551616 = 0) := by omega
  unfold sendPackets
  simp only [hcfg, toSizeT_natCast, hmp, if_false, htot]
  have hbody : ∀ cap, sendPacketsBody (s.frame_id_ % 4294967296) (P : Int) cap
      (ceilDiv data.length P % 65536) data j = none := by
    intro cap
    have hprod : ((j : Int) * (P : Int)) = ((j * P : Nat) : Int) := by push_cast; rfl
    have hin : inInt ((j * P : Nat) : Int) = false := by
      unfold inInt
      simp only [Bool.and_eq_false_iff, decide_eq_false_iff_not]
      right
      omega
    unfold sendPacketsBody
    simp only [hprod, hin, Bool.false_eq_true, if_false]
  rw [sendPacketsLoop_none _ _ 0 j (Nat.zero_le _) (by omega) (hbody _)]
  split <;> rfl

/-! ## Claims on the packetizer -/

/-- C1 (amended): for every encoded frame of length `L` and every max payload size
`P` with `1 ≤ P ≤ 2^31 - 9`, `n = ceil(L / P) ≤ 65535` and `(n - 1) * P < 2^31`,
`sendPackets` returns, emits exactly `n` datagrams whose fragment indices are
`0, ..., n - 1` in emission order, and the concatenation of their payloads (the
bytes after the 8-byte header) in that order is exactly the frame. -/
theorem sendPackets_reassembly (s : UdpImageSender) (data : List Nat) (P : Nat)
    (hcfg : s.config_.max_payload = (P : Int)) (hP : 1 ≤ P) (hcap : P + 8 < 2147483648)
    (hn : ceilDiv data.length P ≤ 65535)
    (hov : (ceilDiv data.length P - 1) * P < 2147483648) :
    ∃ s1 ds, sendPackets s data = some (s1, ds) ∧
      ds.length = ceilDiv data.length P ∧
      ceilDiv data.length P = ⌈(data.length : ℚ) / (P : ℚ)⌉₊ ∧
      ds.map fragmentIndex = List.range (ceilDiv data.length P) ∧
      (ds.map payload).flatten = data := by
  refine ⟨_, _, sendPackets_eq s data P hcfg hP hcap hn hov, ?_, ceilDiv_eq_ceil _ _ hP, ?_, ?_⟩
  · simp
  · rw [List.map_map]
    conv_rhs => rw [← List.map_id (List.range (ceilDiv data.length P))]
    apply List.map_congr_left
    intro i hi
    have hi1 : i < ceilDiv data.length P := List.mem_range.mp hi
    simp only [Function.comp, id]
    exact fragmentIndex_fragment _ _ _ _ _ (by omega)
  · rw [List.map_map]
    have hfun : (payload ∘ fragment (s.frame_id_ % 4294967296) (ceilDiv data.length P) P data)
        = fun i => (data.drop (i * P)).take P := by
      funext i
      simp only [Function.comp, payload_fragment, take_chunk]
    rw [hfun]
    exact chunks_flatten P _ data (ceilDiv_spec data.length P hP).1

/-- Witness of C1: a 7-byte frame cut with `P = 3`. -/
theorem sendPackets_reassembly_witness :
    ∃ s1 ds, sendPackets { UdpImageSender.new with config_ := { max_payload := 3 } }
        [10, 20, 30, 40, 50, 60, 70] = some (s1, ds) ∧
      ds.length = ceilDiv [10, 20, 30, 40, 50, 60, 70].length 3 ∧
      ceilDiv [10, 20, 30, 40, 50, 60, 70].length 3
        = ⌈(([10, 20, 30, 40, 50, 60, 70] : List Nat).length : ℚ) / ((3 : Nat) : ℚ)⌉₊ ∧
      ds.map fragmentIndex = List.range (ceilDiv [10, 20, 30, 40, 50, 60, 70].length 3) ∧
      (ds.map payload).flatten = [10, 20, 30, 40, 50, 60, 70] :=
  sendPackets_reassembly { UdpImageSender.new with config_ := { max_payload := 3 } }
    [10, 20, 30, 40, 50, 60, 70] 3 rfl (by decide) (by decide) (by decide) (by decide)

/-- C1 as stated fails: with `P = 2^31 - 1` and a 1-byte frame, `P ≥ 1` and
`ceil(L / P) = 1 ≤ 65535`, yet `8 + max_payload` overflows `int` and no datagram
is defined; with `P = 2^30` and a frame of `2^31 + 1` bytes, `ceil(L / P) = 3`, yet
`idx * max_payload` overflows `int` at `idx = 2`. -/
theorem sendPackets_reassembly_counterexample :
    (1 ≤ 2147483647 ∧ ceilDiv [0].length 2147483647 ≤ 65535 ∧
      sendPackets { UdpImageSender.new with config_ := { max_payload := 2147483647 } } [0]
        = none) ∧
    (1 ≤ 1073741824 ∧ ceilDiv (List.replicate 2147483649 0).length 1073741824 ≤ 65535 ∧
      sendPackets { UdpImageSender.new with config_ := { max_payload := 1073741824 } }
        (List.replicate 2147483649 0) = none) := by
  refine ⟨⟨by decide, by decide, by decide⟩, ⟨by decide, ?_, ?_⟩⟩
  · rw [List.length_replicate]; decide
  · apply sendPackets_none_of_overflow _ _ 1073741824 2 rfl (by decide) (by decide)
    · rw [List.length_replicate]; decide
    · rw [List.length_replicate]; decide
    · decide

/-- C2 (amended): for every frame of length `L` and max payload `P` with
`1 ≤ P ≤ 2^31 - 9`, `n = ceil(L / P) ≤ 65535` and `(n - 1) * P < 2^31`, `sendPackets`
emits its datagrams in the order of the indices `0, 1, ..., n - 1`, and the `i`-th
one is exactly the frame id on 4 bytes big-endian, `i` on 2 bytes big-endian, `n` on
2 bytes big-endian, then the bytes `[i * P, min ((i + 1) * P) L)` of the frame; every
payload but the last has `P` bytes and the last one has `L - (n - 1) * P`. -/
theorem sendPackets_datagrams (s : UdpImageSender) (data : List Nat) (P : Nat)
    (hcfg : s.config_.max_payload = (P : Int)) (hP : 1 ≤ P) (hcap : P + 8 < 2147483648)
    (hn : ceilDiv data.length P ≤ 65535)
    (hov : (ceilDiv data.length P - 1) * P < 2147483648) :
    sendPackets s data =
      some ({ s with frame_id_ := (s.frame_id_ + 1) % 4294967296 },
        (List.range (ceilDiv data.length P)).map
          (fragment (s.frame_id_ % 4294967296) (ceilDiv data.length P) P data)) ∧
    (∀ i, i + 1 < ceilDiv data.length P →
      (payload (fragment (s.frame_id_ % 4294967296) (ceilDiv data.length P) P data i)).length
        = P) ∧
    (1 ≤ ceilDiv data.length P →
      (payload (fragment (s.frame_id_ % 4294967296) (ceilDiv data.length P) P data
        (ceilDiv data.length P - 1))).length = data.length - (ceilDiv data.length P - 1) * P) := by
  have hs := ceilDiv_spec data.length P hP
  refine ⟨sendPackets_eq s data P hcfg hP hcap hn hov, ?_, ?_⟩
  · intro i hi
    have hi1 : i + 2 ≤ ceilDiv data.length P := hi
    have hmul : (i + 2) * P ≤ ceilDiv data.length P * P := Nat.mul_le_mul_right P hi1
    have h2 : (i + 2) * P = i * P + P + P := by ring
    rw [payload_fragment, take_chunk, List.length_take, List.length_drop]
    omega
  · intro h1
    have hnm : ceilDiv data.length P * P = (ceilDiv data.length P - 1) * P + P := by
      have h : ceilDiv data.length P = (ceilDiv data.length P - 1) + 1 := by omega
      nth_rewrite 1 [h]; ring
    rw [payload_fragment, take_chunk, List.length_take, List.length_drop]
    omega

/-- Witness of C2: a 7-byte frame cut with `P = 3` on a sender whose counter is 258. -/
theorem sendPackets_datagrams_witness :
    sendPackets { UdpImageSender.new with config_ := { max_payload := 3 }, frame_id_ := 258 }
        [10, 20, 30, 40, 50, 60, 70] =
      some ({ UdpImageSender.new with config_ := { max_payload := 3 }, frame_id_ := 259 },
        [[0, 0, 1, 2, 0, 0, 0, 3, 10, 20, 30], [0, 0, 1, 2, 0, 1, 0, 3, 40, 50, 60],
         [0, 0, 1, 2, 0, 2, 0, 3, 70]]) :=
  (sendPackets_datagrams
    { UdpImageSender.new with config_ := { max_payload := 3 }, frame_id_ := 258 }
    [10, 20, 30, 40, 50, 60, 70] 3 rfl (by decide) (by decide) (by decide) (by decide)).1

/-- C2 as stated fails: with `P = 2^31 - 8` and a 3-byte frame, `ceil(L / P) = 1`, yet
`8 + max_payload` overflows `int`; with `P = 2^29` and a frame of `2^31 + 5` bytes,
`ceil(L / P) = 5`, yet `idx * max_payload` overflows `int` at `idx = 4`: in both
cases no datagram sequence is defined. -/
theorem sendPackets_datagrams_counterexample :
    (1 ≤ 2147483640 ∧ ceilDiv [1, 2, 3].length 2147483640 ≤ 65535 ∧
      sendPackets { UdpImageSender.new with config_ := { max_payload := 2147483640 } }
        [1, 2, 3] = none) ∧
    (1 ≤ 536870912 ∧ ceilDiv (List.replicate 2147483653 7).length 536870912 ≤ 65535 ∧
      sendPackets { UdpImageSender.new with config_ := { max_payload := 536870912 } }
        (List.replicate 2147483653 7) = none) := by
  refine ⟨⟨by decide, by decide, by decide⟩, ⟨by decide, ?_, ?_⟩⟩
  · rw [List.length_replicate]; decide
  · apply sendPackets_none_of_overflow _ _ 536870912 4 rfl (by decide) (by decide)
    · rw [List.length_replicate]; decide
    · rw [List.length_replicate]; decide
    · decide

theorem sendPackets_frame_id (s : UdpImageSender) (data : List Nat)
    (P : Nat) (hcfg : s.config_.max_payload = (P : Int)) (hP : 1 ≤ P)
    (hcap : P + 8 < 2147483648) (hL : data.length < 2147483648) :
    ∃ ds, sendPackets s data
        = some ({ s with frame_id_ := (s.frame_id_ + 1) % 4294967296 }, ds) ∧
      ∀ d ∈ ds, d.take 4 = bigEndian 4 (s.frame_id_ % 4294967296) := by
  have hs := ceilDiv_spec data.length P hP
  refine ⟨_, sendPackets_eq_general s data P hcfg hP hcap (by omega) ?_, ?_⟩
  · intro i hi
    have hin : i + 1 ≤ ceilDiv data.length P := by
      have := Nat.mod_le (ceilDiv data.length P) 65536
      omega
    have hmul : (i + 1) * P ≤ ceilDiv data.length P * P := Nat.mul_le_mul_right P hin
    have hsucc : (i + 1) * P = i * P + P := by ring
    omega
  · intro d hd
    obtain ⟨i, _, rfl⟩ := List.mem_map.mp hd
    unfold fragment
    rw [List.append_assoc, List.append_assoc, List.take_left' (length_bigEndian 4 _)]

theorem sendPacketsAll_frame_ids (P : Nat) (hP : 1 ≤ P) (hcap : P + 8 < 2147483648) :
    ∀ (frames : List (List Nat)) (s : UdpImageSender),
      s.config_.max_payload = (P : Int) → s.frame_id_ < 4294967296 →
      (∀ f ∈ frames, f.length < 2147483648) →
      ∃ s1 dss, sendPacketsAll s frames = some (s1, dss) ∧
        dss.length = frames.length ∧
        s1.frame_id_ = (s.frame_id_ + frames.length) % 4294967296 ∧
        ∀ k ds, dss[k]? = some ds →
          ∀ d ∈ ds, d.take 4 = bigEndian 4 ((s.frame_id_ + k) % 4294967296) := by
  intro frames
  induction frames with
  | nil =>
    intro s _ hid _
    refine ⟨s, [], rfl, rfl, ?_, ?_⟩
    · simp only [List.length_nil, Nat.add_zero]
      exact (Nat.mod_eq_of_lt hid).symm
    · intro k ds h
      simp at h
  | cons f fs ih =>
    intro s hcfg hid hfr
    obtain ⟨ds0, hsend, hds0⟩ :=
      sendPackets_frame_id s f P hcfg hP hcap (hfr f (List.mem_cons_self _ _))
    obtain ⟨s2, dss, hall, hlen, hfin, hids⟩ :=
      ih { s with frame_id_ := (s.frame_id_ + 1) % 4294967296 } hcfg
        (Nat.mod_lt _ (by decide)) (fun g hg => hfr g (List.mem_cons_of_mem _ hg))
    dsimp only at hfin hids
    refine ⟨s2, ds0 :: dss, ?_, ?_, ?_, ?_⟩
    · simp only [sendPacketsAll, hsend, hall]
    · simp [hlen]
    · rw [hfin]
      simp only [List.length_cons]
      omega
    · intro k ds hk d hd
      cases k with
      | zero =>
        simp only [List.getElem?_cons_zero, Option.some.injEq] at hk
        subst hk
        simpa using hds0 d hd
      | succ k =>
        simp only [List.getElem?_cons_succ] at hk
        have := hids k ds hk d hd
        rw [this]
        congr 1
        omega

theorem sendPacketsBody_some (fid : Nat) (mp : Int) (cap tp : Nat) (data : List Nat)
    (idx : Nat) (d : List Nat) (h : sendPacketsBody fid mp cap tp data idx = some d) :
    d.take 4 = bigEndian 4 fid := by
  unfold sendPacketsBody at h
  simp only at h
  split at h
  · split at h
    · simp only [Option.some.injEq] at h
      subst h
      rw [htonl_eq_bigEndian, List.append_assoc, List.append_assoc,
        List.take_left' (length_bigEndian 4 _)]
    · exact absurd h (by simp)
  · exact absurd h (by simp)

theorem sendPacketsLoop_some (body : Nat → Option (List Nat)) :
    ∀ (k idx : Nat) (ds : List (List Nat)), sendPacketsLoop body k idx = some ds →
      ds.length = k ∧ ∀ d ∈ ds, ∃ i, body i = some d := by
  intro k
  induction k with
  | zero =>
    intro idx ds h
    simp only [sendPacketsLoop, Option.some.injEq] at h
    subst h
    simp
  | succ k ih =>
    intro idx ds h
    simp only [sendPacketsLoop] at h
    cases hb : body idx with
    | none => simp [hb] at h
    | some d0 =>
      cases hr : sendPacketsLoop body k (idx + 1) with
      | none => simp [hb, hr] at h
      | some rest =>
        simp only [hb, hr, Option.some.injEq] at h
        subst h
        obtain ⟨hlen, hmem⟩ := ih (idx + 1) rest hr
        refine ⟨by simp [hlen], ?_⟩
        intro d hd
        rcases List.mem_cons.mp hd with h1 | h1
        · exact ⟨idx, by rw [h1]; exact hb⟩
        · exact hmem d h1

/-- Whenever `sendPackets` returns, the counter has advanced by one modulo `2^32`
and every datagram sent starts with the previous counter value, big-endian. -/
theorem sendPackets_some (s s1 : UdpImageSender) (data : List Nat) (ds : List (List Nat))
    (h : sendPackets s data = some (s1, ds)) :
    s1 = { s with frame_id_ := (s.frame_id_ + 1) % 4294967296 } ∧
      ∀ d ∈ ds, d.take 4 = bigEndian 4 (s.frame_id_ % 4294967296) := by
  unfold sendPackets at h
  simp only at h
  split at h
  · exact absurd h (by simp)
  · split at h
    · split at h
      · exact absurd h (by simp)
      · rename_i ds0 hloop
        simp only [Option.some.injEq, Prod.mk.injEq] at h
        obtain ⟨h1, h2⟩ := h
        subst h2
        refine ⟨h1.symm, ?_⟩
        intro d hd
        obtain ⟨i, hi⟩ := (sendPacketsLoop_some _ _ _ _ hloop).2 d hd
        exact sendPacketsBody_some _ _ _ _ _ _ _ hi
    · exact absurd h (by simp)

theorem sendPacketsAll_some :
    ∀ (frames : List (List Nat)) (s s1 : UdpImageSender) (dss : List (List (List Nat))),
      s.frame_id_ < 4294967296 → sendPacketsAll s frames = some (s1, dss) →
      dss.length = frames.length ∧
        s1.frame_id_ = (s.frame_id_ + frames.length) % 4294967296 ∧
        ∀ k ds, dss[k]? = some ds →
          ∀ d ∈ ds, d.take 4 = bigEndian 4 ((s.frame_id_ + k) % 4294967296) := by
  intro frames
  induction frames with
  | nil =>
    intro s s1 dss hid h
    simp only [sendPacketsAll, Option.some.injEq, Prod.mk.injEq] at h
    obtain ⟨h1, h2⟩ := h
    subst h1 h2
    refine ⟨rfl, ?_, ?_⟩
    · simp only [List.length_nil, Nat.add_zero]
      exact (Nat.mod_eq_of_lt hid).symm
    · intro k ds h
      simp at h
  | cons f fs ih =>
    intro s s1 dss hid h
    simp only [sendPacketsAll] at h
    cases hsend : sendPackets s f with
    | none => simp [hsend] at h
    | some r =>
      obtain ⟨sa, ds0⟩ := r
      cases hall : sendPacketsAll sa fs with
      | none => simp [hsend, hall] at h
      | some r2 =>
        obtain ⟨sb, rest⟩ := r2
        simp only [hsend, hall, Option.some.injEq, Prod.mk.injEq] at h
        obtain ⟨h1, h2⟩ := h
        subst h1 h2
        obtain ⟨hsa, hds0⟩ := sendPackets_some s sa f ds0 hsend
        have hsaid : sa.frame_id_ = (s.frame_id_ + 1) % 4294967296 := by rw [hsa]
        obtain ⟨hlen, hfin, hids⟩ := ih sa sb rest (by rw [hsaid]; exact Nat.mod_lt _ (by decide)) hall
        rw [hsaid] at hfin hids
        refine ⟨by simp [hlen], ?_, ?_⟩
        · rw [hfin]
          simp only [List.length_cons]
          omega
        · intro k ds hk d hd
          cases k with
          | zero =>
            simp only [List.getElem?_cons_zero, Option.some.injEq] at hk
            subst hk
            simpa using hds0 d hd
          | succ k =>
            simp only [List.getElem?_cons_succ] at hk
            have := hids k ds hk d hd
            rw [this]
            congr 1
            omega

/-- C3 (amended): on one transport instance (counter `frame_id_` initialised to 0 by
the constructor) whose max payload is `1 ≤ P ≤ 2^31 - 9`, for every sequence of
frames, each shorter than `2^31` bytes, handed to `sendPackets`: every call returns
(nothing is raised), the datagrams of the `k`-th call (counting from 1) carry the
frame id `(k - 1) mod 2^32` in their first four bytes, and the counter after `m`
calls is `m mod 2^32`. When the counter stands at `4294967295` the call writes
`4294967295` and the next call writes 0: the id wraps, and both calls return. -/
theorem frame_id_sequence (s : UdpImageSender) (frames : List (List Nat)) (P : Nat)
    (hnew : s.frame_id_ = UdpImageSender.new.frame_id_)
    (hcfg : s.config_.max_payload = (P : Int)) (hP : 1 ≤ P) (hcap : P + 8 < 2147483648)
    (hframes : ∀ f ∈ frames, f.length < 2147483648) :
    (∃ s1 dss, sendPacketsAll s frames = some (s1, dss) ∧
      dss.length = frames.length ∧
      s1.frame_id_ = frames.length % 4294967296 ∧
      ∀ k ds, 1 ≤ k → dss[k - 1]? = some ds →
        ∀ d ∈ ds, d.take 4 = bigEndian 4 ((k - 1) % 4294967296)) ∧
    (∀ (t : UdpImageSender) (data : List Nat), t.config_ = s.config_ →
      t.frame_id_ = 4294967295 → data.length < 2147483648 →
      ∃ ds ds2, sendPackets t data = some ({ t with frame_id_ := 0 }, ds) ∧
        (∀ d ∈ ds, d.take 4 = [255, 255, 255, 255]) ∧
        sendPackets { t with frame_id_ := 0 } data = some ({ t with frame_id_ := 1 }, ds2) ∧
        ∀ d ∈ ds2, d.take 4 = [0, 0, 0, 0]) := by
  have h0 : s.frame_id_ = 0 := hnew
  constructor
  · obtain ⟨s1, dss, hall, hlen, hfin, hids⟩ :=
      sendPacketsAll_frame_ids P hP hcap frames s hcfg (by omega) hframes
    refine ⟨s1, dss, hall, hlen, ?_, ?_⟩
    · rw [hfin, h0, Nat.zero_add]
    · intro k ds _ hk d hd
      have := hids (k - 1) ds hk d hd
      rw [h0, Nat.zero_add] at this
      exact this
  · intro t data hc hid hL
    have hcfg1 : t.config_.max_payload = (P : Int) := by rw [hc]; exact hcfg
    obtain ⟨ds, hsend, hds⟩ := sendPackets_frame_id t data P hcfg1 hP hcap hL
    obtain ⟨ds2, hsend2, hds2⟩ :=
      sendPackets_frame_id { t with frame_id_ := 0 } data P hcfg1 hP hcap hL
    rw [hid] at hsend hds
    have e1 : bigEndian 4 (4294967295 % 4294967296) = [255, 255, 255, 255] := by decide
    have e2 : bigEndian 4 (0 % 4294967296) = [0, 0, 0, 0] := by decide
    exact ⟨ds, ds2, hsend, fun d hd => (hds d hd).trans e1, hsend2,
      fun d hd => (hds2 d hd).trans e2⟩

/-- Witness of C3 (amended): three frames sent on a fresh sender with `P = 2`. -/
theorem frame_id_sequence_witness :
    (∃ s1 dss, sendPacketsAll { UdpImageSender.new with config_ := { max_payload := 2 } }
        [[1, 2, 3], [4], [5, 6]] = some (s1, dss) ∧
      dss.length = [[1, 2, 3], [4], [5, 6]].length ∧
      s1.frame_id_ = [[1, 2, 3], [4], [5, 6]].length % 4294967296 ∧
      ∀ k ds, 1 ≤ k → dss[k - 1]? = some ds →
        ∀ d ∈ ds, d.take 4 = bigEndian 4 ((k - 1) % 4294967296)) ∧
    (∀ (t : UdpImageSender) (data : List Nat),
      t.config_ = ({ UdpImageSender.new with config_ := { max_payload := 2 } } :
        UdpImageSender).config_ →
      t.frame_id_ = 4294967295 → data.length < 2147483648 →
      ∃ ds ds2, sendPackets t data = some ({ t with frame_id_ := 0 }, ds) ∧
        (∀ d ∈ ds, d.take 4 = [255, 255, 255, 255]) ∧
        sendPackets { t with frame_id_ := 0 } data = some ({ t with frame_id_ := 1 }, ds2) ∧
        ∀ d ∈ ds2, d.take 4 = [0, 0, 0, 0]) :=
  frame_id_sequence { UdpImageSender.new with config_ := { max_payload := 2 } }
    [[1, 2, 3], [4], [5, 6]] 2 rfl rfl (by decide) (by decide) (by decide)

/-- The calls of the witness of C3, evaluated, and a call at the end of the counter
range: the ids written are 0, 1, 2, and `4294967295` is followed by 0. -/
theorem frame_id_sample :
    (sendPacketsAll { UdpImageSender.new with config_ := { max_payload := 2 } }
        [[1, 2, 3], [4], [5, 6]]).map (fun r => (r.1.frame_id_, r.2))
      = some (3, [[[0, 0, 0, 0, 0, 0, 0, 2, 1, 2], [0, 0, 0, 0, 0, 1, 0, 2, 3]],
          [[0, 0, 0, 1, 0, 0, 0, 1, 4]], [[0, 0, 0, 2, 0, 0, 0, 1, 5, 6]]]) ∧
    (sendPacketsAll
        { UdpImageSender.new with config_ := { max_payload := 2 }, frame_id_ := 4294967295 }
        [[7], [8]]).map (fun r => (r.1.frame_id_, r.2))
      = some (1, [[[255, 255, 255, 255, 0, 0, 0, 1, 7]], [[0, 0, 0, 0, 0, 0, 0, 1, 8]]]) := by
  constructor <;> decide

/-- C3 as stated fails: on a fresh transport whose max payload is `2147483647` the
first call of `sendPackets` has no defined outcome (`8 + max_payload` overflows
`int` when `packet_buf` is sized), so no frame id is written and the call does not
complete without error. -/
theorem frame_id_sequence_counterexample :
    ({ UdpImageSender.new with config_ := { max_payload := 2147483647 } } :
        UdpImageSender).frame_id_ = 0 ∧
    inInt (8 + (2147483647 : Int)) = false ∧
    sendPackets { UdpImageSender.new with config_ := { max_payload := 2147483647 } } [0]
      = none ∧
    sendPacketsAll { UdpImageSender.new with config_ := { max_payload := 2147483647 } } [[0]]
      = none := by
  refine ⟨rfl, ?_, ?_, ?_⟩ <;> decide

/-! ## The pending-frame slot -/

theorem popAll_eq_nil (q : List Mat) : popAll q = [] := by
  induction q with
  | nil => rfl
  | cons _ q ih => simpa [popAll] using ih

/-- C4: on an open transport, whatever the pending slot holds, after
`sendImage f1` then `sendImage f2` with no dequeue in between the queue holds
exactly `f2`; the sender task's next dequeue yields `f2` and leaves the queue
empty, so `f1` is never delivered. -/
theorem sendImage_latest_wins (s : UdpImageSender) (f1 f2 : Mat)
    (hopen : s.isRunning = true) :
    ((s.sendImage f1).sendImage f2).frame_queue_ = [f2] ∧
    ((s.sendImage f1).sendImage f2).workerDequeue.2 = some f2 ∧
    ((s.sendImage f1).sendImage f2).workerDequeue.1.frame_queue_ = [] := by
  have h : s.stop_flag_ = false ∧ s.connected_ = true := by
    simpa [UdpImageSender.isRunning] using hopen
  obtain ⟨h1, h2⟩ := h
  simp [UdpImageSender.sendImage, UdpImageSender.workerDequeue, h1, h2, popAll_eq_nil]

/-- Witness of C4: an open sender whose slot already holds a frame. -/
theorem sendImage_latest_wins_witness :
    (((openSender [⟨1, 1, 3, [9, 9, 9]⟩]).sendImage ⟨1, 1, 3, [1, 2, 3]⟩).sendImage
        ⟨1, 1, 3, [4, 5, 6]⟩).frame_queue_ = [⟨1, 1, 3, [4, 5, 6]⟩] ∧
    (((openSender [⟨1, 1, 3, [9, 9, 9]⟩]).sendImage ⟨1, 1, 3, [1, 2, 3]⟩).sendImage
        ⟨1, 1, 3, [4, 5, 6]⟩).workerDequeue.2 = some ⟨1, 1, 3, [4, 5, 6]⟩ ∧
    (((openSender [⟨1, 1, 3, [9, 9, 9]⟩]).sendImage ⟨1, 1, 3, [1, 2, 3]⟩).sendImage
        ⟨1, 1, 3, [4, 5, 6]⟩).workerDequeue.1.frame_queue_ = [] :=
  sendImage_latest_wins (openSender [⟨1, 1, 3, [9, 9, 9]⟩])
    ⟨1, 1, 3, [1, 2, 3]⟩ ⟨1, 1, 3, [4, 5, 6]⟩ rfl

theorem SenderOp.apply_queue_le_one (s : UdpImageSender) (op : SenderOp)
    (h : s.frame_queue_.length ≤ 1) : (op.apply s).frame_queue_.length ≤ 1 := by
  cases op with
  | sendImage img =>
    simp only [SenderOp.apply, UdpImageSender.sendImage]
    split
    · exact h
    · simp [popAll_eq_nil]
  | workerDequeue =>
    simp only [SenderOp.apply, UdpImageSender.workerDequeue]
    split
    · exact h
    · split
      · exact h
      · rename_i img rest hq
        rw [hq] at h
        simp only [List.length_cons] at h ⊢
        omega
  | «open» config sock_ret connect_ret =>
    simp only [SenderOp.apply, UdpImageSender.open]
    split
    · exact h
    · split <;> exact h
  | close => exact h

/-- C5: in every state reached from a freshly constructed transport by any
sequence of `sendImage` calls (transport open or closed), sender-task dequeues,
`open` and `close` calls, the frame queue holds 0 or 1 frames. -/
theorem frame_queue_at_most_one (ops : List SenderOp) :
    (ops.foldl SenderOp.apply UdpImageSender.new).frame_queue_.length = 0 ∨
    (ops.foldl SenderOp.apply UdpImageSender.new).frame_queue_.length = 1 := by
  have key : ∀ (l : List SenderOp) (s : UdpImageSender), s.frame_queue_.length ≤ 1 →
      (l.foldl SenderOp.apply s).frame_queue_.length ≤ 1 := by
    intro l
    induction l with
    | nil => intro s h; exact h
    | cons op l ih =>
      intro s h
      exact ih _ (SenderOp.apply_queue_le_one s op h)
  have := key ops UdpImageSender.new (by simp [UdpImageSender.new])
  omega

/-! ## The operating state -/

theorem updateState_ne_stopped (app : VisionProApp) :
    app.updateState.state_ ≠ AppState.STOPPED := by
  unfold VisionProApp.updateState
  cases app.streaming <;> cases app.recording <;> simp

/-- C6: `updateState` is a total function that writes only the operating state and
computes it from the two live flags alone (`streaming`: a sender exists and is
running; `recording`: a recorder exists and is recording): both false gives `IDLE`,
streaming only `STREAMING`, recording only `RECORDING`, both
`STREAMING_RECORDING`; it never produces `STOPPED`, and two applications with the
same flags get the same state whatever else they hold. -/
theorem updateState_derivation :
    (∀ app : VisionProApp,
      (app.streaming = false → app.recording = false →
        app.updateState.state_ = AppState.IDLE) ∧
      (app.streaming = true → app.recording = false →
        app.updateState.state_ = AppState.STREAMING) ∧
      (app.streaming = false → app.recording = true →
        app.updateState.state_ = AppState.RECORDING) ∧
      (app.streaming = true → app.recording = true →
        app.updateState.state_ = AppState.STREAMING_RECORDING) ∧
      app.updateState.state_ ≠ AppState.STOPPED ∧
      app.updateState = { app with state_ := app.updateState.state_ }) ∧
    (∀ app1 app2 : VisionProApp,
      app1.streaming = app2.streaming → app1.recording = app2.recording →
        app1.updateState.state_ = app2.updateState.state_) ∧
    (∀ app : VisionProApp,
      (app.streaming = true ↔ ∃ s, app.sender_ = some s ∧ s.isRunning = true) ∧
      (app.recording = true ↔ ∃ r, app.recorder_ = some r ∧ r.is_recording_ = true)) := by
  refine ⟨?_, ?_, ?_⟩
  · intro app
    unfold VisionProApp.updateState
    cases app.streaming <;> cases app.recording <;> simp
  · intro app1 app2 h1 h2
    unfold VisionProApp.updateState
    rw [h1, h2]
    cases app2.streaming <;> cases app2.recording <;> simp
  · intro app
    unfold VisionProApp.streaming VisionProApp.recording
    constructor
    · cases app.sender_ <;> simp
    · cases app.recorder_ <;> simp

/-! ## Maps -/

theorem mapFind_mapSet_self (m : JsonMap) (k v : Str) : mapFind (mapSet m k v) k = some v := by
  induction m with
  | nil => simp [mapSet, mapFind]
  | cons e rest ih =>
    obtain ⟨k0, v0⟩ := e
    unfold mapSet
    split
    · simp [mapFind]
    · split
      · simp [mapFind]
      · rename_i hne _
        simp [mapFind, hne, ih]

theorem mapFind_mapSet_ne (m : JsonMap) (k v k1 : Str) (h : k1 ≠ k) :
    mapFind (mapSet m k v) k1 = mapFind m k1 := by
  induction m with
  | nil => simp [mapSet, mapFind, h]
  | cons e rest ih =>
    obtain ⟨k0, v0⟩ := e
    unfold mapSet
    split
    · rename_i heq
      subst heq
      simp [mapFind, h]
    · split
      · simp [mapFind, h]
      · by_cases h0 : k1 = k0
        · simp [mapFind, h0]
        · simp [mapFind, h0, ih]

theorem statusMessage_status (st msg : Str) :
    mapFind (statusMessage st msg) "status".data = some st := by
  unfold statusMessage
  rw [mapFind_mapSet_ne _ _ _ _ (by decide), mapFind_mapSet_self]

theorem statusMessage_message (st msg : Str) :
    mapFind (statusMessage st msg) "message".data = some msg := by
  unfold statusMessage
  rw [mapFind_mapSet_self]

/-! ## The command dispatcher -/

theorem answered_statusMessage (st msg : Str) (hst : st = "ok".data ∨ st = "error".data) :
    Answered (statusMessage st msg) := by
  refine ⟨?_, msg, statusMessage_message st msg⟩
  rcases hst with h | h
  · exact Or.inl (by rw [statusMessage_status, h])
  · exact Or.inr (by rw [statusMessage_status, h])

theorem answered_mapSet (r : JsonMap) (k v : Str) (h : Answered r)
    (k1 : "status".data ≠ k) (k2 : "message".data ≠ k) : Answered (mapSet r k v) := by
  obtain ⟨hs, msg, hm⟩ := h
  refine ⟨?_, msg, ?_⟩
  · rw [mapFind_mapSet_ne _ _ _ _ k1]; exact hs
  · rw [mapFind_mapSet_ne _ _ _ _ k2]; exact hm

/-- Every branch but `get_status` leaves the operating state as it was, answers
with a status `ok` or `error` and with a message. -/
theorem dispatch_other (env : Env) (app app1 : VisionProApp) (cmd : SimpleJson)
    (resp : JsonMap) (h : app.dispatch env cmd = some (app1, resp))
    (hne : cmd.get "action".data ≠ "get_status".data) :
    app1.state_ = app.state_ ∧ Answered resp := by
  unfold VisionProApp.dispatch at h
  generalize cmd.get "action".data = action at h hne
  have kf1 : "status".data ≠ "filepath".data := by decide
  have kf2 : "message".data ≠ "filepath".data := by decide
  have kd1 : "status".data ≠ "device_response".data := by decide
  have kd2 : "message".data ≠ "device_response".data := by decide
  simp only at h
  split_ifs at h with h1 h2 h3 h4 h5 h6
  · -- start_stream
    simp only [Option.some.injEq] at h
    unfold VisionProApp.startStream at h
    simp only at h
    split_ifs at h <;>
      (simp only [Prod.mk.injEq] at h
       obtain ⟨ha, hr⟩ := h
       subst ha hr
       first
         | exact ⟨rfl, answered_statusMessage _ _ (Or.inl rfl)⟩
         | exact ⟨rfl, answered_statusMessage _ _ (Or.inr rfl)⟩)
  · -- stop_stream
    simp only [Option.some.injEq, VisionProApp.stopStream, Prod.mk.injEq] at h
    obtain ⟨ha, hr⟩ := h
    subst ha hr
    exact ⟨rfl, answered_statusMessage _ _ (Or.inl rfl)⟩
  · -- start_record
    unfold VisionProApp.startRecord at h
    simp only at h
    split at h
    · exact absurd h (by simp)
    · split_ifs at h <;>
        (simp only [Option.some.injEq, Prod.mk.injEq] at h
         obtain ⟨ha, hr⟩ := h
         subst ha hr
         first
           | exact ⟨rfl, answered_mapSet _ _ _ (answered_statusMessage _ _ (Or.inl rfl)) kf1 kf2⟩
           | exact ⟨rfl, answered_statusMessage _ _ (Or.inr rfl)⟩)
  · -- stop_record
    simp only [Option.some.injEq] at h
    unfold VisionProApp.stopRecord at h
    split at h <;>
      (simp only [Prod.mk.injEq] at h
       obtain ⟨ha, hr⟩ := h
       subst ha hr
       first
         | exact ⟨rfl, answered_mapSet _ _ _ (answered_statusMessage _ _ (Or.inl rfl)) kf1 kf2⟩
         | exact ⟨rfl, answered_statusMessage _ _ (Or.inl rfl)⟩)
  · -- set_stereo_params
    simp only [Option.some.injEq] at h
    unfold VisionProApp.setStereoParams at h
    simp only at h
    split_ifs at h <;>
      (simp only [Prod.mk.injEq] at h
       obtain ⟨ha, hr⟩ := h
       subst ha hr
       first
         | exact ⟨rfl, answered_mapSet _ _ _ (answered_statusMessage _ _ (Or.inl rfl)) kd1 kd2⟩
         | exact ⟨rfl, answered_statusMessage _ _ (Or.inr rfl)⟩)
  · -- quit
    simp only [Option.some.injEq, VisionProApp.quit, Prod.mk.injEq] at h
    obtain ⟨ha, hr⟩ := h
    subst ha hr
    exact ⟨rfl, answered_statusMessage _ _ (Or.inl rfl)⟩
  · -- no known action
    simp only [Option.some.injEq, VisionProApp.unknownAction, Prod.mk.injEq] at h
    obtain ⟨ha, hr⟩ := h
    subst ha hr
    exact ⟨rfl, answered_statusMessage _ _ (Or.inr rfl)⟩

theorem updateState_streaming (app : VisionProApp) :
    app.updateState.streaming = app.streaming ∧ app.updateState.recording = app.recording ∧
    app.updateState.sender_ = app.sender_ ∧ app.updateState.recorder_ = app.recorder_ ∧
    app.updateState.control_server_ = app.control_server_ ∧
    app.updateState.socket_calls = app.socket_calls ∧
    app.updateState.running_ = app.running_ := by
  unfold VisionProApp.updateState VisionProApp.streaming VisionProApp.recording
  simp only
  split_ifs <;> exact ⟨rfl, rfl, rfl, rfl, rfl, rfl, rfl⟩

/-- The response of the `get_status` branch: `status` is `ok`, there is no `message`,
and `state`, `streaming`, `recording` and `control_port` report the recomputed state,
the two live flags and the server's port. -/
theorem getStatus_response (app : VisionProApp) :
    app.getStatus.1 = app.updateState ∧
    mapFind app.getStatus.2 "status".data = some "ok".data ∧
    mapFind app.getStatus.2 "message".data = none ∧
    mapFind app.getStatus.2 "state".data = some (stateToString app.updateState.state_) ∧
    mapFind app.getStatus.2 "streaming".data
      = some (if app.streaming then "true".data else "false".data) ∧
    mapFind app.getStatus.2 "recording".data
      = some (if app.recording then "true".data else "false".data) ∧
    mapFind app.getStatus.2 "control_port".data
      = some (to_string app.control_server_.port_) := by
  obtain ⟨hs, hr, _, _, hc, _, _⟩ := updateState_streaming app
  unfold VisionProApp.getStatus
  simp only
  rw [hs, hr, hc]
  refine ⟨trivial, ?_, ?_, ?_, ?_, ?_, ?_⟩
  · rw [mapFind_mapSet_ne _ _ _ _ (by decide)]
    split
    · split
      · rw [mapFind_mapSet_ne _ _ _ _ (by decide), mapFind_mapSet_ne _ _ _ _ (by decide),
          mapFind_mapSet_ne _ _ _ _ (by decide), mapFind_mapSet_ne _ _ _ _ (by decide),
          mapFind_mapSet_self]
      · rw [mapFind_mapSet_ne _ _ _ _ (by decide),
          mapFind_mapSet_ne _ _ _ _ (by decide), mapFind_mapSet_ne _ _ _ _ (by decide),
          mapFind_mapSet_self]
    · rw [mapFind_mapSet_ne _ _ _ _ (by decide),
        mapFind_mapSet_ne _ _ _ _ (by decide), mapFind_mapSet_ne _ _ _ _ (by decide),
        mapFind_mapSet_self]
  · rw [mapFind_mapSet_ne _ _ _ _ (by decide)]
    split
    · split
      · rw [mapFind_mapSet_ne _ _ _ _ (by decide), mapFind_mapSet_ne _ _ _ _ (by decide),
          mapFind_mapSet_ne _ _ _ _ (by decide), mapFind_mapSet_ne _ _ _ _ (by decide),
          mapFind_mapSet_ne _ _ _ _ (by decide)]
        rfl
      · rw [mapFind_mapSet_ne _ _ _ _ (by decide),
          mapFind_mapSet_ne _ _ _ _ (by decide), mapFind_mapSet_ne _ _ _ _ (by decide),
          mapFind_mapSet_ne _ _ _ _ (by decide)]
        rfl
    · rw [mapFind_mapSet_ne _ _ _ _ (by decide),
        mapFind_mapSet_ne _ _ _ _ (by decide), mapFind_mapSet_ne _ _ _ _ (by decide),
        mapFind_mapSet_ne _ _ _ _ (by decide)]
      rfl
  · rw [mapFind_mapSet_ne _ _ _ _ (by decide)]
    split
    · split
      · rw [mapFind_mapSet_ne _ _ _ _ (by decide), mapFind_mapSet_ne _ _ _ _ (by decide),
          mapFind_mapSet_ne _ _ _ _ (by decide), mapFind_mapSet_self]
      · rw [mapFind_mapSet_ne _ _ _ _ (by decide),
          mapFind_mapSet_ne _ _ _ _ (by decide), mapFind_mapSet_self]
    · rw [mapFind_mapSet_ne _ _ _ _ (by decide),
        mapFind_mapSet_ne _ _ _ _ (by decide), mapFind_mapSet_self]
  · rw [mapFind_mapSet_ne _ _ _ _ (by decide)]
    split
    · split
      · rw [mapFind_mapSet_ne _ _ _ _ (by decide), mapFind_mapSet_ne _ _ _ _ (by decide),
          mapFind_mapSet_self]
      · rw [mapFind_mapSet_ne _ _ _ _ (by decide), mapFind_mapSet_self]
    · rw [mapFind_mapSet_ne _ _ _ _ (by decide), mapFind_mapSet_self]
  · rw [mapFind_mapSet_ne _ _ _ _ (by decide)]
    split
    · split
      · rw [mapFind_mapSet_ne _ _ _ _ (by decide), mapFind_mapSet_self]
      · rw [mapFind_mapSet_self]
    · rw [mapFind_mapSet_self]
  · rw [mapFind_mapSet_self]
    rfl

theorem dispatch_getStatus (env : Env) (app : VisionProApp) (cmd : SimpleJson)
    (h : cmd.get "action".data = "get_status".data) :
    app.dispatch env cmd = some app.getStatus := by
  unfold VisionProApp.dispatch
  simp only
  rw [h, if_neg (by decide), if_neg (by decide), if_neg (by decide), if_neg (by decide),
    if_pos rfl]

theorem handleCommand_eq (env : Env) (app : VisionProApp) (cmd_str : Str) (cmd : SimpleJson)
    (hp : SimpleJson.parse cmd_str = some cmd) (app1 : VisionProApp) (resp : JsonMap)
    (hd : app.dispatch env cmd = some (app1, resp)) :
    app.handleCommand env cmd_str = some (app1.sendResponded resp, resp) := by
  unfold VisionProApp.handleCommand
  rw [hp]
  simp only [hd]

theorem handleCommand_some (env : Env) (app app2 : VisionProApp) (cmd_str : Str)
    (resp : JsonMap) (h : app.handleCommand env cmd_str = some (app2, resp)) :
    ∃ cmd app1, SimpleJson.parse cmd_str = some cmd ∧
      app.dispatch env cmd = some (app1, resp) ∧
      app2 = app1.sendResponded resp := by
  unfold VisionProApp.handleCommand at h
  cases hp : SimpleJson.parse cmd_str with
  | none => simp [hp] at h
  | some cmd =>
    cases hd : app.dispatch env cmd with
    | none => simp [hp, hd] at h
    | some r =>
      obtain ⟨app1, resp1⟩ := r
      simp only [hp, hd, Option.some.injEq, Prod.mk.injEq] at h
      obtain ⟨h1, h2⟩ := h
      subst h2
      exact ⟨cmd, app1, rfl, hd, h1.symm⟩

/-- The sample commands parse, and the loop of `parse` does not return on a text
whose string value is not closed. -/
theorem parse_samples :
    SimpleJson.parse "\x7b\"action\":\"quit\"\x7d".data
      = some ⟨[("action".data, "quit".data)]⟩ ∧
    SimpleJson.parse "\x7b\"action\":\"get_status\"\x7d".data
      = some ⟨[("action".data, "get_status".data)]⟩ ∧
    SimpleJson.parse "\x7b\"action\":\"start_stream\",\"ip\":\"\"\x7d".data
      = some ⟨[("action".data, "start_stream".data), ("ip".data, [])]⟩ ∧
    SimpleJson.parse "\x7b\"action\":\"reboot\"\x7d".data
      = some ⟨[("action".data, "reboot".data)]⟩ ∧
    SimpleJson.parse "\x7b\"port\":9003\x7d".data
      = some ⟨[("port".data, "9003".data)]⟩ ∧
    SimpleJson.parse "\x7b\"a\":\"b".data = none := by
  refine ⟨?_, ?_, ?_, ?_, ?_, ?_⟩ <;> decide

theorem run_stopped : ∀ (inputs : List LoopInput) (app app1 : VisionProApp),
    app.run inputs = some app1 → app1.state_ = AppState.STOPPED := by
  intro inputs
  induction inputs with
  | nil =>
    intro app app1 h
    unfold VisionProApp.run at h
    split_ifs at h
    simp only [Option.some.injEq] at h
    subst h
    rfl
  | cons inp rest ih =>
    intro app app1 h
    unfold VisionProApp.run at h
    split_ifs at h
    · cases ht : app.loopTurn inp with
      | none => simp [ht] at h
      | some app2 =>
        simp only [ht] at h
        exact ih app2 app1 h
    · simp only [Option.some.injEq] at h
      subst h
      rfl

/-- C7 as stated fails. On the application left by `cleanup` (state `STOPPED`),
`updateState` writes `IDLE`, and so does handling `get_status`; and after a `quit`
command has been handled the operating state is still `IDLE`, at once and at the
end of the loop turn that handled it (`running_` is false by then). -/
theorem stopped_terminal_counterexample :
    (VisionProApp.initial 9000 false).cleanup.state_ = AppState.STOPPED ∧
    (VisionProApp.initial 9000 false).cleanup.updateState.state_ = AppState.IDLE ∧
    ((VisionProApp.initial 9000 false).cleanup.handleCommand sampleEnv
        "\x7b\"action\":\"get_status\"\x7d".data).map (fun r => r.1.state_)
      = some AppState.IDLE ∧
    ((VisionProApp.pending 9000 7).handleCommand sampleEnv
        "\x7b\"action\":\"quit\"\x7d".data).map (fun r => (r.1.running_, r.1.state_))
      = some (false, AppState.IDLE) ∧
    ((VisionProApp.initial 9000 false).loopTurn quitInput).map
        (fun a => (a.running_, a.state_)) = some (false, AppState.IDLE) := by
  refine ⟨?_, ?_, ?_, ?_, ?_⟩ <;> decide

/-- C7 (amended): `STOPPED` is written by `cleanup` alone, which `run` executes once
its loop has ended, so every run that ends leaves the state `STOPPED`. Handling a
command other than `get_status` leaves the operating state as it is (a `STOPPED`
state stays `STOPPED`); `updateState`, and with it `get_status`, recompute the state
from the live flags and never yield `STOPPED`; handling `quit` only clears
`running_`. -/
theorem stopped_set_by_cleanup :
    (∀ app : VisionProApp, app.cleanup.state_ = AppState.STOPPED) ∧
    (∀ (app app1 : VisionProApp) (inputs : List LoopInput),
      app.run inputs = some app1 → app1.state_ = AppState.STOPPED) ∧
    (∀ (env : Env) (app app1 : VisionProApp) (cmd_str : Str) (cmd : SimpleJson)
        (resp : JsonMap),
      SimpleJson.parse cmd_str = some cmd → cmd.get "action".data ≠ "get_status".data →
      app.handleCommand env cmd_str = some (app1, resp) → app1.state_ = app.state_) ∧
    (∀ app : VisionProApp, app.updateState.state_ ≠ AppState.STOPPED) ∧
    (∀ (env : Env) (app app1 : VisionProApp) (cmd_str : Str) (cmd : SimpleJson)
        (resp : JsonMap),
      SimpleJson.parse cmd_str = some cmd → cmd.get "action".data = "get_status".data →
      app.handleCommand env cmd_str = some (app1, resp) →
      app1.state_ = app.updateState.state_) ∧
    (∀ (env : Env) (app : VisionProApp) (cmd_str : Str) (cmd : SimpleJson),
      SimpleJson.parse cmd_str = some cmd → cmd.get "action".data = "quit".data →
      ∃ app1 resp, app.handleCommand env cmd_str = some (app1, resp) ∧
        app1.running_ = false ∧ app1.state_ = app.state_) := by
  refine ⟨fun _ => rfl, fun app app1 inputs h => run_stopped inputs app app1 h, ?_,
    fun app => updateState_ne_stopped app, ?_, ?_⟩
  · intro env app app1 cmd_str cmd resp hp hne h
    obtain ⟨cmd1, a, hp1, hd, ha⟩ := handleCommand_some env app app1 cmd_str resp h
    rw [hp] at hp1
    simp only [Option.some.injEq] at hp1
    subst hp1
    rw [ha]
    exact (dispatch_other env app a cmd resp hd hne).1
  · intro env app app1 cmd_str cmd resp hp hact h
    obtain ⟨cmd1, a, hp1, hd, ha⟩ := handleCommand_some env app app1 cmd_str resp h
    rw [hp] at hp1
    simp only [Option.some.injEq] at hp1
    subst hp1
    rw [dispatch_getStatus env app cmd hact] at hd
    simp only [Option.some.injEq] at hd
    have h1 : a = app.getStatus.1 := by rw [hd]
    rw [ha, h1, (getStatus_response app).1]
    rfl
  · intro env app cmd_str cmd hp hact
    have hd : app.dispatch env cmd = some app.quit := by
      unfold VisionProApp.dispatch
      simp only
      rw [hact, if_neg (by decide), if_neg (by decide), if_neg (by decide),
        if_neg (by decide), if_neg (by decide), if_neg (by decide), if_pos rfl]
    exact ⟨_, _, handleCommand_eq env app cmd_str cmd hp _ _ hd, rfl, rfl⟩

/-- A run that ends: the loop handles `quit` in its first turn, then `cleanup`. -/
theorem run_quit_sample :
    ((VisionProApp.initial 9000 false).run [quitInput]).map
        (fun a => (a.state_, a.running_, a.control_server_.running_))
      = some (AppState.STOPPED, false, false) := by
  decide

theorem dispatch_startStream (env : Env) (app : VisionProApp) (cmd : SimpleJson)
    (h : cmd.get "action".data = "start_stream".data) :
    app.dispatch env cmd = some (app.startStream env cmd) := by
  unfold VisionProApp.dispatch
  simp only
  rw [h, if_pos rfl]

theorem get_of_mapFind (cmd : SimpleJson) (key v d : Str) (h : mapFind cmd.data key = some v) :
    cmd.get key d = v := by
  unfold SimpleJson.get
  rw [h]

theorem handleCommand_getStatus (env : Env) (app : VisionProApp) (cmd_str : Str)
    (cmd : SimpleJson) (hp : SimpleJson.parse cmd_str = some cmd)
    (ha : cmd.get "action".data = "get_status".data) :
    ∃ app2, app.handleCommand env cmd_str = some (app2, app.getStatus.2) :=
  ⟨_, handleCommand_eq env app cmd_str cmd hp _ _ (dispatch_getStatus env app cmd ha)⟩

/-- C8: in every application state with no active stream, handling a `start_stream`
command whose `ip` field is the empty string returns `status = error` with the
message `IP address required`, leaves the sender as it was (no transport is
created) and makes no `socket` call; a `get_status` command handled right after
reports `streaming = false`. -/
theorem start_stream_empty_ip (env : Env) (app : VisionProApp) (cmd_str : Str)
    (cmd : SimpleJson) (hparse : SimpleJson.parse cmd_str = some cmd)
    (haction : cmd.get "action".data = "start_stream".data)
    (hip : mapFind cmd.data "ip".data = some [])
    (hidle : app.streaming = false) :
    ∃ app1 resp, app.handleCommand env cmd_str = some (app1, resp) ∧
      mapFind resp "status".data = some "error".data ∧
      mapFind resp "message".data = some "IP address required".data ∧
      app1.sender_ = app.sender_ ∧
      app1.socket_calls = app.socket_calls ∧
      ∀ (env2 : Env) (status_str : Str) (cmd2 : SimpleJson),
        SimpleJson.parse status_str = some cmd2 →
        cmd2.get "action".data = "get_status".data →
        ∃ app2 resp2, app1.handleCommand env2 status_str = some (app2, resp2) ∧
          mapFind resp2 "status".data = some "ok".data ∧
          mapFind resp2 "streaming".data = some "false".data := by
  have hget : cmd.get "ip".data "192.168.0.140".data = [] := get_of_mapFind cmd _ _ _ hip
  have hbranch : app.startStream env cmd
      = (app, statusMessage "error".data "IP address required".data) := by
    unfold VisionProApp.startStream
    simp only
    rw [if_pos hget]
  have hd : app.dispatch env cmd
      = some (app, statusMessage "error".data "IP address required".data) := by
    rw [dispatch_startStream env app cmd haction, hbranch]
  refine ⟨_, _, handleCommand_eq env app cmd_str cmd hparse _ _ hd,
    statusMessage_status _ _, statusMessage_message _ _, rfl, rfl, ?_⟩
  intro env2 status_str cmd2 hp2 ha2
  obtain ⟨app2, h2⟩ := handleCommand_getStatus env2 _ status_str cmd2 hp2 ha2
  refine ⟨app2, _, h2, (getStatus_response _).2.1, ?_⟩
  rw [(getStatus_response _).2.2.2.2.1]
  change some (if app.streaming = true then "true".data else "false".data) = _
  rw [hidle]
  rfl

/-- Witness of C8: the command `{"action":"start_stream","ip":""}` on the
application after `init`, connection 7 waiting for its answer. -/
theorem start_stream_empty_ip_witness :
    ∃ app1 resp, (VisionProApp.pending 9000 7).handleCommand sampleEnv
        "\x7b\"action\":\"start_stream\",\"ip\":\"\"\x7d".data = some (app1, resp) ∧
      mapFind resp "status".data = some "error".data ∧
      mapFind resp "message".data = some "IP address required".data ∧
      app1.sender_ = (VisionProApp.pending 9000 7).sender_ ∧
      app1.socket_calls = (VisionProApp.pending 9000 7).socket_calls ∧
      ∀ (env2 : Env) (status_str : Str) (cmd2 : SimpleJson),
        SimpleJson.parse status_str = some cmd2 →
        cmd2.get "action".data = "get_status".data →
        ∃ app2 resp2, app1.handleCommand env2 status_str = some (app2, resp2) ∧
          mapFind resp2 "status".data = some "ok".data ∧
          mapFind resp2 "streaming".data = some "false".data :=
  start_stream_empty_ip sampleEnv (VisionProApp.pending 9000 7)
    "\x7b\"action\":\"start_stream\",\"ip\":\"\"\x7d".data
    ⟨[("action".data, "start_stream".data), ("ip".data, [])]⟩
    parse_samples.2.2.1 (by decide) (by decide) (by decide)

/-- The exchange of the witness of C9, evaluated: the response map and the line sent
on connection 7. -/
theorem response_fields_sample :
    (recordingApp.handleCommand sampleEnv "\x7b\"action\":\"get_status\"\x7d".data).map
        (fun r => (r.2, r.1.control_server_.log))
      = some (recordingStatus,
          [ControlEvent.sendResponse
             ("\x7b\"control_port\":9000,\"recording\":true,\"recording_file\":\"v/r.mp4\"," ++
               "\"state\":\"recording\",\"status\":\"ok\",\"streaming\":false\x7d").data,
           ControlEvent.send 7
             ("\x7b\"control_port\":9000,\"recording\":true,\"recording_file\":\"v/r.mp4\"," ++
               "\"state\":\"recording\",\"status\":\"ok\",\"streaming\":false\x7d\n").data,
           ControlEvent.close 7]) := by
  decide

theorem dispatch_unknownAction (env : Env) (app : VisionProApp) (cmd : SimpleJson)
    (h1 : cmd.get "action".data ≠ "start_stream".data)
    (h2 : cmd.get "action".data ≠ "stop_stream".data)
    (h3 : cmd.get "action".data ≠ "start_record".data)
    (h4 : cmd.get "action".data ≠ "stop_record".data)
    (h5 : cmd.get "action".data ≠ "get_status".data)
    (h6 : cmd.get "action".data ≠ "set_stereo_params".data)
    (h7 : cmd.get "action".data ≠ "quit".data) :
    app.dispatch env cmd = some (app.unknownAction (cmd.get "action".data)) := by
  unfold VisionProApp.dispatch
  simp only
  rw [if_neg h1, if_neg h2, if_neg h3, if_neg h4, if_neg h5, if_neg h6, if_neg h7]

/-- The text `stringify` writes for the response to an unknown action. -/
theorem stringify_unknownAction (action : Str) :
    SimpleJson.stringify [("message".data, "Unknown action: ".data ++ action),
        ("status".data, "error".data)]
      = "\x7b\"message\":\"Unknown action: ".data ++ action ++
          "\",\"status\":\"error\"\x7d".data := by
  have h1 : stringifyEntry ("message".data, "Unknown action: ".data ++ action)
      = "\"message\":\"Unknown action: ".data ++ action ++ ['"'] := by
    unfold stringifyEntry
    rw [if_neg]
    · simp
    · intro h
      simp at h
      revert h
      decide
  have h2 : stringifyEntry ("status".data, "error".data) = "\"status\":\"error\"".data := by
    decide
  unfold SimpleJson.stringify
  rw [List.map_cons, List.map_cons, List.map_nil, h1, h2]
  simp [List.intercalate]

/-- C10: for every command whose parsed action is none of `start_stream`,
`stop_stream`, `start_record`, `stop_record`, `get_status`, `set_stereo_params`,
`quit` (a command without `action` field has the empty action), `handleCommand`
returns, leaves the application as it was apart from the control server, and builds
the response `status = error`, `message = "Unknown action: " + action`; it passes the
text `{"message":"Unknown action: <action>","status":"error"}` of that response to
`sendResponse` exactly once, which sends it followed by a line feed on the pending
connection, closes that connection and forgets it. -/
theorem unknown_action_answered (env : Env) (app : VisionProApp) (cmd_str : Str)
    (cmd : SimpleJson) (hparse : SimpleJson.parse cmd_str = some cmd)
    (hunknown : cmd.get "action".data ∉
      ["start_stream".data, "stop_stream".data, "start_record".data, "stop_record".data,
       "get_status".data, "set_stereo_params".data, "quit".data])
    (hpending : 0 ≤ app.control_server_.pending_client_fd_) :
    ∃ app1 resp, app.handleCommand env cmd_str = some (app1, resp) ∧
      resp = [("message".data, "Unknown action: ".data ++ cmd.get "action".data),
              ("status".data, "error".data)] ∧
      mapFind resp "status".data = some "error".data ∧
      mapFind resp "message".data
        = some ("Unknown action: ".data ++ cmd.get "action".data) ∧
      (mapFind cmd.data "action".data = none →
        mapFind resp "message".data = some "Unknown action: ".data) ∧
      app1.control_server_.log = app.control_server_.log ++
        [ControlEvent.sendResponse
           ("\x7b\"message\":\"Unknown action: ".data ++ cmd.get "action".data ++
             "\",\"status\":\"error\"\x7d".data),
         ControlEvent.send app.control_server_.pending_client_fd_
           ("\x7b\"message\":\"Unknown action: ".data ++ cmd.get "action".data ++
             "\",\"status\":\"error\"\x7d\n".data),
         ControlEvent.close app.control_server_.pending_client_fd_] ∧
      app1.control_server_.pending_client_fd_ = -1 ∧
      { app1 with control_server_ := app.control_server_ } = app := by
  simp only [List.mem_cons, List.mem_singleton, List.not_mem_nil, or_false, not_or]
    at hunknown
  obtain ⟨h1, h2, h3, h4, h5, h6, h7⟩ := hunknown
  have hd := dispatch_unknownAction env app cmd h1 h2 h3 h4 h5 h6 h7
  refine ⟨_, _, handleCommand_eq env app cmd_str cmd hparse _ _ hd, rfl,
    statusMessage_status _ _, statusMessage_message _ _, ?_, ?_, ?_, rfl⟩
  · intro hnone
    have h0 : cmd.get "action".data = [] := by
      unfold SimpleJson.get
      rw [hnone]
    rw [h0]
    rfl
  · have htext := stringify_unknownAction (cmd.get "action".data)
    have hst : statusMessage "error".data ("Unknown action: ".data ++ cmd.get "action".data)
        = [("message".data, "Unknown action: ".data ++ cmd.get "action".data),
            ("status".data, "error".data)] := rfl
    have hnl : "\x7b\"message\":\"Unknown action: ".data ++ cmd.get "action".data ++
          "\",\"status\":\"error\"\x7d".data ++ ['\n']
        = "\x7b\"message\":\"Unknown action: ".data ++ cmd.get "action".data ++
          "\",\"status\":\"error\"\x7d\n".data := by
      rw [List.append_assoc]
      rfl
    simp only [VisionProApp.unknownAction, VisionProApp.sendResponded,
      ControlServer.sendResponse]
    rw [if_pos hpending, hst, htext, hnl]
    simp only [List.append_assoc, List.cons_append, List.nil_append]
  · simp only [VisionProApp.unknownAction, VisionProApp.sendResponded,
      ControlServer.sendResponse]
    rw [if_pos hpending]

/-- Witness of C10: the command `{"action":"reboot"}` with connection 7 pending. -/
theorem unknown_action_answered_witness :
    ∃ app1 resp, (VisionProApp.pending 9000 7).handleCommand sampleEnv
        "\x7b\"action\":\"reboot\"\x7d".data = some (app1, resp) ∧
      resp = [("message".data, "Unknown action: ".data ++
                (⟨[("action".data, "reboot".data)]⟩ : SimpleJson).get "action".data),
              ("status".data, "error".data)] ∧
      mapFind resp "status".data = some "error".data ∧
      mapFind resp "message".data
        = some ("Unknown action: ".data ++
            (⟨[("action".data, "reboot".data)]⟩ : SimpleJson).get "action".data) ∧
      (mapFind (⟨[("action".data, "reboot".data)]⟩ : SimpleJson).data "action".data = none →
        mapFind resp "message".data = some "Unknown action: ".data) ∧
      app1.control_server_.log = (VisionProApp.pending 9000 7).control_server_.log ++
        [ControlEvent.sendResponse
           "\x7b\"message\":\"Unknown action: reboot\",\"status\":\"error\"\x7d".data,
         ControlEvent.send (VisionProApp.pending 9000 7).control_server_.pending_client_fd_
           "\x7b\"message\":\"Unknown action: reboot\",\"status\":\"error\"\x7d\n".data,
         ControlEvent.close (VisionProApp.pending 9000 7).control_server_.pending_client_fd_] ∧
      app1.control_server_.pending_client_fd_ = -1 ∧
      { app1 with control_server_ := (VisionProApp.pending 9000 7).control_server_ }
        = VisionProApp.pending 9000 7 :=
  unknown_action_answered sampleEnv (VisionProApp.pending 9000 7)
    "\x7b\"action\":\"reboot\"\x7d".data ⟨[("action".data, "reboot".data)]⟩
    parse_samples.2.2.2.1 (by decide) (by decide)

/-- The exchange of the witness of C10, evaluated: what is sent on connection 7. -/
theorem unknown_action_sample :
    ((VisionProApp.pending 9000 7).handleCommand sampleEnv
        "\x7b\"action\":\"reboot\"\x7d".data).map
        (fun r => (r.2, r.1.control_server_.log, r.1.control_server_.pending_client_fd_))
      = some ([("message".data, "Unknown action: reboot".data), ("status".data, "error".data)],
          [ControlEvent.sendResponse
             "\x7b\"message\":\"Unknown action: reboot\",\"status\":\"error\"\x7d".data,
           ControlEvent.send 7
             "\x7b\"message\":\"Unknown action: reboot\",\"status\":\"error\"\x7d\n".data,
           ControlEvent.close 7], -1) := by
  decide

/-! ## The scanning loop of `parse`: enough fuel -/

theorem findFrom_bounds (p : Char → Bool) :
    ∀ (cs : Str) (i j : Nat), findFrom p cs i = some j → i ≤ j ∧ j < i + cs.length := by
  intro cs
  induction cs with
  | nil => intro i j h; simp [findFrom] at h
  | cons c cs ih =>
    intro i j h
    unfold findFrom at h
    split_ifs at h
    · simp only [Option.some.injEq] at h
      subst h
      simp
    · obtain ⟨h1, h2⟩ := ih (i + 1) j h
      simp only [List.length_cons]
      omega

theorem find_bounds (s : Str) (c : Char) (pos j : Nat) (h : find s c pos = some j) :
    pos ≤ j ∧ j < s.length := by
  unfold find at h
  obtain ⟨h1, h2⟩ := findFrom_bounds _ _ _ _ h
  rw [List.length_drop] at h2
  omega

theorem find_first_of_bounds (s chars : Str) (pos j : Nat)
    (h : find_first_of s chars pos = some j) : pos ≤ j ∧ j < s.length := by
  unfold find_first_of at h
  obtain ⟨h1, h2⟩ := findFrom_bounds _ _ _ _ h
  rw [List.length_drop] at h2
  omega

/-- Where a turn of the loop of `parse` leaves `pos`: beyond its start and at most
at the end of the text, unless the turn met a string value without closing quote,
after which `pos` is `0`, or `1` when the text starts with a comma. -/
theorem parseIter_pos (s : Str) (pos pos1 : Nat) (data data1 : JsonMap)
    (h : parseIter s pos data = some (pos1, data1)) :
    (pos < pos1 ∧ pos1 ≤ s.length) ∨ pos1 = 0 ∨ (pos1 = 1 ∧ s.head? = some ',') := by
  unfold parseIter at h
  split at h
  · exact absurd h (by simp)
  · rename_i key_start hks
    split at h
    · exact absurd h (by simp)
    · rename_i key_end hke
      split at h
      · exact absurd h (by simp)
      · rename_i colon hc
        have b1 := find_bounds _ _ _ _ hks
        have b2 := find_bounds _ _ _ _ hke
        have b3 := find_bounds _ _ _ _ hc
        simp only [Option.some.injEq, Prod.mk.injEq] at h
        obtain ⟨hp, _⟩ := h
        by_cases hq : s.getD (colon + 1) '\x00' = '"'
        · simp only [hq, if_true] at hp
          cases hve : find s '"' (colon + 1 + 1) with
          | some val_end =>
            have b4 := find_bounds _ _ _ _ hve
            simp only [hve] at hp
            split_ifs at hp <;> (left; omega)
          | none =>
            simp only [hve] at hp
            have hz : (npos + 1) % 18446744073709551616 = 0 := by decide
            rw [hz] at hp
            split_ifs at hp with hcomma
            · right; right
              refine ⟨hp.symm, ?_⟩
              have h0 : s.getD 0 '\x00' = ',' := hcomma.2
              cases s with
              | nil => simp at h0
              | cons c cs =>
                simp only [List.getD_cons_zero] at h0
                simp [h0]
            · right; left
              exact hp.symm
        · simp only [hq, if_false] at hp
          cases hv : find_first_of s [',', '}'] (colon + 1) with
          | none =>
            simp only [hv, Option.getD_none] at hp
            split_ifs at hp with hcomma
            · omega
            · left; omega
          | some val_end =>
            have b4 := find_first_of_bounds _ _ _ _ hv
            simp only [hv, Option.getD_some] at hp
            split_ifs at hp <;> (left; omega)

theorem parseIter_data (s : Str) (pos : Nat) :
    ∃ o : Option (Nat × Str × Str),
      ∀ d, parseIter s pos d = o.map (fun r => (r.1, mapSet d r.2.1 r.2.2)) := by
  unfold parseIter
  cases find s '"' pos with
  | none => exact ⟨none, fun _ => rfl⟩
  | some key_start =>
    dsimp only
    cases find s '"' (key_start + 1) with
    | none => exact ⟨none, fun _ => rfl⟩
    | some key_end =>
      dsimp only
      cases find s ':' key_end with
      | none => exact ⟨none, fun _ => rfl⟩
      | some colon => exact ⟨some (_, _, _), fun _ => rfl⟩

theorem parseIter_any_data (s : Str) (pos pos1 : Nat) (d d1 : JsonMap)
    (h : parseIter s pos d = some (pos1, d1)) :
    ∀ e, ∃ e1, parseIter s pos e = some (pos1, e1) := by
  obtain ⟨o, ho⟩ := parseIter_data s pos
  intro e
  rw [ho] at h
  rw [ho]
  cases o with
  | none => simp at h
  | some r =>
    simp only [Option.map_some', Option.some.injEq, Prod.mk.injEq] at h
    exact ⟨mapSet e r.2.1 r.2.2, by simp [h.1]⟩

theorem parseIter_after_comma (s : Str) (d : JsonMap) (h : s.head? = some ',') :
    parseIter s 1 d = parseIter s 0 d := by
  cases s with
  | nil => simp at h
  | cons c cs =>
    simp only [List.head?_cons, Option.some.injEq] at h
    subst h
    have hf : find (',' :: cs) '"' 1 = find (',' :: cs) '"' 0 := by
      unfold find
      simp only [List.drop_succ_cons, List.drop_zero]
      rw [findFrom]
      simp
    unfold parseIter
    rw [hf]

theorem parseLoop_mono (s : Str) : ∀ (f f1 pos : Nat) (d r : JsonMap),
    parseLoop s f pos d = some r → f ≤ f1 → parseLoop s f1 pos d = some r := by
  intro f
  induction f with
  | zero => intro f1 pos d r h; simp [parseLoop] at h
  | succ f ih =>
    intro f1 pos d r h hle
    obtain ⟨g, rfl⟩ : ∃ g, f1 = g + 1 := ⟨f1 - 1, by omega⟩
    unfold parseLoop at h ⊢
    split_ifs at h ⊢
    · cases hit : parseIter s pos d with
      | none => simpa [hit] using h
      | some x =>
        obtain ⟨p1, d1⟩ := x
        simp only [hit] at h ⊢
        exact ih g p1 d1 r h (by omega)
    · exact h

theorem parseSteps_snoc (s : Str) : ∀ (m p q q1 : Nat), ParseSteps s m p q → q < s.length →
    (∀ d, ∃ d1, parseIter s q d = some (q1, d1)) → ParseSteps s (m + 1) p q1 := by
  intro m p q q1 h
  induction h with
  | refl p => intro hq hs; exact ParseSteps.step hq hs (ParseSteps.refl q1)
  | step hp hs _ ih => intro hq hs1; exact ParseSteps.step hp hs (ih hq hs1)

theorem parseSteps_short (s : Str) : ∀ (m p q : Nat), ParseSteps s m p q →
    ∀ (fuel : Nat) (d : JsonMap), fuel < m → parseLoop s fuel p d = none := by
  intro m p q h
  induction h with
  | refl p => intro fuel d hf; omega
  | step hp hs _ ih =>
    intro fuel d hf
    cases fuel with
    | zero => rfl
    | succ fuel =>
      obtain ⟨d1, hd1⟩ := hs d
      unfold parseLoop
      rw [if_pos hp]
      simp only [hd1]
      exact ih fuel d1 (by omega)

theorem parseSteps_run (s : Str) : ∀ (m p q : Nat), ParseSteps s m p q →
    ∀ (fuel : Nat) (d : JsonMap), ∃ d1, parseLoop s (m + fuel) p d = parseLoop s fuel q d1 := by
  intro m p q h
  induction h with
  | refl p => intro fuel d; exact ⟨d, by rw [Nat.zero_add]⟩
  | step hp hs _ ih =>
    intro fuel d
    rename_i m0 p0 p1 q0 _
    obtain ⟨d1, hd1⟩ := hs d
    obtain ⟨d2, hd2⟩ := ih fuel d1
    refine ⟨d2, ?_⟩
    have : m0 + 1 + fuel = (m0 + fuel) + 1 := by omega
    rw [this, ← hd2]
    conv_lhs => unfold parseLoop
    rw [if_pos hp]
    simp only [hd1]

/-- A position from which the loop of `parse` comes back to itself: the loop never
ends from there. -/
theorem parseLoop_cycle (s : Str) (m c : Nat) (h : ParseSteps s (m + 1) c c) :
    ∀ (fuel : Nat) (d : JsonMap), parseLoop s fuel c d = none := by
  intro fuel
  induction fuel using Nat.strong_induction_on with
  | _ fuel ih =>
    intro d
    rcases Nat.lt_or_ge fuel (m + 1) with hlt | hge
    · exact parseSteps_short s _ _ _ h fuel d hlt
    · obtain ⟨d1, hd1⟩ := parseSteps_run s _ _ _ h (fuel - (m + 1)) d
      have : m + 1 + (fuel - (m + 1)) = fuel := by omega
      rw [this] at hd1
      rw [hd1]
      exact ih (fuel - (m + 1)) (by omega) d1

theorem parseSteps_first (s : Str) (m p : Nat) (h : ParseSteps s m 0 p) (hp : p ≠ 0) :
    ∃ m1 q1, m = m1 + 1 ∧ 0 < s.length ∧
      (∀ d, ∃ d1, parseIter s 0 d = some (q1, d1)) ∧ ParseSteps s m1 q1 p := by
  cases h with
  | refl => exact absurd rfl hp
  | step h0 hs hrest => exact ⟨_, _, rfl, h0, hs, hrest⟩

theorem parseLoop_enough_aux (s : Str) : ∀ (F p m : Nat) (d r : JsonMap),
    ParseSteps s m 0 p → p ≤ s.length → parseLoop s F p d = some r →
    parseLoop s (s.length + 1 - p) p d = some r := by
  intro F
  induction F with
  | zero => intro p m d r _ _ h; simp [parseLoop] at h
  | succ F ih =>
    intro p m d r hreach hple h
    have hfuel : s.length + 1 - p = (s.length - p) + 1 := by omega
    rw [hfuel]
    unfold parseLoop at h ⊢
    split_ifs at h ⊢ with hlt
    · cases hit : parseIter s p d with
      | none => simpa [hit] using h
      | some x =>
        obtain ⟨p1, d1⟩ := x
        simp only [hit] at h ⊢
        have hany := parseIter_any_data s p p1 d d1 hit
        have hreach1 := parseSteps_snoc s m 0 p p1 hreach hlt hany
        have hprog : p < p1 ∧ p1 ≤ s.length := by
          rcases parseIter_pos s p p1 d d1 hit with h1 | h1 | h1
          · exact h1
          · subst h1
            have := parseLoop_cycle s m 0 hreach1 F d1
            rw [this] at h
            exact absurd h (by simp)
          · obtain ⟨h1, hcomma⟩ := h1
            subst h1
            by_cases hp0 : p = 0
            · subst hp0
              exact ⟨by omega, by omega⟩
            · obtain ⟨m1, q1, hm, _, hs0, hrest⟩ := parseSteps_first s m p hreach hp0
              have hs1 : ∀ e, ∃ e1, parseIter s 1 e = some (q1, e1) := by
                intro e
                rw [parseIter_after_comma s e hcomma]
                exact hs0 e
              have h11 : ParseSteps s (m1 + 1) 1 p :=
                ParseSteps.step (by omega) hs1 hrest
              have hcyc := parseSteps_snoc s (m1 + 1) 1 p 1 h11 hlt hany
              have := parseLoop_cycle s (m1 + 1) 1 hcyc F d1
              rw [this] at h
              exact absurd h (by simp)
        have hrec := ih p1 (m + 1) d1 r hreach1 hprog.2 h
        exact parseLoop_mono s _ _ p1 d1 r hrec (by omega)
    · exact h

/-- The fuel `s.length + 1` given to the loop by `SimpleJson.parse` is enough:
whenever the loop ends for some number of turns, it ends within `s.length + 1`
turns, with the same map. -/
theorem parseLoop_enough (s : Str) (F : Nat) (d r : JsonMap)
    (h : parseLoop s F 0 d = some r) : parseLoop s (s.length + 1) 0 d = some r :=
  parseLoop_enough_aux s F 0 0 d r (ParseSteps.refl 0) (Nat.zero_le _) h

/-- `SimpleJson.parse` yields `none` only when `front()`/`back()` meets an empty
string or the scanning loop ends for no number of turns. -/
theorem parse_eq_none (json_str : Str) (h : SimpleJson.parse json_str = none) :
    stripBraces (removeWhitespace json_str) = none ∨
    ∃ s, stripBraces (removeWhitespace json_str) = some s ∧
      ∀ fuel, parseLoop s fuel 0 [] = none := by
  unfold SimpleJson.parse at h
  cases hs : stripBraces (removeWhitespace json_str) with
  | none => exact Or.inl rfl
  | some s =>
    right
    refine ⟨s, rfl, ?_⟩
    intro fuel
    cases hf : parseLoop s fuel 0 [] with
    | none => rfl
    | some r =>
      have := parseLoop_enough s fuel [] r hf
      simp [hs, this] at h

/-- With the payload size the program uses (`max_payload = 1400`, never changed by a
command), the `int` computations cannot overflow once `ceil(L / 1400) ≤ 65535`: the
call returns the fragments of the specification and their payloads rebuild the
frame. -/
theorem sendPackets_default_payload (s : UdpImageSender) (data : List Nat)
    (hcfg : s.config_.max_payload = 1400) (hn : ceilDiv data.length 1400 ≤ 65535) :
    sendPackets s data =
      some ({ s with frame_id_ := (s.frame_id_ + 1) % 4294967296 },
        (List.range (ceilDiv data.length 1400)).map
          (fragment (s.frame_id_ % 4294967296) (ceilDiv data.length 1400) 1400 data)) ∧
    (((List.range (ceilDiv data.length 1400)).map
        (fragment (s.frame_id_ % 4294967296) (ceilDiv data.length 1400) 1400 data)).map
      payload).flatten = data := by
  refine ⟨sendPackets_eq s data 1400 (by rw [hcfg]; rfl) (by decide) (by decide) hn
    (by omega), ?_⟩
  rw [List.map_map]
  have hfun : (payload ∘ fragment (s.frame_id_ % 4294967296) (ceilDiv data.length 1400)
      1400 data) = fun i => (data.drop (i * 1400)).take 1400 := by
    funext i
    simp only [Function.comp, payload_fragment, take_chunk]
  rw [hfun]
  exact chunks_flatten 1400 _ data (ceilDiv_spec data.length 1400 (by decide)).1

/-- Handling a command never changes `stream_config_.max_payload`. -/
theorem handleCommand_max_payload (env : Env) (app app1 : VisionProApp) (cmd_str : Str)
    (resp : JsonMap) (h : app.handleCommand env cmd_str = some (app1, resp)) :
    app1.stream_config_.max_payload = app.stream_config_.max_payload := by
  obtain ⟨cmd, a, _, hd, ha⟩ := handleCommand_some env app app1 cmd_str resp h
  subst ha
  change a.stream_config_.max_payload = _
  unfold VisionProApp.dispatch at hd
  simp only at hd
  split_ifs at hd
  · simp only [Option.some.injEq] at hd
    unfold VisionProApp.startStream at hd
    simp only at hd
    split_ifs at hd <;>
      (simp only [Prod.mk.injEq] at hd
       obtain ⟨ha, _⟩ := hd
       subst ha
       rfl)
  · simp only [Option.some.injEq, VisionProApp.stopStream, Prod.mk.injEq] at hd
    obtain ⟨ha, _⟩ := hd
    subst ha
    rfl
  · unfold VisionProApp.startRecord at hd
    simp only at hd
    split at hd
    · exact absurd hd (by simp)
    · split_ifs at hd <;>
        (simp only [Option.some.injEq, Prod.mk.injEq] at hd
         obtain ⟨ha, _⟩ := hd
         subst ha
         rfl)
  · simp only [Option.some.injEq] at hd
    unfold VisionProApp.stopRecord at hd
    split at hd <;>
      (simp only [Prod.mk.injEq] at hd
       obtain ⟨ha, _⟩ := hd
       subst ha
       rfl)
  · simp only [Option.some.injEq, VisionProApp.getStatus, Prod.mk.injEq] at hd
    obtain ⟨ha, _⟩ := hd
    subst ha
    unfold VisionProApp.updateState
    simp only
    split_ifs <;> rfl
  · simp only [Option.some.injEq] at hd
    unfold VisionProApp.setStereoParams at hd
    simp only at hd
    split_ifs at hd <;>
      (simp only [Prod.mk.injEq] at hd
       obtain ⟨ha, _⟩ := hd
       subst ha
       rfl)
  · simp only [Option.some.injEq, VisionProApp.quit, Prod.mk.injEq] at hd
    obtain ⟨ha, _⟩ := hd
    subst ha
    rfl
  · simp only [Option.some.injEq, VisionProApp.unknownAction, Prod.mk.injEq] at hd
    obtain ⟨ha, _⟩ := hd
    subst ha
    rfl

/-! ## Start, status, stop, status -/

theorem sendResponse_port (c : ControlServer) (r : Str) :
    (c.sendResponse r).port_ = c.port_ := by
  unfold ControlServer.sendResponse
  simp only
  split_ifs <;> rfl

theorem sendResponded_fields (app : VisionProApp) (r : JsonMap) :
    (app.sendResponded r).sender_ = app.sender_ ∧
    (app.sendResponded r).recorder_ = app.recorder_ ∧
    (app.sendResponded r).streaming = app.streaming ∧
    (app.sendResponded r).recording = app.recording ∧
    (app.sendResponded r).control_server_.port_ = app.control_server_.port_ :=
  ⟨rfl, rfl, rfl, rfl, sendResponse_port _ _⟩

theorem dispatch_stopStream (env : Env) (app : VisionProApp) (cmd : SimpleJson)
    (h : cmd.get "action".data = "stop_stream".data) :
    app.dispatch env cmd = some app.stopStream := by
  unfold VisionProApp.dispatch
  simp only
  rw [h, if_neg (by decide), if_pos rfl]

/-- The `start_stream` branch when the ip is not empty and `socket` and `connect`
succeed: the answer is `ok`, the new sender runs, the recorder and the control
server are untouched. -/
theorem startStream_opened (env : Env) (app : VisionProApp) (cmd : SimpleJson)
    (hip : cmd.get "ip".data "192.168.0.140".data ≠ [])
    (hs : 0 ≤ env.socket_ret) (hc : 0 ≤ env.connect_ret) :
    (app.startStream env cmd).2 = statusMessage "ok".data "Streaming started".data ∧
    (app.startStream env cmd).1.streaming = true ∧
    (app.startStream env cmd).1.recorder_ = app.recorder_ ∧
    (app.startStream env cmd).1.control_server_ = app.control_server_ ∧
    (app.startStream env cmd).1.socket_calls = app.socket_calls ++
      [(cmd.get "ip".data "192.168.0.140".data, cmd.getInt "port".data 9003)] := by
  have hopen : ∀ cfg : StreamConfig,
      UdpImageSender.new.open cfg env.socket_ret env.connect_ret
        = ({ UdpImageSender.new with
              config_ := cfg, sock_fd_ := env.socket_ret,
              connected_ := true, stop_flag_ := false }, true) := by
    intro cfg
    unfold UdpImageSender.open
    simp only
    rw [if_neg (by omega), if_neg (by omega)]
  unfold VisionProApp.startStream
  simp only
  rw [if_neg hip, hopen]
  simp only [if_true]
  exact ⟨trivial, rfl, trivial, trivial, trivial⟩

theorem handleCommand_getStatus_eq (env : Env) (app : VisionProApp) (cmd_str : Str)
    (cmd : SimpleJson) (hp : SimpleJson.parse cmd_str = some cmd)
    (ha : cmd.get "action".data = "get_status".data) :
    app.handleCommand env cmd_str
      = some (app.getStatus.1.sendResponded app.getStatus.2, app.getStatus.2) :=
  handleCommand_eq env app cmd_str cmd hp _ _ (dispatch_getStatus env app cmd ha)

theorem updateState_state_of_flags (app : VisionProApp) :
    (app.streaming = true → app.recording = false →
      app.updateState.state_ = AppState.STREAMING) ∧
    (app.streaming = false → app.recording = false →
      app.updateState.state_ = AppState.IDLE) := by
  unfold VisionProApp.updateState
  cases app.streaming <;> cases app.recording <;> simp

/-- The commands of the end-to-end scenario parse to these maps. -/
theorem parse_scenario :
    SimpleJson.parse
        ("\x7b\"action\":\"start_stream\",\"ip\":\"127.0.0.1\",\"port\":9100," ++
          "\"quality\":40,\"width\":320,\"height\":240\x7d").data
      = some ⟨[("action".data, "start_stream".data), ("height".data, "240".data),
          ("ip".data, "127.0.0.1".data), ("port".data, "9100".data),
          ("quality".data, "40".data), ("width".data, "320".data)]⟩ ∧
    SimpleJson.parse "\x7b\"action\":\"stop_stream\"\x7d".data
      = some ⟨[("action".data, "stop_stream".data)]⟩ := by
  constructor <;> decide

theorem getStatus_step (env : Env) (app : VisionProApp) (cmd_str : Str) (cmd : SimpleJson)
    (hp : SimpleJson.parse cmd_str = some cmd)
    (ha : cmd.get "action".data = "get_status".data) :
    ∃ app1 r, app.handleCommand env cmd_str = some (app1, r) ∧
      mapFind r "status".data = some "ok".data ∧
      mapFind r "state".data = some (stateToString app.updateState.state_) ∧
      mapFind r "streaming".data
        = some (if app.streaming then "true".data else "false".data) ∧
      mapFind r "control_port".data = some (to_string app.control_server_.port_) ∧
      app1.streaming = app.streaming ∧ app1.recording = app.recording ∧
      app1.control_server_.port_ = app.control_server_.port_ := by
  obtain ⟨h1, h2, _, h4, h5, _, h7⟩ := getStatus_response app
  obtain ⟨u1, u2, _, _, u5, _, _⟩ := updateState_streaming app
  obtain ⟨_, _, f3, f4, f5⟩ := sendResponded_fields app.getStatus.1 app.getStatus.2
  refine ⟨_, _, handleCommand_getStatus_eq env app cmd_str cmd hp ha, h2, h4, h5, h7, ?_, ?_, ?_⟩
  · rw [f3, h1, u1]
  · rw [f4, h1, u2]
  · rw [f5, h1, u5]

/-- C11: from an application state with no recording active (the initial state in
particular), when `socket` and `connect` succeed for the datagram socket: handling
`{"action":"start_stream","ip":"127.0.0.1","port":9100,"quality":40,"width":320,
"height":240}` answers `ok`, a `{"action":"get_status"}` handled next returns
`state = streaming`, `streaming = true` and `control_port` equal to the control
server's bound port (the field `port_`, whatever it is); handling
`{"action":"stop_stream"}` and then `{"action":"get_status"}` returns `state = idle`
and `streaming = false`. -/
theorem stream_scenario (env1 env2 env3 env4 : Env) (app : VisionProApp)
    (hsocket : 0 ≤ env1.socket_ret) (hconnect : 0 ≤ env1.connect_ret)
    (hrec : app.recording = false) :
    ∃ app1 r1 app2 r2 app3 r3 app4 r4,
      app.handleCommand env1 startStreamText = some (app1, r1) ∧
      mapFind r1 "status".data = some "ok".data ∧
      app1.handleCommand env2 getStatusText = some (app2, r2) ∧
      mapFind r2 "state".data = some "streaming".data ∧
      mapFind r2 "streaming".data = some "true".data ∧
      mapFind r2 "control_port".data = some (to_string app.control_server_.port_) ∧
      app2.handleCommand env3 stopStreamText = some (app3, r3) ∧
      mapFind r3 "status".data = some "ok".data ∧
      app3.handleCommand env4 getStatusText = some (app4, r4) ∧
      mapFind r4 "state".data = some "idle".data ∧
      mapFind r4 "streaming".data = some "false".data := by
  -- start_stream
  have hp1 : SimpleJson.parse startStreamText = some startStreamCmd := parse_scenario.1
  have hip : startStreamCmd.get "ip".data "192.168.0.140".data ≠ [] := by decide
  have hact : startStreamCmd.get "action".data = "start_stream".data := by decide
  obtain ⟨o1, o2, o3, o4, _⟩ := startStream_opened env1 app startStreamCmd hip hsocket hconnect
  have h1 : app.handleCommand env1 startStreamText
      = some ((app.startStream env1 startStreamCmd).1.sendResponded
          (app.startStream env1 startStreamCmd).2, (app.startStream env1 startStreamCmd).2) :=
    handleCommand_eq env1 app startStreamText startStreamCmd hp1
      (app.startStream env1 startStreamCmd).1 (app.startStream env1 startStreamCmd).2
      (dispatch_startStream env1 app startStreamCmd hact)
  obtain ⟨_, _, a3, a4, a5⟩ := sendResponded_fields (app.startStream env1 startStreamCmd).1
    (app.startStream env1 startStreamCmd).2
  have hrec1 : (app.startStream env1 startStreamCmd).1.recording = app.recording := by
    unfold VisionProApp.recording
    rw [o3]
  have hport1 : (app.startStream env1 startStreamCmd).1.control_server_.port_
      = app.control_server_.port_ := by rw [o4]
  -- get_status
  have hp2 : SimpleJson.parse getStatusText = some ⟨[("action".data, "get_status".data)]⟩ :=
    parse_samples.2.1
  have hact2 : (⟨[("action".data, "get_status".data)]⟩ : SimpleJson).get "action".data
      = "get_status".data := by decide
  obtain ⟨app2, r2, h2, _, g3, g4, g5, g6, g7, g8⟩ :=
    getStatus_step env2 ((app.startStream env1 startStreamCmd).1.sendResponded
      (app.startStream env1 startStreamCmd).2) getStatusText _ hp2 hact2
  rw [a3, o2] at g4 g6
  rw [a4, hrec1, hrec] at g7
  rw [a5, hport1] at g5 g8
  have hst2 := (updateState_state_of_flags _).1 (a3.trans o2) (a4.trans (hrec1.trans hrec))
  rw [hst2] at g3
  -- stop_stream
  have hp3 : SimpleJson.parse stopStreamText = some ⟨[("action".data, "stop_stream".data)]⟩ :=
    parse_scenario.2
  have hact3 : (⟨[("action".data, "stop_stream".data)]⟩ : SimpleJson).get "action".data
      = "stop_stream".data := by decide
  have h3 : app2.handleCommand env3 stopStreamText
      = some (app2.stopStream.1.sendResponded app2.stopStream.2, app2.stopStream.2) :=
    handleCommand_eq env3 app2 stopStreamText _ hp3 app2.stopStream.1 app2.stopStream.2
      (dispatch_stopStream env3 app2 _ hact3)
  obtain ⟨_, _, b3, b4, _⟩ := sendResponded_fields app2.stopStream.1 app2.stopStream.2
  have hstr3 : app2.stopStream.1.streaming = false := rfl
  have hrec3 : app2.stopStream.1.recording = app2.recording := rfl
  -- get_status
  obtain ⟨app4, r4, h4, _, k3, k4, _, _, _, _⟩ :=
    getStatus_step env4 (app2.stopStream.1.sendResponded app2.stopStream.2)
      getStatusText _ hp2 hact2
  rw [b3, hstr3] at k4
  have hst4 := (updateState_state_of_flags _).2 (b3.trans hstr3)
    (b4.trans (hrec3.trans g7))
  rw [hst4] at k3
  have hs1 : mapFind (app.startStream env1 startStreamCmd).2 "status".data
      = some "ok".data := by
    rw [o1]
    exact statusMessage_status _ _
  have hs3 : mapFind app2.stopStream.2 "status".data = some "ok".data :=
    statusMessage_status _ _
  exact ⟨_, _, app2, r2, _, _, app4, r4, h1, hs1, h2, g3, g4, g5, h3, hs3, h4, k3, k4⟩

/-- Witness of C11: the scenario on the application after `init`, bound to port
9000, in the sample world, where the datagram socket opens: `control_port` is
`9000`. -/
theorem stream_scenario_witness :
    ∃ app1 r1 app2 r2 app3 r3 app4 r4,
      (VisionProApp.initial 9000 false).handleCommand sampleEnv startStreamText
        = some (app1, r1) ∧
      mapFind r1 "status".data = some "ok".data ∧
      app1.handleCommand sampleEnv getStatusText = some (app2, r2) ∧
      mapFind r2 "state".data = some "streaming".data ∧
      mapFind r2 "streaming".data = some "true".data ∧
      mapFind r2 "control_port".data = some "9000".data ∧
      app2.handleCommand sampleEnv stopStreamText = some (app3, r3) ∧
      mapFind r3 "status".data = some "ok".data ∧
      app3.handleCommand sampleEnv getStatusText = some (app4, r4) ∧
      mapFind r4 "state".data = some "idle".data ∧
      mapFind r4 "streaming".data = some "false".data :=
  stream_scenario sampleEnv sampleEnv sampleEnv sampleEnv (VisionProApp.initial 9000 false)
    (by decide) (by decide) (by decide)

/-! ## Recording file names -/

theorem getUniqueFilenameLoop_first_free (fs_exists : Str → Bool) (path filename : Str) :
    ∀ (fuel counter k : Nat), 1 ≤ counter → counter ≤ k → k < counter + fuel →
      fs_exists (candidateName path filename k) = false →
      (∀ j, counter ≤ j → j < k → fs_exists (candidateName path filename j) = true) →
      getUniqueFilenameLoop fs_exists path filename ".mp4".data fuel counter
        = some (candidateName path filename k) := by
  intro fuel
  induction fuel with
  | zero => intro counter k _ h1 h2; omega
  | succ fuel ih =>
    intro counter k hpos hle hlt hfree hbusy
    obtain ⟨c, rfl⟩ : ∃ c, counter = c + 1 := ⟨counter - 1, by omega⟩
    have hname : path ++ ['/'] ++ filename ++ ['_'] ++ to_string ((c + 1 : Nat) : Int)
        ++ ".mp4".data = candidateName path filename (c + 1) := rfl
    unfold getUniqueFilenameLoop
    simp only
    rw [hname]
    rcases Nat.eq_or_lt_of_le hle with heq | hlt2
    · rw [← heq] at hfree ⊢
      simp [hfree]
    · have hb := hbusy (c + 1) (le_refl _) hlt2
      simp only [hb, Bool.not_true, Bool.false_eq_true, if_false]
      exact ih (c + 1 + 1) k (by omega) (by omega) (by omega) hfree
        (fun j h1 h2 => hbusy j (by omega) h2)

theorem getUniqueFilenameLoop_none (fs_exists : Str → Bool) (path filename : Str) :
    ∀ (fuel counter : Nat), 1 ≤ counter →
      (∀ j, counter ≤ j → j < counter + fuel →
        fs_exists (candidateName path filename j) = true) →
      getUniqueFilenameLoop fs_exists path filename ".mp4".data fuel counter = none := by
  intro fuel
  induction fuel with
  | zero => intro counter _ _; rfl
  | succ fuel ih =>
    intro counter hpos hbusy
    obtain ⟨c, rfl⟩ : ∃ c, counter = c + 1 := ⟨counter - 1, by omega⟩
    have hname : path ++ ['/'] ++ filename ++ ['_'] ++ to_string ((c + 1 : Nat) : Int)
        ++ ".mp4".data = candidateName path filename (c + 1) := rfl
    unfold getUniqueFilenameLoop
    simp only
    rw [hname]
    have hb := hbusy (c + 1) (le_refl _) (by omega)
    simp only [hb, Bool.not_true, Bool.false_eq_true, if_false]
    exact ih (c + 1 + 1) (by omega) (fun j h1 h2 => hbusy j (by omega) (by omega))

/-- `getUniqueFilename` returns the first free candidate when its counter is an `int`. -/
theorem getUniqueFilename_first_free (fs_exists : Str → Bool) (path filename : Str) (k : Nat)
    (hk : k ≤ 2147483647) (hfree : fs_exists (candidateName path filename k) = false)
    (hbusy : ∀ j, j < k → fs_exists (candidateName path filename j) = true) :
    getUniqueFilename fs_exists path filename ".mp4".data
      = some (candidateName path filename k) := by
  have hname : path ++ ['/'] ++ filename ++ ".mp4".data = candidateName path filename 0 := rfl
  unfold getUniqueFilename
  simp only
  rw [hname]
  rcases Nat.eq_zero_or_pos k with h0 | hpos
  · subst h0
    simp [hfree]
  · have hb := hbusy 0 hpos
    simp only [hb, Bool.not_true, Bool.false_eq_true, if_false]
    exact getUniqueFilenameLoop_first_free fs_exists path filename 2147483647 1 k
      (le_refl _) hpos (by omega) hfree (fun j _ h2 => hbusy j h2)

theorem dispatch_startRecord (env : Env) (app : VisionProApp) (cmd : SimpleJson)
    (h : cmd.get "action".data = "start_record".data) :
    app.dispatch env cmd = app.startRecord env cmd := by
  unfold VisionProApp.dispatch
  simp only
  rw [h, if_neg (by decide), if_neg (by decide), if_pos rfl]

theorem dispatch_stopRecord (env : Env) (app : VisionProApp) (cmd : SimpleJson)
    (h : cmd.get "action".data = "stop_record".data) :
    app.dispatch env cmd = some app.stopRecord := by
  unfold VisionProApp.dispatch
  simp only
  rw [h, if_neg (by decide), if_neg (by decide), if_neg (by decide), if_pos rfl]

/-- The `start_record` branch when `fs::create_directories` returns, `getUniqueFilename`
returns `fp` and the writer opens: the recorder records to `fp` and the answer
carries `fp`. -/
theorem startRecord_opened (env : Env) (app : VisionProApp) (cmd : SimpleJson)
    (fs1 : Str → Bool) (fp : Str)
    (hdir : env.create_directories (cmd.get "path".data ".".data) = some fs1)
    (hfn : getUniqueFilename fs1 (cmd.get "path".data ".".data)
      (cmd.get "filename".data "recording".data) ".mp4".data = some fp)
    (hw : env.writer_opens fp (env.camera_width * 2) env.camera_height
      app.record_config_.fps = true) :
    app.startRecord env cmd
      = some ({ app with recorder_ := some ⟨fp, true⟩ },
          mapSet (statusMessage "ok".data "Recording started".data) "filepath".data fp) := by
  unfold VisionProApp.startRecord
  simp only
  unfold VideoRecorder.start
  simp only
  rw [hdir]
  simp only
  rw [hfn]
  simp only [hw, if_true]

theorem startRecord_none (env : Env) (app : VisionProApp) (cmd : SimpleJson)
    (fs1 : Str → Bool)
    (hdir : env.create_directories (cmd.get "path".data ".".data) = some fs1)
    (hfn : getUniqueFilename fs1 (cmd.get "path".data ".".data)
      (cmd.get "filename".data "recording".data) ".mp4".data = none) :
    app.startRecord env cmd = none := by
  unfold VisionProApp.startRecord
  simp only
  unfold VideoRecorder.start
  simp only
  rw [hdir]
  simp only
  rw [hfn]

/-- When `fs::create_directories(path)` throws, the `start_record` branch does not
return: no response is built and none is sent. -/
theorem startRecord_throws (env : Env) (app : VisionProApp) (cmd : SimpleJson)
    (hdir : env.create_directories (cmd.get "path".data ".".data) = none) :
    app.startRecord env cmd = none := by
  unfold VisionProApp.startRecord
  simp only
  unfold VideoRecorder.start
  simp only
  rw [hdir]

theorem candidateName_ne_nil (path filename : Str) (k : Nat) :
    candidateName path filename k ≠ [] := by
  cases k <;> simp [candidateName]

/-- C12 (amended): for every file system state (the predicate `fs_exists`) in which
a candidate `path/filename.mp4`, `path/filename_1.mp4`, ... with counter at most
`2147483647` is free, when `fs::create_directories(path)` returns without throwing
and leaves the candidate names as they were, and when the video writer opens: a
`start_record` command followed by a `stop_record` command returns the same non-empty
`filepath` in both responses; that path is the first free candidate, which did not
exist before `start_record`. -/
theorem record_filepath (env1 env2 : Env) (app : VisionProApp) (start_str stop_str : Str)
    (cmd1 cmd2 : SimpleJson) (k0 : Nat) (fs1 : Str → Bool)
    (hparse1 : SimpleJson.parse start_str = some cmd1)
    (haction1 : cmd1.get "action".data = "start_record".data)
    (hparse2 : SimpleJson.parse stop_str = some cmd2)
    (haction2 : cmd2.get "action".data = "stop_record".data)
    (hdir : env1.create_directories (cmd1.get "path".data ".".data) = some fs1)
    (hkeep : ∀ k, fs1 (candidateName (cmd1.get "path".data ".".data)
        (cmd1.get "filename".data "recording".data) k)
      = env1.fs_exists (candidateName (cmd1.get "path".data ".".data)
        (cmd1.get "filename".data "recording".data) k))
    (hrange : k0 ≤ 2147483647)
    (hfree : env1.fs_exists (candidateName (cmd1.get "path".data ".".data)
      (cmd1.get "filename".data "recording".data) k0) = false)
    (hwriter : ∀ fp, env1.writer_opens fp (env1.camera_width * 2) env1.camera_height
      app.record_config_.fps = true) :
    ∃ k app1 r1 app2 r2,
      k ≤ k0 ∧
      env1.fs_exists (candidateName (cmd1.get "path".data ".".data)
        (cmd1.get "filename".data "recording".data) k) = false ∧
      (∀ j, j < k → env1.fs_exists (candidateName (cmd1.get "path".data ".".data)
        (cmd1.get "filename".data "recording".data) j) = true) ∧
      app.handleCommand env1 start_str = some (app1, r1) ∧
      app1.handleCommand env2 stop_str = some (app2, r2) ∧
      mapFind r1 "status".data = some "ok".data ∧
      mapFind r2 "status".data = some "ok".data ∧
      mapFind r1 "filepath".data = some (candidateName (cmd1.get "path".data ".".data)
        (cmd1.get "filename".data "recording".data) k) ∧
      mapFind r2 "filepath".data = mapFind r1 "filepath".data ∧
      candidateName (cmd1.get "path".data ".".data)
        (cmd1.get "filename".data "recording".data) k ≠ [] := by
  generalize hpath : cmd1.get "path".data ".".data = path at hfree hdir hkeep ⊢
  generalize hfile : cmd1.get "filename".data "recording".data = filename at hfree hkeep ⊢
  -- the first free candidate
  obtain ⟨k, hk1, hk2, hk3⟩ : ∃ k, env1.fs_exists (candidateName path filename k) = false ∧
      (∀ j, j < k → env1.fs_exists (candidateName path filename j) = true) ∧ k ≤ k0 := by
    have hex : ∃ j, env1.fs_exists (candidateName path filename j) = false := ⟨k0, hfree⟩
    refine ⟨Nat.find hex, Nat.find_spec hex, ?_, Nat.find_min' hex hfree⟩
    intro j hj
    have := Nat.find_min hex hj
    simpa using this
  have hfn := getUniqueFilename_first_free fs1 path filename k
    (by omega) ((hkeep k).trans hk1) (fun j hj => (hkeep j).trans (hk2 j hj))
  subst hpath hfile
  have hstart := startRecord_opened env1 app cmd1 fs1 _ hdir hfn (hwriter _)
  have h1 := handleCommand_eq env1 app start_str cmd1 hparse1 _ _
    ((dispatch_startRecord env1 app cmd1 haction1).trans hstart)
  have hstop : ∀ (a : VisionProApp) (fp : Str), a.recorder_ = some ⟨fp, true⟩ →
      a.stopRecord = ({ a with recorder_ := some (VideoRecorder.stop ⟨fp, true⟩) },
        mapSet (statusMessage "ok".data "Recording stopped".data) "filepath".data fp) := by
    intro a fp ha
    unfold VisionProApp.stopRecord
    rw [ha]
  obtain ⟨app1, h1, hrec1⟩ : ∃ app1, app.handleCommand env1 start_str
      = some (app1, mapSet (statusMessage "ok".data "Recording started".data) "filepath".data
          (candidateName (cmd1.get "path".data ".".data)
            (cmd1.get "filename".data "recording".data) k)) ∧
      app1.recorder_ = some ⟨candidateName (cmd1.get "path".data ".".data)
        (cmd1.get "filename".data "recording".data) k, true⟩ := ⟨_, h1, rfl⟩
  have h2 := handleCommand_eq env2 app1 stop_str cmd2 hparse2 _ _
    ((dispatch_stopRecord env2 app1 cmd2 haction2).trans
      (congrArg some (hstop app1 _ hrec1)))
  refine ⟨k, app1, _, _, _, hk3, hk1, hk2, h1, h2, ?_, ?_, ?_, ?_,
    candidateName_ne_nil _ _ _⟩
  · rw [mapFind_mapSet_ne _ _ _ _ (by decide)]
    exact statusMessage_status _ _
  · rw [mapFind_mapSet_ne _ _ _ _ (by decide)]
    exact statusMessage_status _ _
  · exact mapFind_mapSet_self _ _ _
  · rw [mapFind_mapSet_self, mapFind_mapSet_self]

theorem parse_record :
    SimpleJson.parse startRecordText = some startRecordCmd ∧
    SimpleJson.parse stopRecordText = some ⟨[("action".data, "stop_record".data)]⟩ := by
  constructor <;> decide

/-- Witness of C12 (amended): `v/r.mp4` exists, so the recording goes to
`v/r_1.mp4`. -/
theorem record_filepath_witness :
    ∃ k app1 r1 app2 r2,
      k ≤ 1 ∧
      takenEnv.fs_exists (candidateName (startRecordCmd.get "path".data ".".data)
        (startRecordCmd.get "filename".data "recording".data) k) = false ∧
      (∀ j, j < k → takenEnv.fs_exists (candidateName (startRecordCmd.get "path".data ".".data)
        (startRecordCmd.get "filename".data "recording".data) j) = true) ∧
      (VisionProApp.initial 9000 false).handleCommand takenEnv startRecordText
        = some (app1, r1) ∧
      app1.handleCommand sampleEnv stopRecordText = some (app2, r2) ∧
      mapFind r1 "status".data = some "ok".data ∧
      mapFind r2 "status".data = some "ok".data ∧
      mapFind r1 "filepath".data
        = some (candidateName (startRecordCmd.get "path".data ".".data)
            (startRecordCmd.get "filename".data "recording".data) k) ∧
      mapFind r2 "filepath".data = mapFind r1 "filepath".data ∧
      candidateName (startRecordCmd.get "path".data ".".data)
        (startRecordCmd.get "filename".data "recording".data) k ≠ [] :=
  record_filepath takenEnv sampleEnv (VisionProApp.initial 9000 false) startRecordText
    stopRecordText startRecordCmd ⟨[("action".data, "stop_record".data)]⟩ 1
    takenEnv.fs_exists parse_record.1 (by decide) parse_record.2 (by decide) rfl
    (fun _ => rfl) (by decide) (by decide) (fun _ => rfl)

/-- The exchange of the witness of C12, evaluated. -/
theorem record_sample :
    ((VisionProApp.initial 9000 false).handleCommand takenEnv startRecordText).map
        (fun r => r.2)
      = some [("filepath".data, "v/r_1.mp4".data), ("message".data, "Recording started".data),
          ("status".data, "ok".data)] := by
  decide

theorem handleCommand_none_of_dispatch (env : Env) (app : VisionProApp) (cmd_str : Str)
    (cmd : SimpleJson) (hp : SimpleJson.parse cmd_str = some cmd)
    (hd : app.dispatch env cmd = none) : app.handleCommand env cmd_str = none := by
  unfold VisionProApp.handleCommand
  rw [hp]
  simp only [hd]

theorem to_string_natCast (j : Nat) : to_string ((j : Nat) : Int) = (Nat.repr j).data := rfl

/-- In the file system of `crowdedEnv` every name the loop of `getUniqueFilename`
can build for path `v` and file name `r` exists. -/
theorem crowded_candidates (j : Nat) (hj : j ≤ 2147483647) :
    crowdedEnv.fs_exists (candidateName "v".data "r".data j) = true := by
  cases j with
  | zero => decide
  | succ j =>
    have hlen := Nat.repr_length (j + 1) 10 (by decide) (by omega)
    have hl : (Nat.repr (j + 1)).data.length ≤ 10 := hlen
    simp only [crowdedEnv, candidateName, to_string_natCast, decide_eq_true_eq,
      List.length_append, List.length_cons, List.length_nil]
    omega

/-- C12 as stated fails, in two ways. With the empty path, the candidate `/rec.mp4`
is free and the writer would open, but `fs::create_directories("")` throws and the
`start_record` command
`{"action":"start_record","path":"","filename":"rec"}` gets no response at all. And
in the file system of `crowdedEnv` the candidate `v/r_10000000000.mp4` is free, but
every candidate whose counter is a positive `int` exists, `counter++` overflows
after `2147483647`, and the `start_record` command returns no response naming that
free candidate. -/
theorem record_filepath_counterexample :
    (SimpleJson.parse startRecordEmptyPathText
        = some ⟨[("action".data, "start_record".data), ("filename".data, "rec".data),
            ("path".data, [])]⟩ ∧
      candidateName [] "rec".data 0 = "/rec.mp4".data ∧
      emptyPathEnv.fs_exists (candidateName [] "rec".data 0) = false ∧
      (∀ fp w h f, emptyPathEnv.writer_opens fp w h f = true) ∧
      emptyPathEnv.create_directories [] = none ∧
      (VisionProApp.initial 9000 false).handleCommand emptyPathEnv startRecordEmptyPathText
        = none) ∧
    (crowdedEnv.fs_exists (candidateName (startRecordCmd.get "path".data ".".data)
        (startRecordCmd.get "filename".data "recording".data) 10000000000) = false ∧
      SimpleJson.parse startRecordText = some startRecordCmd ∧
      startRecordCmd.get "action".data = "start_record".data ∧
      (VisionProApp.initial 9000 false).handleCommand crowdedEnv startRecordText = none) := by
  have hp : SimpleJson.parse startRecordEmptyPathText
      = some ⟨[("action".data, "start_record".data), ("filename".data, "rec".data),
          ("path".data, [])]⟩ := by decide
  refine ⟨⟨hp, by decide, rfl, fun _ _ _ _ => rfl, rfl, ?_⟩,
    by decide, parse_record.1, by decide, ?_⟩
  · apply handleCommand_none_of_dispatch _ _ _ _ hp
    rw [dispatch_startRecord _ _ _ (by decide)]
    apply startRecord_throws
    have hpath : (⟨[("action".data, "start_record".data), ("filename".data, "rec".data),
        ("path".data, [])]⟩ : SimpleJson).get "path".data ".".data = [] := by decide
    rw [hpath]
    rfl
  · apply handleCommand_none_of_dispatch _ _ _ startRecordCmd parse_record.1
    rw [dispatch_startRecord _ _ _ (by decide)]
    apply startRecord_none _ _ _ crowdedEnv.fs_exists rfl
    have hpath : startRecordCmd.get "path".data ".".data = "v".data := by decide
    have hfile : startRecordCmd.get "filename".data "recording".data = "r".data := by decide
    rw [hpath, hfile]
    have hname : "v".data ++ ['/'] ++ "r".data ++ ".mp4".data
        = candidateName "v".data "r".data 0 := rfl
    unfold getUniqueFilename
    simp only
    rw [hname, crowded_candidates 0 (by decide)]
    simp only [Bool.not_true, Bool.false_eq_true, if_false]
    exact getUniqueFilenameLoop_none _ _ _ 2147483647 1 (le_refl _)
      (fun j _ h2 => crowded_candidates j (by omega))

/-! ## `start_stream` without an `ip` field -/

/-- C13 fails on the code: `handleCommand` reads the ip with
`cmd.get("ip", "192.168.0.140")`, so a `start_stream` command without `ip` field is
not refused. In every state and every outside world where `socket` and `connect`
succeed it answers `status = ok`, `Streaming started`, and opens a running
transport to `192.168.0.140`; on the sample `{"action":"start_stream","port":9003}`
the `socket` call made is for `192.168.0.140:9003`. -/
theorem start_stream_missing_ip :
    (∀ (env : Env) (app : VisionProApp) (cmd_str : Str) (cmd : SimpleJson),
      SimpleJson.parse cmd_str = some cmd →
      cmd.get "action".data = "start_stream".data →
      mapFind cmd.data "ip".data = none →
      0 ≤ env.socket_ret → 0 ≤ env.connect_ret →
      ∃ app1 resp, app.handleCommand env cmd_str = some (app1, resp) ∧
        mapFind resp "status".data = some "ok".data ∧
        mapFind resp "message".data = some "Streaming started".data ∧
        app1.streaming = true ∧
        app1.socket_calls = app.socket_calls ++
          [("192.168.0.140".data, cmd.getInt "port".data 9003)]) ∧
    SimpleJson.parse startStreamNoIpText
      = some ⟨[("action".data, "start_stream".data), ("port".data, "9003".data)]⟩ ∧
    ((VisionProApp.pending 9000 7).handleCommand sampleEnv startStreamNoIpText).map
        (fun r => r.2)
      = some [("message".data, "Streaming started".data), ("status".data, "ok".data)] ∧
    ((VisionProApp.pending 9000 7).handleCommand sampleEnv startStreamNoIpText).map
        (fun r => (r.1.streaming, r.1.socket_calls))
      = some (true, [("192.168.0.140".data, 9003)]) ∧
    ((VisionProApp.pending 9000 7).handleCommand sampleEnv startStreamNoIpText).map
        (fun r => r.1.sender_.map (fun s => (s.config_.target_ip, s.connected_)))
      = some (some ("192.168.0.140".data, true)) := by
  refine ⟨?_, by decide, by decide, by decide, by decide⟩
  intro env app cmd_str cmd hp ha hip hs hc
  have hget : cmd.get "ip".data "192.168.0.140".data = "192.168.0.140".data := by
    unfold SimpleJson.get
    rw [hip]
  have hne : cmd.get "ip".data "192.168.0.140".data ≠ [] := by
    rw [hget]
    decide
  obtain ⟨o1, o2, _, _, o5⟩ := startStream_opened env app cmd hne hs hc
  have h1 : app.handleCommand env cmd_str
      = some ((app.startStream env cmd).1.sendResponded (app.startStream env cmd).2,
          (app.startStream env cmd).2) :=
    handleCommand_eq env app cmd_str cmd hp _ _ (dispatch_startStream env app cmd ha)
  refine ⟨_, _, h1, ?_, ?_, o2, ?_⟩
  · rw [o1]; exact statusMessage_status _ _
  · rw [o1]; exact statusMessage_message _ _
  · rw [← hget]; exact o5

/-! ## Fragment counts beyond 16 bits -/

theorem fragment_total (fid n P : Nat) (data : List Nat) (i : Nat) :
    ((fragment fid n P data i).drop 6).take 2 = bigEndian 2 n := by
  unfold fragment
  have h4 : (bigEndian 4 fid).length = 4 := length_bigEndian 4 fid
  have h2 : (bigEndian 2 i).length = 2 := length_bigEndian 2 i
  have h2n : (bigEndian 2 n).length = 2 := length_bigEndian 2 n
  rw [List.append_assoc, List.append_assoc, List.drop_append_eq_append_drop,
    List.drop_of_length_le (by omega), List.nil_append, h4,
    List.drop_append_eq_append_drop, List.drop_of_length_le (by omega), List.nil_append, h2,
    show 6 - 4 - 2 = 0 from rfl, List.drop_zero, List.take_left' h2n]

/-- C14 (amended): when `ceil(L / P)` exceeds 65535 (for `1 ≤ P ≤ 2^31 - 9` and a
frame shorter than `2^31` bytes), `sendPackets` does truncate the fragment count
silently: the call returns normally, `total_packets` is `ceil(L / P) mod 65536`,
which is smaller than `ceil(L / P)`; that value is the loop bound (exactly that many
datagrams are sent, the first fragments of the frame) and it is what every header
carries as total. -/
theorem sendPackets_truncates (s : UdpImageSender) (data : List Nat) (P : Nat)
    (hcfg : s.config_.max_payload = (P : Int)) (hP : 1 ≤ P) (hcap : P + 8 < 2147483648)
    (hL : data.length < 2147483648) (hbig : 65535 < ceilDiv data.length P) :
    ∃ ds, sendPackets s data
        = some ({ s with frame_id_ := (s.frame_id_ + 1) % 4294967296 }, ds) ∧
      ds = (List.range (ceilDiv data.length P % 65536)).map
        (fragment (s.frame_id_ % 4294967296) (ceilDiv data.length P % 65536) P data) ∧
      ds.length = ceilDiv data.length P % 65536 ∧
      ceilDiv data.length P % 65536 < ceilDiv data.length P ∧
      ∀ d ∈ ds, (d.drop 6).take 2 = bigEndian 2 (ceilDiv data.length P % 65536) := by
  have hs := ceilDiv_spec data.length P hP
  have hmod : ceilDiv data.length P % 65536 < 65536 := Nat.mod_lt _ (by decide)
  refine ⟨_, sendPackets_eq_general s data P hcfg hP hcap (by omega) ?_, rfl, by simp,
    by omega, ?_⟩
  · intro i hi
    have hin : i + 1 ≤ ceilDiv data.length P := by omega
    have hmul : (i + 1) * P ≤ ceilDiv data.length P * P := Nat.mul_le_mul_right P hin
    have hsucc : (i + 1) * P = i * P + P := by ring
    omega
  · intro d hd
    obtain ⟨i, _, rfl⟩ := List.mem_map.mp hd
    exact fragment_total _ _ _ _ _

/-- Witness of C14 (amended): a frame of 65537 bytes cut with `P = 1`. -/
theorem sendPackets_truncates_witness :
    ∃ ds, sendPackets unitPayloadSender (List.replicate 65537 7)
        = some ({ unitPayloadSender with
                  frame_id_ := (unitPayloadSender.frame_id_ + 1) % 4294967296 }, ds) ∧
      ds = (List.range (ceilDiv (List.replicate 65537 7).length 1 % 65536)).map
        (fragment (unitPayloadSender.frame_id_ % 4294967296)
          (ceilDiv (List.replicate 65537 7).length 1 % 65536) 1 (List.replicate 65537 7)) ∧
      ds.length = ceilDiv (List.replicate 65537 7).length 1 % 65536 ∧
      ceilDiv (List.replicate 65537 7).length 1 % 65536
        < ceilDiv (List.replicate 65537 7).length 1 ∧
      ∀ d ∈ ds, (d.drop 6).take 2
        = bigEndian 2 (ceilDiv (List.replicate 65537 7).length 1 % 65536) :=
  sendPackets_truncates unitPayloadSender (List.replicate 65537 7) 1 rfl (by decide)
    (by decide) (by rw [List.length_replicate]; decide)
    (by rw [List.length_replicate]; decide)

/-- C14 as stated fails: for a frame of 65537 bytes and `P = 1`, `ceil(L / P)` is
65537, and `sendPackets` uses `65537 mod 65536 = 1` as loop bound and writes it in
the header: it sends the single datagram `00 00 00 00 | 00 00 | 00 01 | 07`. -/
theorem sendPackets_truncates_counterexample :
    65535 < ceilDiv (List.replicate 65537 7).length 1 ∧
    ceilDiv (List.replicate 65537 7).length 1 % 65536 = 1 ∧
    sendPackets unitPayloadSender (List.replicate 65537 7)
      = some ({ unitPayloadSender with frame_id_ := 1 }, [[0, 0, 0, 0, 0, 0, 0, 1, 7]]) := by
  have hlen : (List.replicate 65537 7).length = 65537 := List.length_replicate _ _
  have hn : ceilDiv (List.replicate 65537 7).length 1 % 65536 = 1 := by rw [hlen]; decide
  refine ⟨by rw [hlen]; decide, hn, ?_⟩
  rw [sendPackets_eq_general _ (List.replicate 65537 7) 1 rfl (by decide) (by decide)
    (by rw [hlen]; decide) (by rw [hn]; intro i hi; omega), hn]
  have hfrag : fragment (unitPayloadSender.frame_id_ % 4294967296) 1 1
      (List.replicate 65537 7) 0 = [0, 0, 0, 0, 0, 0, 0, 1, 7] := by
    unfold fragment
    rw [hlen]
    simp only [Nat.zero_mul, List.drop_zero, Nat.zero_add, Nat.one_mul, Nat.sub_zero]
    have ht : List.take (min 1 65537) (List.replicate 65537 7) = [7] := by
      rw [show min 1 65537 = 1 from rfl, List.take_replicate]
      rfl
    rw [ht]
    rfl
  have hr : List.range 1 = [0] := rfl
  rw [hr, List.map_cons, List.map_nil, hfrag]
  rfl

/-! ## Quoting in `stringify` -/

/-- The recogniser of JSON numbers on a few texts. -/
theorem isJsonNumber_samples :
    isJsonNumber "9000".data = true ∧ isJsonNumber "-12.5e+3".data = true ∧
    isJsonNumber "0".data = true ∧ isJsonNumber "01".data = false ∧
    isJsonNumber "-".data = false ∧ isJsonNumber "1.".data = false ∧
    isJsonNumber "true".data = false ∧ isJsonNumber "2024/rec.mp4".data = false := by
  decide

/-- C15 fails on the code: `stringify` leaves a value unquoted as soon as its first
character is a digit or `-`. The file path `2024/rec.mp4`, the text `-` and the
device response `1 file busy` are none of `true`, `false` or a JSON number, yet they
are written without quotes; the response to
`{"action":"start_record","path":"2024","filename":"rec"}` goes out on the
connection as `{"filepath":2024/rec.mp4,"message":"Recording started","status":"ok"}`. -/
theorem stringify_unquoted_text :
    isJsonNumber "2024/rec.mp4".data = false ∧
    SimpleJson.stringify [("filepath".data, "2024/rec.mp4".data), ("status".data, "ok".data)]
      = "\x7b\"filepath\":2024/rec.mp4,\"status\":\"ok\"\x7d".data ∧
    isJsonNumber "-".data = false ∧
    SimpleJson.stringify [("message".data, "-".data)] = "\x7b\"message\":-\x7d".data ∧
    isJsonNumber "1 file busy".data = false ∧
    SimpleJson.stringify [("device_response".data, "1 file busy".data)]
      = "\x7b\"device_response\":1 file busy\x7d".data ∧
    ((VisionProApp.pending 9000 7).handleCommand sampleEnv startRecordDigitsText).map
        (fun r => (r.2, r.1.control_server_.log))
      = some ([("filepath".data, "2024/rec.mp4".data),
               ("message".data, "Recording started".data), ("status".data, "ok".data)],
          [ControlEvent.sendResponse
             ("\x7b\"filepath\":2024/rec.mp4,\"message\":\"Recording started\"," ++
               "\"status\":\"ok\"\x7d").data,
           ControlEvent.send 7
             ("\x7b\"filepath\":2024/rec.mp4,\"message\":\"Recording started\"," ++
               "\"status\":\"ok\"\x7d\n").data,
           ControlEvent.close 7]) := by
  refine ⟨?_, ?_, ?_, ?_, ?_, ?_, ?_⟩ <;> decide

/-- What `stringify` does by construction: an entry is written without quotes
exactly when its value is `true`, `false`, or starts with a digit or `-`. -/
theorem stringifyEntry_eq (k v : Str) :
    (v = "true".data ∨ v = "false".data ∨
        (v ≠ [] ∧ (isdigit (v.headD '\x00') = true ∨ v.headD '\x00' = '-')) →
      stringifyEntry (k, v) = ['"'] ++ k ++ ['"', ':'] ++ v) ∧
    (¬ (v = "true".data ∨ v = "false".data ∨
        (v ≠ [] ∧ (isdigit (v.headD '\x00') = true ∨ v.headD '\x00' = '-'))) →
      stringifyEntry (k, v) = ['"'] ++ k ++ ['"', ':'] ++ (['"'] ++ v ++ ['"'])) := by
  unfold stringifyEntry
  constructor <;> intro h
  · rw [if_pos h]
  · rw [if_neg h]

/-! ## A string value without closing quote -/

theorem handleCommand_none_of_parse (env : Env) (app : VisionProApp) (cmd_str : Str)
    (hp : SimpleJson.parse cmd_str = none) : app.handleCommand env cmd_str = none := by
  unfold VisionProApp.handleCommand
  rw [hp]

/-- C17 fails on the code: on the text `{"a":"b` (and on `{"a":"b .`) the loop of
`parse` does not terminate. The scanned text is `"a":"b`; the turn started at
`pos = 0` finds no closing quote, `val_end` is `npos`, and `pos = val_end + 1` wraps
to `0`: the turn ends where it began, so the loop is left for no number of turns,
`parse` returns nothing and neither does `handleCommand`. -/
theorem parse_unterminated_string :
    stripBraces (removeWhitespace "\x7b\"a\":\"b".data) = some "\"a\":\"b".data ∧
    parseIter "\"a\":\"b".data 0 [] = some (0, [("a".data, "b".data)]) ∧
    (∀ (fuel : Nat) (d : JsonMap), parseLoop "\"a\":\"b".data fuel 0 d = none) ∧
    (∀ (env : Env) (app : VisionProApp),
      app.handleCommand env "\x7b\"a\":\"b".data = none) ∧
    stripBraces (removeWhitespace "\x7b\"a\":\"b .".data) = some "\"a\":\"b.".data ∧
    parseIter "\"a\":\"b.".data 0 [] = some (0, [("a".data, "b.".data)]) ∧
    (∀ (fuel : Nat) (d : JsonMap), parseLoop "\"a\":\"b.".data fuel 0 d = none) ∧
    (∀ (env : Env) (app : VisionProApp),
      app.handleCommand env "\x7b\"a\":\"b .".data = none) := by
  have h1 : parseIter "\"a\":\"b".data 0 [] = some (0, [("a".data, "b".data)]) := by decide
  have h2 : parseIter "\"a\":\"b.".data 0 [] = some (0, [("a".data, "b.".data)]) := by decide
  refine ⟨by decide, h1, ?_, ?_, by decide, h2, ?_, ?_⟩
  · exact parseLoop_cycle _ 0 0
      (ParseSteps.step (by decide) (parseIter_any_data _ _ _ _ _ h1) (ParseSteps.refl 0))
  · intro env app
    exact handleCommand_none_of_parse env app _ (by decide)
  · exact parseLoop_cycle _ 0 0
      (ParseSteps.step (by decide) (parseIter_any_data _ _ _ _ _ h2) (ParseSteps.refl 0))
  · intro env app
    exact handleCommand_none_of_parse env app _ (by decide)

/-! ## `parse` on flat JSON objects -/

theorem findFrom_append_of_not (p : Char → Bool) (b : Str) :
    ∀ (a : Str) (i : Nat), (∀ c ∈ a, p c = false) →
      findFrom p (a ++ b) i = findFrom p b (i + a.length) := by
  intro a
  induction a with
  | nil => intro i _; rfl
  | cons c a ih =>
    intro i h
    have hc : p c = false := h c (List.mem_cons_self _ _)
    have hrest := ih (i + 1) (fun x hx => h x (List.mem_cons_of_mem _ hx))
    have hlen : i + (c :: a).length = i + 1 + a.length := by
      simp only [List.length_cons]; omega
    rw [hlen, ← hrest]
    simp only [List.cons_append, findFrom, hc, Bool.false_eq_true, if_false]
    rfl

theorem findFrom_cons_of_pos (p : Char → Bool) (c : Char) (b : Str) (i : Nat)
    (h : p c = true) : findFrom p (c :: b) i = some i := by
  simp [findFrom, h]

theorem findFrom_none (p : Char → Bool) :
    ∀ (a : Str) (i : Nat), (∀ c ∈ a, p c = false) → findFrom p a i = none := by
  intro a
  induction a with
  | nil => intro i _; rfl
  | cons c a ih =>
    intro i h
    have hc : p c = false := h c (List.mem_cons_self _ _)
    simp only [findFrom, hc, Bool.false_eq_true, if_false]
    exact ih (i + 1) (fun x hx => h x (List.mem_cons_of_mem _ hx))

theorem drop_add_of_drop (s a b : Str) (pos : Nat) (h : s.drop pos = a ++ b) :
    s.drop (pos + a.length) = b := by
  rw [← List.drop_drop, h, List.drop_left]

theorem getD_eq_headD_drop (d : Char) : ∀ (s : Str) (i : Nat),
    s.getD i d = (s.drop i).headD d := by
  intro s
  induction s with
  | nil => intro i; simp
  | cons c s ih =>
    intro i
    cases i with
    | zero => simp
    | succ i => simp [ih i]

theorem length_of_drop (s X : Str) (pos : Nat) (h : s.drop pos = X) (hX : X ≠ []) :
    s.length = pos + X.length := by
  have hl := congrArg List.length h
  rw [List.length_drop] at hl
  have hpos : 0 < X.length := List.length_pos.mpr hX
  omega

theorem length_le_of_drop_nil (s : Str) (pos : Nat) (h : s.drop pos = []) :
    s.length ≤ pos := by
  have hl := congrArg List.length h
  rw [List.length_drop] at hl
  simp only [List.length_nil] at hl
  omega

theorem find_of_drop (s a b : Str) (c : Char) (pos : Nat)
    (h : s.drop pos = a ++ c :: b) (ha : ∀ x ∈ a, x ≠ c) :
    find s c pos = some (pos + a.length) := by
  unfold find
  rw [h, findFrom_append_of_not _ _ a pos (fun x hx => by simpa using ha x hx)]
  exact findFrom_cons_of_pos _ _ _ _ (by simp)

theorem find_first_of_of_drop (s a b chars : Str) (c : Char) (pos : Nat)
    (h : s.drop pos = a ++ c :: b) (ha : ∀ x ∈ a, chars.contains x = false)
    (hc : chars.contains c = true) :
    find_first_of s chars pos = some (pos + a.length) := by
  unfold find_first_of
  rw [h, findFrom_append_of_not _ _ a pos ha]
  exact findFrom_cons_of_pos _ _ _ _ hc

theorem find_first_of_none_of_drop (s chars : Str) (pos : Nat)
    (ha : ∀ x ∈ s.drop pos, chars.contains x = false) :
    find_first_of s chars pos = none := by
  unfold find_first_of
  exact findFrom_none _ _ _ ha

theorem substr_of_drop (s a b : Str) (pos : Nat) (h : s.drop pos = a ++ b) :
    substr s pos a.length = a := by
  unfold substr
  rw [h, List.take_left]

theorem getD_of_drop_cons (s b : Str) (c d : Char) (pos : Nat) (h : s.drop pos = c :: b) :
    s.getD pos d = c := by
  rw [getD_eq_headD_drop, h]
  rfl

theorem getD_of_drop_nil (s : Str) (d : Char) (pos : Nat) (h : s.drop pos = []) :
    s.getD pos d = d := by
  rw [getD_eq_headD_drop, h]
  rfl

theorem drop_succ_of_drop (s b : Str) (c : Char) (pos : Nat) (h : s.drop pos = c :: b) :
    s.drop (pos + 1) = b := by
  rw [← List.drop_drop, h]
  rfl

theorem lt_length_of_drop_cons (s b : Str) (c : Char) (pos : Nat) (h : s.drop pos = c :: b) :
    pos < s.length := by
  have hl := length_of_drop s (c :: b) pos h (List.cons_ne_nil _ _)
  simp only [List.length_cons] at hl
  omega

theorem parseIter_string_member (s key v tail : Str) (pos : Nat) (data : JsonMap)
    (h : s.drop pos = '"' :: (key ++ '"' :: ':' :: '"' :: (v ++ '"' :: tail)))
    (hk : ∀ x ∈ key, x ≠ '"') (hv : ∀ x ∈ v, x ≠ '"')
    (htail : tail = [] ∨ ∃ more, tail = ',' :: more) :
    ∃ pos1, parseIter s pos data = some (pos1, mapSet data key v) ∧
      s.drop pos1 = tail.drop 1 := by
  have d1 : s.drop (pos + 1) = key ++ '"' :: ':' :: '"' :: (v ++ '"' :: tail) :=
    drop_succ_of_drop _ _ _ _ h
  have d2 : s.drop (pos + 1 + key.length) = '"' :: ':' :: '"' :: (v ++ '"' :: tail) :=
    drop_add_of_drop _ _ _ _ d1
  have d3 : s.drop (pos + 1 + key.length + 1) = ':' :: '"' :: (v ++ '"' :: tail) :=
    drop_succ_of_drop _ _ _ _ d2
  have d4 : s.drop (pos + 1 + key.length + 1 + 1) = '"' :: (v ++ '"' :: tail) :=
    drop_succ_of_drop _ _ _ _ d3
  have d5 : s.drop (pos + 1 + key.length + 1 + 1 + 1) = v ++ '"' :: tail :=
    drop_succ_of_drop _ _ _ _ d4
  have d6 : s.drop (pos + 1 + key.length + 1 + 1 + 1 + v.length) = '"' :: tail :=
    drop_add_of_drop _ _ _ _ d5
  have d7 : s.drop (pos + 1 + key.length + 1 + 1 + 1 + v.length + 1) = tail :=
    drop_succ_of_drop _ _ _ _ d6
  have f1 : find s '"' pos = some pos :=
    find_of_drop s [] _ '"' pos h (by simp)
  have f2 : find s '"' (pos + 1) = some (pos + 1 + key.length) :=
    find_of_drop s key _ '"' (pos + 1) d1 hk
  have f3 : find s ':' (pos + 1 + key.length) = some (pos + 1 + key.length + 1) :=
    find_of_drop s ['"'] _ ':' (pos + 1 + key.length) d2 (by simp)
  have g4 : s.getD (pos + 1 + key.length + 1 + 1) '\x00' = '"' :=
    getD_of_drop_cons _ _ _ _ _ d4
  have f5 : find s '"' (pos + 1 + key.length + 1 + 1 + 1) =
      some (pos + 1 + key.length + 1 + 1 + 1 + v.length) :=
    find_of_drop s v _ '"' _ d5 hv
  have k1 : pos + 1 + key.length - pos - 1 = key.length := by omega
  have k2 : pos + 1 + key.length + 1 + 1 + 1 + v.length - (pos + 1 + key.length + 1 + 1) - 1
      = v.length := by omega
  have s1 : substr s (pos + 1) key.length = key := substr_of_drop _ _ _ _ d1
  have s2 : substr s (pos + 1 + key.length + 1 + 1 + 1) v.length = v :=
    substr_of_drop _ _ _ _ d5
  unfold parseIter
  rw [f1]
  dsimp only
  rw [f2]
  dsimp only
  rw [f3]
  dsimp only
  rw [g4, if_pos rfl, f5]
  dsimp only
  rw [k1, k2, s1, s2]
  rcases htail with ht | ⟨more, ht⟩
  · subst ht
    have hlen := length_le_of_drop_nil _ _ d7
    refine ⟨_, ?_, d7⟩
    rw [if_neg (fun hc => absurd hc.1 (by omega))]
  · subst ht
    refine ⟨pos + 1 + key.length + 1 + 1 + 1 + v.length + 1 + 1, ?_,
      drop_succ_of_drop _ _ _ _ d7⟩
    rw [if_pos ⟨lt_length_of_drop_cons _ _ _ _ d7, getD_of_drop_cons _ _ _ _ _ d7⟩]

theorem parseIter_bare_member (s key t tail : Str) (pos : Nat) (data : JsonMap)
    (h : s.drop pos = '"' :: (key ++ '"' :: ':' :: (t ++ tail)))
    (hk : ∀ x ∈ key, x ≠ '"') (ht0 : t ≠ [])
    (ht : ∀ x ∈ t, x ≠ '"' ∧ [',', '}'].contains x = false)
    (htail : tail = [] ∨ ∃ more, tail = ',' :: more) :
    ∃ pos1, parseIter s pos data = some (pos1, mapSet data key t) ∧
      s.drop pos1 = tail.drop 1 := by
  have d1 : s.drop (pos + 1) = key ++ '"' :: ':' :: (t ++ tail) :=
    drop_succ_of_drop _ _ _ _ h
  have d2 : s.drop (pos + 1 + key.length) = '"' :: ':' :: (t ++ tail) :=
    drop_add_of_drop _ _ _ _ d1
  have d3 : s.drop (pos + 1 + key.length + 1) = ':' :: (t ++ tail) :=
    drop_succ_of_drop _ _ _ _ d2
  have d4 : s.drop (pos + 1 + key.length + 1 + 1) = t ++ tail :=
    drop_succ_of_drop _ _ _ _ d3
  have d5 : s.drop (pos + 1 + key.length + 1 + 1 + t.length) = tail :=
    drop_add_of_drop _ _ _ _ d4
  have f1 : find s '"' pos = some pos :=
    find_of_drop s [] _ '"' pos h (by simp)
  have f2 : find s '"' (pos + 1) = some (pos + 1 + key.length) :=
    find_of_drop s key _ '"' (pos + 1) d1 hk
  have f3 : find s ':' (pos + 1 + key.length) = some (pos + 1 + key.length + 1) :=
    find_of_drop s ['"'] _ ':' (pos + 1 + key.length) d2 (by simp)
  have g4 : s.getD (pos + 1 + key.length + 1 + 1) '\x00' ≠ '"' := by
    obtain ⟨c, t1, rfl⟩ : ∃ c t1, t = c :: t1 := List.exists_cons_of_ne_nil ht0
    rw [getD_of_drop_cons s (t1 ++ tail) c _ _ d4]
    exact (ht c (List.mem_cons_self _ _)).1
  have f5 : (find_first_of s [',', '}'] (pos + 1 + key.length + 1 + 1)).getD s.length =
      pos + 1 + key.length + 1 + 1 + t.length := by
    rcases htail with hnil | ⟨more, hmore⟩
    · subst hnil
      rw [List.append_nil] at d4
      rw [find_first_of_none_of_drop s _ _ (by rw [d4]; exact fun x hx => (ht x hx).2)]
      exact length_of_drop s t _ d4 ht0
    · subst hmore
      rw [find_first_of_of_drop s t more _ ',' _ d4 (fun x hx => (ht x hx).2) (by decide)]
      rfl
  have k1 : pos + 1 + key.length - pos - 1 = key.length := by omega
  have k2 : pos + 1 + key.length + 1 + 1 + t.length - (pos + 1 + key.length + 1 + 1)
      = t.length := by omega
  have s1 : substr s (pos + 1) key.length = key := substr_of_drop _ _ _ _ d1
  have s2 : substr s (pos + 1 + key.length + 1 + 1) t.length = t :=
    substr_of_drop _ _ _ _ d4
  unfold parseIter
  rw [f1]
  dsimp only
  rw [f2]
  dsimp only
  rw [f3]
  dsimp only
  rw [if_neg g4]
  dsimp only
  rw [f5, k1, k2, s1, s2]
  rcases htail with hnil | ⟨more, hmore⟩
  · subst hnil
    have hlen := length_le_of_drop_nil _ _ d5
    refine ⟨_, ?_, d5⟩
    rw [if_neg (fun hc => absurd hc.1 (by omega))]
  · subst hmore
    refine ⟨pos + 1 + key.length + 1 + 1 + t.length + 1, ?_,
      drop_succ_of_drop _ _ _ _ d5⟩
    rw [if_pos ⟨lt_length_of_drop_cons _ _ _ _ d5, getD_of_drop_cons _ _ _ _ _ d5⟩]

theorem tokenChar_of_isdigit (c : Char) (h : isdigit c = true) : tokenChar c = true := by
  simp [tokenChar, h]

theorem tokenChar_ne (c : Char) (h : tokenChar c = true) :
    c ≠ '"' ∧ [',', '}'].contains c = false ∧ isBlank c = false := by
  refine ⟨?_, ?_, ?_⟩
  · rintro rfl
    revert h
    decide
  · cases hc : [',', '}'].contains c with
    | false => rfl
    | true =>
      have hm : c = ',' ∨ c = '}' := by simpa using hc
      rcases hm with rfl | rfl <;> revert h <;> decide
  · cases hc : isBlank c with
    | false => rfl
    | true =>
      have hm : c = ' ' ∨ c = '\n' ∨ c = '\r' ∨ c = '\t' := by
        simpa [isBlank, or_assoc] using hc
      rcases hm with rfl | rfl | rfl | rfl <;> revert h <;> decide

theorem plainChar_ne (c : Char) (h : plainChar c = true) : c ≠ '"' ∧ isBlank c = false := by
  simp only [plainChar, Bool.and_eq_true, bne_iff_ne, ne_eq, Bool.not_eq_true'] at h
  exact ⟨h.1.1, h.2⟩

theorem tokenChar_of_dropWhile (t : Str)
    (h : ∀ c ∈ t.dropWhile isdigit, tokenChar c = true) : ∀ c ∈ t, tokenChar c = true := by
  intro c hc
  rw [← List.takeWhile_append_dropWhile isdigit t] at hc
  rcases List.mem_append.mp hc with h1 | h2
  · exact tokenChar_of_isdigit c (List.mem_takeWhile_imp h1)
  · exact h c h2

theorem isJsonExp_chars (x : Str) (h : isJsonExp x = true) : ∀ c ∈ x, tokenChar c = true := by
  cases x with
  | nil => intro c hc; simp at hc
  | cons e t =>
    unfold isJsonExp at h
    dsimp only at h
    have hall : e = 'e' ∨ e = 'E' → (∀ c ∈ t, tokenChar c = true) →
        ∀ c ∈ e :: t, tokenChar c = true := by
      intro he ht c hc
      rcases List.mem_cons.mp hc with rfl | hc1
      · rcases he with rfl | rfl <;> decide
      · exact ht c hc1
    split_ifs at h with he hs
    · simp only [Bool.and_eq_true, List.all_eq_true] at h
      refine hall he ?_
      cases t with
      | nil => simp at hs
      | cons sg t1 =>
        intro c hc
        rcases List.mem_cons.mp hc with rfl | hc1
        · simp only [List.head?_cons, Option.some.injEq] at hs
          rcases hs with rfl | rfl <;> decide
        · exact tokenChar_of_isdigit c (h.2 c hc1)
    · simp only [Bool.and_eq_true, List.all_eq_true] at h
      exact hall he (fun c hc => tokenChar_of_isdigit c (h.2 c hc))

theorem isJsonFracExp_chars (r : Str) (h : isJsonFracExp r = true) :
    ∀ c ∈ r, tokenChar c = true := by
  unfold isJsonFracExp at h
  split at h
  · rename_i t
    simp only [Bool.and_eq_true] at h
    intro c hc
    rcases List.mem_cons.mp hc with rfl | hc1
    · decide
    · exact tokenChar_of_dropWhile t (isJsonExp_chars _ h.2) c hc1
  · exact isJsonExp_chars r h

theorem isJsonNumber_chars (s : Str) (h : isJsonNumber s = true) :
    s ≠ [] ∧ ∀ c ∈ s, tokenChar c = true := by
  have key : ∀ s1 : Str, (match s1 with
      | [] => false
      | c :: rest =>
        if c = '0' then isJsonFracExp rest
        else if isdigit c then isJsonFracExp (rest.dropWhile isdigit)
        else false) = true → s1 ≠ [] ∧ ∀ c ∈ s1, tokenChar c = true := by
    intro s1 h1
    cases s1 with
    | nil => simp at h1
    | cons c rest =>
      refine ⟨List.cons_ne_nil _ _, ?_⟩
      dsimp only at h1
      split_ifs at h1 with h0 hd
      · intro x hx
        rcases List.mem_cons.mp hx with rfl | hx1
        · subst h0; decide
        · exact isJsonFracExp_chars rest h1 x hx1
      · intro x hx
        rcases List.mem_cons.mp hx with rfl | hx1
        · exact tokenChar_of_isdigit _ hd
        · exact tokenChar_of_dropWhile rest (isJsonFracExp_chars _ h1) x hx1
  unfold isJsonNumber at h
  by_cases hm : s.head? = some '-'
  · simp only [hm, if_true] at h
    cases s with
    | nil => simp at hm
    | cons m s1 =>
      simp only [List.head?_cons, Option.some.injEq] at hm
      subst hm
      obtain ⟨_, h2⟩ := key _ h
      refine ⟨List.cons_ne_nil _ _, ?_⟩
      intro x hx
      rcases List.mem_cons.mp hx with rfl | hx1
      · decide
      · exact h2 x hx1
  · simp only [hm, if_false] at h
    exact key _ h

theorem bare_chars (t : Str)
    (h : (isJsonNumber t || t == "true".data || t == "false".data) = true) :
    t ≠ [] ∧ ∀ c ∈ t, tokenChar c = true := by
  simp only [Bool.or_eq_true, beq_iff_eq] at h
  rcases h with (h | h) | h
  · exact isJsonNumber_chars t h
  · subst h
    exact ⟨by decide, by decide⟩
  · subst h
    exact ⟨by decide, by decide⟩

theorem parseIter_member (s tail : Str) (e : Str × FlatValue) (pos : Nat) (data : JsonMap)
    (h : s.drop pos = entryText e ++ tail) (hwf : entryWellFormed e = true)
    (htail : tail = [] ∨ ∃ more, tail = ',' :: more) :
    ∃ pos1, parseIter s pos data = some (pos1, mapSet data e.1 e.2.content) ∧
      s.drop pos1 = tail.drop 1 := by
  obtain ⟨key, val⟩ := e
  simp only [entryWellFormed, Bool.and_eq_true, List.all_eq_true] at hwf
  have hk : ∀ x ∈ key, x ≠ '"' := fun x hx => (plainChar_ne x (hwf.1 x hx)).1
  cases val with
  | str v =>
    have hv : ∀ x ∈ v, x ≠ '"' := by
      have h2 := hwf.2
      simp only [FlatValue.wellFormed, List.all_eq_true] at h2
      exact fun x hx => (plainChar_ne x (h2 x hx)).1
    have hform : entryText (key, FlatValue.str v) ++ tail =
        '"' :: (key ++ '"' :: ':' :: '"' :: (v ++ '"' :: tail)) := by
      simp [entryText, FlatValue.text]
    rw [hform] at h
    exact parseIter_string_member s key v tail pos data h hk hv htail
  | bare t =>
    have h2 := bare_chars t hwf.2
    have hform : entryText (key, FlatValue.bare t) ++ tail =
        '"' :: (key ++ '"' :: ':' :: (t ++ tail)) := by
      simp [entryText, FlatValue.text]
    rw [hform] at h
    exact parseIter_bare_member s key t tail pos data h hk h2.1
      (fun x hx => ⟨(tokenChar_ne x (h2.2 x hx)).1, (tokenChar_ne x (h2.2 x hx)).2.1⟩) htail

theorem entryText_ne_nil (e : Str × FlatValue) : ∃ b, entryText e = '"' :: b :=
  ⟨e.1 ++ ['"', ':'] ++ e.2.text, by simp [entryText]⟩

theorem objectBody_cons (e : Str × FlatValue) (es : List (Str × FlatValue)) :
    ∃ tail, objectBody (e :: es) = entryText e ++ tail ∧
      (tail = [] ∨ ∃ more, tail = ',' :: more) ∧ tail.drop 1 = objectBody es := by
  cases es with
  | nil => exact ⟨[], by simp [objectBody], Or.inl rfl, rfl⟩
  | cons e2 es => exact ⟨',' :: objectBody (e2 :: es), rfl, Or.inr ⟨_, rfl⟩, rfl⟩

theorem parseLoop_objectBody (s : Str) : ∀ (es : List (Str × FlatValue)) (pos : Nat)
    (data : JsonMap), (∀ e ∈ es, entryWellFormed e = true) → s.drop pos = objectBody es →
    parseLoop s (es.length + 1) pos data =
      some (es.foldl (fun m e => mapSet m e.1 e.2.content) data) := by
  intro es
  induction es with
  | nil =>
    intro pos data _ h
    have hlen := length_le_of_drop_nil s pos h
    unfold parseLoop
    rw [if_neg (by omega)]
    rfl
  | cons e es ih =>
    intro pos data hwf h
    obtain ⟨tail, hbody, htail, hrest⟩ := objectBody_cons e es
    rw [hbody] at h
    obtain ⟨pos1, hit, hdrop⟩ :=
      parseIter_member s tail e pos data h (hwf e (List.mem_cons_self _ _)) htail
    obtain ⟨b, hb⟩ := entryText_ne_nil e
    have hlt : pos < s.length := by
      rw [hb] at h
      exact lt_length_of_drop_cons s _ _ pos h
    rw [hrest] at hdrop
    have hnext := ih pos1 (mapSet data e.1 e.2.content)
      (fun x hx => hwf x (List.mem_cons_of_mem _ hx)) hdrop
    rw [List.length_cons]
    unfold parseLoop
    rw [if_pos hlt, hit]
    exact hnext

theorem removeWhitespace_of_noBlank (s : Str) (h : ∀ c ∈ s, isBlank c = false) :
    removeWhitespace s = s := by
  have h4 : ∀ c ∈ s, c ≠ ' ' ∧ c ≠ '\n' ∧ c ≠ '\r' ∧ c ≠ '\t' := by
    intro c hc
    have hb := h c hc
    simp only [isBlank, Bool.or_eq_false_iff, beq_eq_false_iff_ne, ne_eq] at hb
    exact ⟨hb.1.1.1, hb.1.1.2, hb.1.2, hb.2⟩
  have e1 : s.filter (fun c => c != ' ') = s :=
    List.filter_eq_self.mpr (fun c hc => by simpa using (h4 c hc).1)
  have e2 : s.filter (fun c => c != '\n') = s :=
    List.filter_eq_self.mpr (fun c hc => by simpa using (h4 c hc).2.1)
  have e3 : s.filter (fun c => c != '\r') = s :=
    List.filter_eq_self.mpr (fun c hc => by simpa using (h4 c hc).2.2.1)
  have e4 : s.filter (fun c => c != '\t') = s :=
    List.filter_eq_self.mpr (fun c hc => by simpa using (h4 c hc).2.2.2)
  unfold removeWhitespace
  rw [e1, e2, e3, e4]

theorem entryText_noBlank (e : Str × FlatValue) (hwf : entryWellFormed e = true) :
    ∀ c ∈ entryText e, isBlank c = false := by
  obtain ⟨key, val⟩ := e
  simp only [entryWellFormed, Bool.and_eq_true, List.all_eq_true] at hwf
  have hk : ∀ x ∈ key, isBlank x = false := fun x hx => (plainChar_ne x (hwf.1 x hx)).2
  have hval : ∀ x ∈ val.text, isBlank x = false := by
    cases val with
    | str v =>
      have h2 := hwf.2
      simp only [FlatValue.wellFormed, List.all_eq_true] at h2
      intro x hx
      simp only [FlatValue.text, List.mem_append, List.mem_singleton] at hx
      rcases hx with (rfl | hx) | rfl
      · decide
      · exact (plainChar_ne x (h2 x hx)).2
      · decide
    | bare t =>
      have h2 := bare_chars t hwf.2
      exact fun x hx => (tokenChar_ne x (h2.2 x hx)).2.2
  intro c hc
  simp only [entryText, List.mem_append, List.mem_singleton, List.mem_cons,
    List.mem_nil_iff, or_false] at hc
  rcases hc with ((rfl | hc) | (rfl | rfl)) | hc
  · decide
  · exact hk c hc
  · decide
  · decide
  · exact hval c hc

theorem objectBody_noBlank : ∀ (es : List (Str × FlatValue)),
    (∀ e ∈ es, entryWellFormed e = true) → ∀ c ∈ objectBody es, isBlank c = false := by
  intro es
  induction es with
  | nil => intro _ c hc; simp [objectBody] at hc
  | cons e es ih =>
    intro hwf c hc
    obtain ⟨tail, hbody, htail, hrest⟩ := objectBody_cons e es
    rw [hbody] at hc
    rcases List.mem_append.mp hc with h1 | h2
    · exact entryText_noBlank e (hwf e (List.mem_cons_self _ _)) c h1
    · rcases htail with ht | ⟨more, ht⟩
      · subst ht; simp at h2
      · subst ht
        rcases List.mem_cons.mp h2 with rfl | h3
        · decide
        · exact ih (fun x hx => hwf x (List.mem_cons_of_mem _ hx)) c (hrest ▸ h3)

theorem objectText_noBlank (es : List (Str × FlatValue))
    (hwf : ∀ e ∈ es, entryWellFormed e = true) : ∀ c ∈ objectText es, isBlank c = false := by
  intro c hc
  simp only [objectText, List.mem_append, List.mem_singleton] at hc
  rcases hc with (rfl | hc) | rfl
  · decide
  · exact objectBody_noBlank es hwf c hc
  · decide

theorem stripBraces_objectText (es : List (Str × FlatValue))
    (hlen : (objectText es).length ≤ npos) :
    stripBraces (objectText es) = some (objectBody es) := by
  have hl : (objectBody es ++ ['}']).length ≤ npos := by
    simp only [objectText, List.length_append, List.length_singleton, List.length_cons,
      List.length_nil] at hlen ⊢
    omega
  have hs1 : substr (objectText es) 1 npos = objectBody es ++ ['}'] := by
    unfold substr
    have hd : (objectText es).drop 1 = objectBody es ++ ['}'] := by
      simp [objectText]
    rw [hd]
    exact List.take_of_length_le hl
  have hs2 : substr (objectBody es ++ ['}']) 0 ((objectBody es ++ ['}']).length - 1) =
      objectBody es := by
    unfold substr
    rw [List.drop_zero]
    have : (objectBody es ++ ['}']).length - 1 = (objectBody es).length := by
      simp
    rw [this, List.take_left]
  have hhead : (objectText es).head? = some '{' := by simp [objectText]
  unfold stripBraces
  rw [hhead]
  dsimp only
  rw [if_pos rfl, hs1, List.getLast?_append_of_ne_nil _ (List.cons_ne_nil _ _)]
  dsimp only [List.getLast?_singleton]
  rw [if_pos rfl, hs2]

theorem mapFind_foldl_not_mem (k : Str) : ∀ (es : List (Str × FlatValue)) (data : JsonMap),
    k ∉ es.map Prod.fst →
    mapFind (es.foldl (fun m e => mapSet m e.1 e.2.content) data) k = mapFind data k := by
  intro es
  induction es with
  | nil => intro data _; rfl
  | cons e es ih =>
    intro data hk
    simp only [List.map_cons, List.mem_cons, not_or] at hk
    rw [List.foldl_cons, ih _ hk.2]
    exact mapFind_mapSet_ne data e.1 e.2.content k hk.1

theorem mapFind_foldl_mem : ∀ (es : List (Str × FlatValue)) (data : JsonMap),
    (es.map Prod.fst).Nodup → ∀ e ∈ es,
    mapFind (es.foldl (fun m e => mapSet m e.1 e.2.content) data) e.1 = some e.2.content := by
  intro es
  induction es with
  | nil => intro data _ e he; simp at he
  | cons e0 es ih =>
    intro data hnd e he
    simp only [List.map_cons, List.nodup_cons] at hnd
    rw [List.foldl_cons]
    rcases List.mem_cons.mp he with rfl | he1
    · rw [mapFind_foldl_not_mem _ es _ hnd.1]
      exact mapFind_mapSet_self data _ _
    · exact ih _ hnd.2 e he1

theorem parse_objectText (es : List (Str × FlatValue))
    (hwf : ∀ e ∈ es, entryWellFormed e = true) (hlen : (objectText es).length ≤ npos) :
    SimpleJson.parse (objectText es) =
      some ⟨es.foldl (fun m e => mapSet m e.1 e.2.content) []⟩ := by
  have hloop : parseLoop (objectBody es) ((objectBody es).length + 1) 0 [] =
      some (es.foldl (fun m e => mapSet m e.1 e.2.content) []) :=
    parseLoop_enough _ _ _ _ (parseLoop_objectBody (objectBody es) es 0 [] hwf rfl)
  unfold SimpleJson.parse
  rw [removeWhitespace_of_noBlank _ (objectText_noBlank es hwf),
    stripBraces_objectText es hlen]
  dsimp only
  rw [hloop]

theorem entryAsClaimed_of_wellFormed (e : Str × FlatValue) (h : entryWellFormed e = true) :
    entryAsClaimed e = true := by
  obtain ⟨key, val⟩ := e
  have hq : ∀ c, plainChar c = true → quoteFree c = true := by
    intro c hc
    simp only [plainChar, Bool.and_eq_true] at hc
    simp only [quoteFree, Bool.and_eq_true]
    exact hc.1
  simp only [entryWellFormed, Bool.and_eq_true, List.all_eq_true] at h
  simp only [entryAsClaimed, Bool.and_eq_true, List.all_eq_true]
  refine ⟨fun c hc => hq c (h.1 c hc), ?_⟩
  cases val with
  | str v =>
    have h2 := h.2
    simp only [FlatValue.wellFormed, List.all_eq_true] at h2
    simp only [List.all_eq_true]
    exact fun c hc => hq c (h2 c hc)
  | bare t => exact h.2

/-- C16 (amended): for every flat JSON object text `{"k1":v1,...,"kn":vn}` (of at most
`npos` characters) with distinct keys, in which keys and string values contain no
double quote, no backslash and none of the characters blank, line feed, carriage
return and tab, and every other value is a number, `true` or `false`,
`SimpleJson::parse` returns exactly the mapping that sends each key to the text of its
value, a string value being stored unchanged and without its quotes; no other key is
in the mapping. -/
theorem parse_flat_object (es : List (Str × FlatValue))
    (hwf : ∀ e ∈ es, entryWellFormed e = true)
    (hkeys : (es.map Prod.fst).Nodup)
    (hlen : (objectText es).length ≤ npos) :
    ∃ j, SimpleJson.parse (objectText es) = some j ∧
      (∀ e ∈ es, mapFind j.data e.1 = some e.2.content) ∧
      (∀ e ∈ es, ∀ d, j.get e.1 d = e.2.content) ∧
      (∀ k, k ∉ es.map Prod.fst → mapFind j.data k = none) := by
  refine ⟨_, parse_objectText es hwf hlen, ?_, ?_, ?_⟩
  · exact mapFind_foldl_mem es [] hkeys
  · intro e he d
    unfold SimpleJson.get
    rw [mapFind_foldl_mem es [] hkeys e he]
  · intro k hk
    exact mapFind_foldl_not_mem k es [] hk

/-- Witness of C16 (amended): the sample command
`{"action":"start_stream","ip":"192.168.0.140","port":9003,"quality":50}` meets the
conditions, and `parse` gives action=start_stream, ip=192.168.0.140, port=9003,
quality=50. -/
theorem parse_flat_object_witness :
    objectText sampleMembers =
      ("\x7b\"action\":\"start_stream\",\"ip\":\"192.168.0.140\",\"port\":9003," ++
        "\"quality\":50\x7d").data ∧
    SimpleJson.parse (objectText sampleMembers) =
      some ⟨[("action".data, "start_stream".data), ("ip".data, "192.168.0.140".data),
        ("port".data, "9003".data), ("quality".data, "50".data)]⟩ ∧
    ∃ j, SimpleJson.parse (objectText sampleMembers) = some j ∧
      (∀ e ∈ sampleMembers, mapFind j.data e.1 = some e.2.content) ∧
      (∀ e ∈ sampleMembers, ∀ d, j.get e.1 d = e.2.content) ∧
      (∀ k, k ∉ sampleMembers.map Prod.fst → mapFind j.data k = none) :=
  ⟨by decide, by decide,
    parse_flat_object sampleMembers (by decide) (by decide) (by decide)⟩

/-- Counterexample to C16 as stated: `{"path":"my videos"}` is a flat object whose key
and string value hold no double quote and no backslash, yet `parse` stores
`myvideos` for `path`: the blank inside the string value is erased, so the value is
not stored with its characters unchanged. -/
theorem parse_flat_object_counterexample :
    (∀ e ∈ spacedMembers, entryAsClaimed e = true) ∧
    (spacedMembers.map Prod.fst).Nodup ∧
    objectText spacedMembers = "\x7b\"path\":\"my videos\"\x7d".data ∧
    SimpleJson.parse (objectText spacedMembers) =
      some ⟨[("path".data, "myvideos".data)]⟩ ∧
    ¬ ∃ j, SimpleJson.parse (objectText spacedMembers) = some j ∧
      ∀ e ∈ spacedMembers, mapFind j.data e.1 = some e.2.content := by
  have hp : SimpleJson.parse (objectText spacedMembers) =
      some ⟨[("path".data, "myvideos".data)]⟩ := by decide
  refine ⟨by decide, by decide, by decide, hp, ?_⟩
  rintro ⟨j, hj, hall⟩
  rw [hp] at hj
  have hj1 : j = ⟨[("path".data, "myvideos".data)]⟩ := (Option.some.inj hj).symm
  subst hj1
  have h1 := hall ("path".data, FlatValue.str "my videos".data) (List.mem_cons_self _ _)
  revert h1
  decide

end StereoStream
